import Mathlib

/-!
easiTM1638: a shallow embedding of the TM1638 display driver

The driver class `TM1638` of `easiTM1638.cpp` is embedded as a record of its
member variables together with the part of the outside world the member
functions talk to: the chronological log of Arduino pin calls, and the bytes
the chip will hand back on `shiftIn`. Every member function becomes a pure
function from states to states.

Conventions.
* `uint8_t` / `uint16_t` values are natural numbers; wherever the C code
  narrows an `int` expression back to `uint8_t` the embedding writes `% 256`.
* `_registers` (a `uint8_t[8]`) and the array behind `_tmDigitMap` are lists;
  `a[i]` is `a.getD i 0` and `a[i] = v` is `a.set i v`.
* A `for` loop whose bound is not written by its body and whose counter cannot
  wrap is a left fold over `List.range bound`.
-/

/-! ## Constants -/

/-- Modelled from the spec: the macro `ADDR_AUTO38` is used by `easiTM1638.cpp` but defined nowhere;
"auto-increment-address mode = 0x40" (the header spells it `ADDR_AUTO 0x40`). -/
abbrev ADDR_AUTO38 : Nat := 0x40

/-- Modelled from the spec: the macro `READ_KEYS38` is used by `easiTM1638.cpp` but defined nowhere;
"read-key-scan mode = 0x42" (the header spells it `READ_KEYS 0x42`). -/
abbrev READ_KEYS38 : Nat := 0x42

/-- Modelled from the spec: the macro `ADDR_FIXED38` is used by `easiTM1638.cpp` but defined nowhere;
"fixed-address mode = 0x44" (the header spells it `ADDR_FIXED 0x44`). -/
abbrev ADDR_FIXED38 : Nat := 0x44

/-- Modelled from the spec: the macro `DISP_OFF38` is used by `easiTM1638.cpp` but defined nowhere;
"display-off = 0x80" (the header spells it `DISP_OFF 0x80`). -/
abbrev DISP_OFF38 : Nat := 0x80

/-- Modelled from the spec: the macro `DISP_ON38` is used by `easiTM1638.cpp` but defined nowhere;
"display-on-base = 0x88" (the header spells it `DISP_ON 0x88`). -/
abbrev DISP_ON38 : Nat := 0x88

/-- Modelled from the spec: the macro `STARTADDR38` is used by `easiTM1638.cpp` but defined nowhere;
"first-digit base address = 0xC0" (the header spells it `STARTADDR 0xc0`). -/
abbrev STARTADDR38 : Nat := 0xc0

/-- Modelled from the spec: the macro `DP_CTRL38` is used by `easiTM1638.cpp` but defined nowhere;
"Decimal-point bit is bit 7 of a digit byte" (the header spells it `DP_CTRL 0x80`). -/
abbrev DP_CTRL38 : Nat := 0x80

/-- Modelled from the spec: the macro `INTENSITY_MAX38` is used by `easiTM1638.cpp` but defined nowhere;
"brightness (0..7)" (the header spells it `INTENSITY_MAX 0x07`). -/
abbrev INTENSITY_MAX38 : Nat := 0x07

/-- Modelled from the spec: the macro `MAX_LEDS38` is used by `easiTM1638.cpp` but defined nowhere;
"numLEDs (0..8, default 8)" (the header spells it `MAX_LEDS 8`). -/
abbrev MAX_LEDS38 : Nat := 8

/-- Modelled from the spec: the macro `MAX_DIGITS38` is used by `easiTM1638.cpp` but defined nowhere;
"numDigits (1..8, default 8)" (the header spells it `MAX_DIGITS 8`). -/
abbrev MAX_DIGITS38 : Nat := 8

/-- Modelled from the spec: the macro `MAX_BUTTONS38` is used by `easiTM1638.cpp` but defined nowhere;
"numButtons (0..8, default 8)" (the header spells it `MAX_BUTTONS 8`). -/
abbrev MAX_BUTTONS38 : Nat := 8

/-- The table of 7-segment character codes, `TM1638::tmCharTable` (47 entries). -/
def tmCharTable : List Nat :=
  [0x3f, 0x06, 0x5b, 0x4f, 0x66, 0x6d, 0x7d, 0x07, 0x7f, 0x67,
   0x77, 0x7c, 0x39, 0x5e, 0x79, 0x71,
   0x58, 0x6f, 0x74, 0x76, 0x10, 0x30, 0x1e, 0x38,
   0x54, 0x37, 0x73, 0x50, 0x78, 0x1c, 0x3e, 0x6e,
   0x00,
   0x01, 0x40, 0x08, 0x63, 0x5c, 0x46, 0x70,
   0x01, 0x02, 0x04, 0x08, 0x10, 0x20, 0x40]

/-- The identity digit map, `TM1638::tmDigitMapDefault`. -/
def tmDigitMapDefault : List Nat := [0, 1, 2, 3, 4, 5, 6, 7]

/-! ## The Arduino primitives the driver calls -/

/-- Arduino pin directions (`INPUT`, `OUTPUT`). -/
inductive PinDir where
  | INPUT
  | OUTPUT
deriving DecidableEq

/-- Arduino pin levels (`LOW`, `HIGH`). -/
inductive PinLevel where
  | LOW
  | HIGH
deriving DecidableEq

/-- One call of an Arduino pin primitive, with its arguments; `shiftOut` and `shiftIn` are
always called with `LSBFIRST`, and `shiftIn` is logged with the byte it returned. -/
inductive PinCall where
  | pinMode (pin : Nat) (dir : PinDir)
  | digitalWrite (pin : Nat) (level : PinLevel)
  | shiftOut (dataPin clockPin data : Nat)
  | shiftIn (dataPin clockPin data : Nat)
deriving DecidableEq

/-- Arduino core macro `bitWrite(value, bit, bitvalue)` applied to a `uint8_t` variable:
`value |= (1UL << bit)` when `bitvalue` is set, `value &= ~(1UL << bit)` otherwise, with
`unsigned long` 32 bits wide and the result stored back into 8 bits. -/
def bitWrite (value bit : Nat) (bitvalue : Bool) : Nat :=
  if bitvalue then (value ||| ((1 <<< bit) % 4294967296)) % 256
  else (value &&& (4294967295 ^^^ ((1 <<< bit) % 4294967296))) % 256

/-! ## The driver state -/

/-- The member variables of `class TM1638`, followed by the modelled environment:
`wire` is the log of pin calls made so far (oldest first), `keys` the bytes that the coming
`shiftIn` calls return, and `mapReads` is a ghost log of the indices at which `_tmDigitMap`
has been dereferenced (oldest first). -/
structure TM1638 where
  cmdDispCtrl : Nat
  charTableSize : Nat
  _clkPin : Nat
  _dataPin : Nat
  _stbPin : Nat
  _numLEDs : Nat
  _numDigits : Nat
  _numButtons : Nat
  _brightness : Nat
  _allLEDs : Nat
  _registers : List Nat
  _tmDigitMap : List Nat
  wire : List PinCall
  keys : List Nat
  mapReads : List Nat
deriving DecidableEq

namespace TM1638

/-- Class constructor `TM1638::TM1638(stbPin, clkPin, dataPin)`. Members the constructor does
not set are zero (the object has static storage in a sketch), `_allLEDs` and `_registers` take
their in-class initialisers, and no pin call has happened yet; `keys` is what the chip will
answer. -/
def ctor (stbPin clkPin dataPin : Nat) (keys : List Nat) : TM1638 :=
  { cmdDispCtrl := 0
    charTableSize := tmCharTable.length % 256
    _clkPin := clkPin
    _dataPin := dataPin
    _stbPin := stbPin
    _numLEDs := 0
    _numDigits := 0
    _numButtons := 0
    _brightness := 0
    _allLEDs := 0
    _registers := List.replicate MAX_DIGITS38 0
    _tmDigitMap := []
    wire := []
    keys := keys
    mapReads := [] }

/-- Arduino `pinMode(pin, dir)`. -/
def pinMode (s : TM1638) (pin : Nat) (dir : PinDir) : TM1638 :=
  { s with wire := s.wire ++ [PinCall.pinMode pin dir] }

/-- Arduino `digitalWrite(pin, level)`. -/
def digitalWrite (s : TM1638) (pin : Nat) (level : PinLevel) : TM1638 :=
  { s with wire := s.wire ++ [PinCall.digitalWrite pin level] }

/-- Send a start signal: `TM1638::start`. -/
def start (s : TM1638) : TM1638 :=
  digitalWrite s s._stbPin PinLevel.LOW

/-- Send a stop signal: `TM1638::stop`. -/
def stop (s : TM1638) : TM1638 :=
  digitalWrite s s._stbPin PinLevel.HIGH

/-- Write a byte of data: `TM1638::writeByte`, one `shiftOut` of the `uint8_t` argument. -/
def writeByte (s : TM1638) (data : Nat) : TM1638 :=
  { s with wire := s.wire ++ [PinCall.shiftOut s._dataPin s._clkPin (data % 256)] }

/-- Read a byte of data: `TM1638::readByte`, one `shiftIn`; the byte comes from `keys`, and
an exhausted `keys` reads as 0. -/
def readByte (s : TM1638) : Nat × TM1638 :=
  let data := s.keys.headD 0 % 256
  (data, { s with keys := s.keys.tail,
                  wire := s.wire ++ [PinCall.shiftIn s._dataPin s._clkPin data] })

/-- Write a command: `TM1638::writeCommand`. -/
def writeCommand (s : TM1638) (command : Nat) : TM1638 :=
  let s := start s
  let s := writeByte s command
  stop s

/-- The read `_tmDigitMap[digit]`, which also records `digit` in the ghost log. -/
def digitMapAt (s : TM1638) (digit : Nat) : Nat × TM1638 :=
  (s._tmDigitMap.getD digit 0, { s with mapReads := s.mapReads ++ [digit] })

/-- Write the given logical digit value to the correct physical digit: `TM1638::writeDigit`. -/
def writeDigit (s : TM1638) (digit : Nat) (LED : Bool) : TM1638 :=
  let s := start s
  let s :=
    if LED then
      let (phys, s) := digitMapAt s digit
      let s := writeByte s (STARTADDR38 + (phys <<< 1) + 1)
      writeByte s ((s._allLEDs >>> digit) &&& 0x01)
    else
      let (phys, s) := digitMapAt s digit
      let s := writeByte s (STARTADDR38 + (phys <<< 1))
      writeByte s (s._registers.getD digit 0)
  stop s

/-- Turn ON/OFF the LED at a specific position: `TM1638::displayLED1`. -/
def displayLED1 (s : TM1638) (digit : Nat) (status : Bool) : TM1638 :=
  if s._numLEDs > 0 ∧ digit < s._numLEDs then
    let s := { s with _allLEDs := bitWrite s._allLEDs digit status }
    let s := writeCommand s ADDR_FIXED38
    writeDigit s digit true
  else s

/-- Turn ON/OFF the decimal point in a specific digit: `TM1638::displayDP`. -/
def displayDP (s : TM1638) (digit : Nat) (status : Bool) : TM1638 :=
  if digit < s._numDigits then
    let s := { s with _registers := s._registers.set digit
                        (bitWrite (s._registers.getD digit 0) 7 status) }
    let s := writeCommand s ADDR_FIXED38
    writeDigit s digit false
  else s

/-- Display a character in a specific digit: `TM1638::displayChar`. -/
def displayChar (s : TM1638) (digit number : Nat) (raw : Bool) : TM1638 :=
  if digit < s._numDigits then
    let number :=
      if raw then
        let number := number &&& 0x7f
        number ||| (s._registers.getD digit 0 &&& DP_CTRL38)
      else
        let number := if number ≥ s.charTableSize then 0x20 else number
        let number := tmCharTable.getD number 0
        number ||| (s._registers.getD digit 0 &&& DP_CTRL38)
    let s := { s with _registers := s._registers.set digit number }
    let s := writeCommand s ADDR_FIXED38
    writeDigit s digit false
  else s

/-- The assignment `_registers[i] = (_registers[j] & DP_CTRL38) | (tmCharTable[k] & 0x7f)`
that all the number-display functions are made of. -/
def putGlyph (s : TM1638) (i j k : Nat) : TM1638 :=
  { s with _registers := s._registers.set i
                      ((s._registers.getD j 0 &&& DP_CTRL38) ||| (tmCharTable.getD k 0 &&& 0x7f)) }

/-- Clear all the LEDs and digits (+dps) in the display: `TM1638::displayClear`. -/
def displayClear (s : TM1638) : TM1638 :=
  (List.range s._numDigits).foldl (fun s digit =>
    let s := displayLED1 s digit false
    let s := displayChar s digit 0x00 true
    displayDP s digit false) s

/-- Set the brightness and turn the display ON: `TM1638::displayBrightness`. -/
def displayBrightness (s : TM1638) (brightness : Nat) : TM1638 :=
  let s := { s with _brightness := brightness &&& INTENSITY_MAX38 }
  let s := { s with cmdDispCtrl := (DISP_ON38 + s._brightness) % 256 }
  writeCommand s s.cmdDispCtrl

/-- Turn the display OFF: `TM1638::displayOff`. -/
def displayOff (s : TM1638) : TM1638 :=
  let s := { s with cmdDispCtrl := DISP_OFF38 }
  writeCommand s s.cmdDispCtrl

/-- Set up the display with a supplied digit map:
`TM1638::begin(tmDigitMap, numButtons, numLEDs, numDigits, brightness)`. -/
def begin (s : TM1638) (tmDigitMap : List Nat) (numButtons numLEDs numDigits brightness : Nat) :
    TM1638 :=
  let s := { s with _tmDigitMap := tmDigitMap }
  let s := { s with _numLEDs := if numLEDs > 0 ∧ numLEDs ≤ MAX_LEDS38 then numLEDs else 0 }
  let s := { s with _numDigits := if numDigits > 0 ∧ numDigits ≤ MAX_DIGITS38 then numDigits
                                  else 1 }
  let s := { s with _numButtons := if numButtons > 0 ∧ numButtons ≤ MAX_BUTTONS38 then numButtons
                                   else 0 }
  let s := pinMode s s._clkPin PinDir.OUTPUT
  let s := pinMode s s._dataPin PinDir.OUTPUT
  let s := pinMode s s._stbPin PinDir.OUTPUT
  let s := displayClear s
  displayBrightness s brightness

/-- Set up the display with the default digit map:
`TM1638::begin(numButtons, numLEDs, numDigits, brightness)`. -/
def beginDefault (s : TM1638) (numButtons numLEDs numDigits brightness : Nat) : TM1638 :=
  begin s tmDigitMapDefault numButtons numLEDs numDigits brightness

/-- Test the display: `TM1638::displayTest`. -/
def displayTest (s : TM1638) (dispTest : Bool) : TM1638 :=
  let s := writeCommand s ADDR_AUTO38
  let s := start s
  let s := writeByte s STARTADDR38
  let s :=
    if dispTest then
      (List.range (max s._numDigits s._numLEDs)).foldl (fun s _ =>
        let s := writeByte s 0xff
        writeByte s 0x01) s
    else
      (List.range (max s._numDigits s._numLEDs)).foldl (fun s digit =>
        let s := writeByte s (s._registers.getD digit 0)
        writeByte s ((s._allLEDs >>> digit) &&& 0x01)) s
  stop s

/-- Display an 8-bit binary number on digits 0..7: `TM1638::displayBin8`. -/
def displayBin8 (s : TM1638) (number : Nat) (lsbFirst : Bool) : TM1638 :=
  if s._numDigits > 7 then
    (List.range 8).foldl (fun s digit =>
      let s :=
        if lsbFirst then putGlyph s digit digit ((number >>> digit) &&& 0x01)
        else putGlyph s digit (7 - digit) ((number >>> (7 - digit)) &&& 0x01)
      let s := writeCommand s ADDR_FIXED38
      writeDigit s digit false) s
  else s

/-- Display a 2-digit decimal or hexadecimal number: `TM1638::displayInt8`. -/
def displayInt8 (s : TM1638) (digit number : Nat) (useDec : Bool) : TM1638 :=
  if s._numDigits > 1 ∧ digit < s._numDigits - 1 then
    let s :=
      if useDec then
        let number := if number > 99 then 99 else number
        let s := putGlyph s digit digit ((number / 10) % 10)
        putGlyph s (digit + 1) (digit + 1) (number % 10)
      else
        let s := putGlyph s digit digit ((number / 16) % 16)
        putGlyph s (digit + 1) (digit + 1) (number % 16)
    let s := writeCommand s ADDR_FIXED38
    let s := writeDigit s digit false
    writeDigit s ((digit + 1) % 256) false
  else s

/-- Display a 3-digit decimal or hexadecimal number: `TM1638::displayInt12`. -/
def displayInt12 (s : TM1638) (digit number : Nat) (useDec : Bool) : TM1638 :=
  if s._numDigits > 2 ∧ digit < s._numDigits - 2 then
    let s :=
      if useDec then
        let number := if number > 999 then 999 else number
        let s := putGlyph s digit digit ((number / 100) % 10)
        let s := putGlyph s (digit + 1) (digit + 1) ((number / 10) % 10)
        putGlyph s (digit + 2) (digit + 2) (number % 10)
      else
        let number := if number > 0xfff then 0xfff else number
        let s := putGlyph s digit digit ((number / 256) % 16)
        let s := putGlyph s (digit + 1) (digit + 1) ((number / 16) % 16)
        putGlyph s (digit + 2) (digit + 2) (number % 16)
    let s := writeCommand s ADDR_FIXED38
    let s := writeDigit s digit false
    let s := writeDigit s ((digit + 1) % 256) false
    writeDigit s ((digit + 2) % 256) false
  else s

/-- Display a 4-digit decimal or hexadecimal number: `TM1638::displayInt16`. -/
def displayInt16 (s : TM1638) (digit number : Nat) (useDec : Bool) : TM1638 :=
  if s._numDigits > 3 ∧ digit < s._numDigits - 3 then
    let s :=
      if useDec then
        let number := if number > 9999 then 9999 else number
        let s := putGlyph s digit digit ((number / 1000) % 10)
        let s := putGlyph s (digit + 1) (digit + 1) ((number / 100) % 10)
        let s := putGlyph s (digit + 2) (digit + 2) ((number / 10) % 10)
        putGlyph s (digit + 3) (digit + 3) (number % 10)
      else
        let s := putGlyph s digit digit ((number / 4096) % 16)
        let s := putGlyph s (digit + 1) (digit + 1) ((number / 256) % 16)
        let s := putGlyph s (digit + 2) (digit + 2) ((number / 16) % 16)
        putGlyph s (digit + 3) (digit + 3) (number % 16)
    let s := writeCommand s ADDR_FIXED38
    let s := writeDigit s digit false
    let s := writeDigit s ((digit + 1) % 256) false
    let s := writeDigit s ((digit + 2) % 256) false
    writeDigit s ((digit + 3) % 256) false
  else s

/-- Display an 8-bit binary number on the LEDs: `TM1638::displayLED8`. -/
def displayLED8 (s : TM1638) (number : Nat) (lsbFirst : Bool) : TM1638 :=
  if s._numLEDs > 7 then
    (List.range 8).foldl (fun s digit =>
      if lsbFirst then displayLED1 s digit (((number >>> digit) &&& 0x01) != 0)
      else displayLED1 s digit (((number >>> (7 - digit)) &&& 0x01) != 0)) s
  else s

/-- Read the buttons from 4 bytes into a single byte: `TM1638::readButtons`. The `int` value
`buttons | (readByte() << counter)` is stored back into the `uint8_t buttons` each round. -/
def readButtons (s : TM1638) : Nat × TM1638 :=
  let buttons := 0
  if s._numButtons > 0 then
    let s := start s
    let s := writeByte s READ_KEYS38
    let s := pinMode s s._dataPin PinDir.INPUT
    let (buttons, s) := (List.range 4).foldl (fun (acc : Nat × TM1638) counter =>
      let (data, s) := readByte acc.2
      ((acc.1 ||| (data <<< counter)) % 256, s)) (buttons, s)
    let s := pinMode s s._dataPin PinDir.OUTPUT
    let s := stop s
    (buttons, s)
  else (buttons, s)

end TM1638

/-! ## Driver states the claims range over -/

namespace TM1638

/-- A constructed driver whose counts have been clamped by `begin`: the character table size
is the one the constructor computed, the shadow array has its declared length, and the digit
and LED counts do not exceed it. -/
def Ready (s : TM1638) : Prop :=
  s.charTableSize = 47 ∧ s._registers.length = MAX_DIGITS38 ∧
    s._numDigits ≤ MAX_DIGITS38 ∧ s._numLEDs ≤ MAX_LEDS38

instance (s : TM1638) : Decidable (Ready s) := by
  unfold Ready; infer_instance

/-- The four quantities `Ready` speaks about. -/
def shape (s : TM1638) : Nat × Nat × Nat × Nat :=
  (s.charTableSize, s._registers.length, s._numDigits, s._numLEDs)

/-- The driver state with the log of pin calls blanked: all that a call can have changed
besides talking on the bus. -/
def unwired (s : TM1638) : TM1638 := { s with wire := [] }

/-- The driver on pins 4, 2, 3 after `begin()` with all its default arguments. -/
def demo : TM1638 := beginDefault (ctor 4 2 3 []) 8 8 8 2

end TM1638

/-! ## The chip at the other end of the wires -/

/-- Modelled from the spec: the TM1638 chip is hardware, not code of this repository. Its
display memory is the 16 bytes at addresses 0xC0..0xCF (`mem`, indexed from 0xC0). A
transaction runs from strobe low to strobe high; its first byte is a command: 0x40 selects
auto-increment addressing, 0x44 fixed addressing, 0xC0..0xCF sets the display address. Every
further byte of a transaction opened by an address byte is stored at the current address,
which then moves on by one in auto-increment mode. -/
structure Chip where
  selected : Bool
  first : Bool
  autoInc : Bool
  addr : Option Nat
  mem : List Nat
deriving DecidableEq

namespace Chip

/-- The chip before anything was sent: idle, auto-increment mode, display memory all zero. -/
def init : Chip :=
  { selected := false, first := false, autoInc := true, addr := none,
    mem := List.replicate 16 0 }

/-- The first byte of a transaction, taken as a command. -/
def command (c : Chip) (b : Nat) : Chip :=
  { c with first := false,
           autoInc := if b = 0x40 then true else if b = 0x44 then false else c.autoInc,
           addr := if 0xc0 ≤ b ∧ b ≤ 0xcf then some (b - 0xc0) else none }

/-- A later byte of a transaction, taken as display data. -/
def store (c : Chip) (b : Nat) : Chip :=
  { c with mem := match c.addr with
                  | some a => c.mem.set a b
                  | none => c.mem,
           addr := match c.addr with
                   | some a => some (if c.autoInc then a + 1 else a)
                   | none => none }

/-- What one pin call does to the chip whose strobe input is wired to pin `stb`. -/
def step (stb : Nat) (c : Chip) : PinCall → Chip
  | PinCall.digitalWrite pin PinLevel.LOW =>
      if pin = stb then { c with selected := true, first := true, addr := none } else c
  | PinCall.digitalWrite pin PinLevel.HIGH =>
      if pin = stb then { c with selected := false } else c
  | PinCall.shiftOut _ _ data =>
      if c.selected then (if c.first then command c data else store c data) else c
  | PinCall.pinMode _ _ => c
  | PinCall.shiftIn _ _ _ => c

/-- The chip after a whole log of pin calls. -/
def run (stb : Nat) (c : Chip) (w : List PinCall) : Chip :=
  w.foldl (step stb) c

/-- The byte of display memory at chip address `a` (0xC0..0xCF). -/
def byteAt (c : Chip) (a : Nat) : Nat :=
  c.mem.getD (a - 0xc0) 0

end Chip

namespace TM1638

/-- The chip as the pin calls made so far have left it. -/
def chip (s : TM1638) : Chip :=
  Chip.run s._stbPin Chip.init s.wire

/-- The driver on pins 4, 2, 3 with the first two digits swapped in the digit map, after
`begin` with the default counts and brightness, `displayChar(0, 8)` and `displayLED1(0, ON)`. -/
def swapped : TM1638 :=
  displayLED1 (displayChar (begin (ctor 4 2 3 []) [1, 0, 2, 3, 4, 5, 6, 7] 8 8 8 2) 0 8 false)
    0 true

/-- The driver on pins 4, 2, 3 set up for 8 buttons, 8 LEDs and 4 digits with the default
digit map. -/
def fourDigits : TM1638 := beginDefault (ctor 4 2 3 []) 8 8 4 2

end TM1638

namespace TM1638

/-- The driver state with the shadow registers, the LED mask and the two logs blanked: the
part no display function writes. -/
def fixedPart (s : TM1638) : TM1638 :=
  { s with _registers := [], _allLEDs := 0, wire := [], mapReads := [] }

end TM1638

namespace TM1638

/-- Between the state `s` and the later state `t`, every lookup into the digit map used an
index below `n`: the ghost log of `t` is that of `s` followed by indices below `n`. -/
def LookupsBelow (s t : TM1638) (n : Nat) : Prop :=
  ∃ new, t.mapReads = s.mapReads ++ new ∧ ∀ i ∈ new, i < n

end TM1638

namespace TM1638

/-- The shadow state: the registers and the LED mask. -/
def shadow (s : TM1638) : List Nat × Nat :=
  (s._registers, s._allLEDs)

/-- What one round of the `displayClear` loop does to the shadow state of a driver with `nd`
digits and `nl` LEDs: register `d` is zeroed when `d < nd`, LED bit `d` cleared when
`d < nl`. -/
def clearStep (nd nl : Nat) (x : List Nat × Nat) (d : Nat) : List Nat × Nat :=
  (if d < nd then x.1.set d 0 else x.1,
   if nl > 0 ∧ d < nl then bitWrite x.2 d false else x.2)

end TM1638

/-! ## Calls, and the consistency of chip and shadow state -/

namespace TM1638

/-- The assignment `_registers[d] = x`. -/
def putReg (s : TM1638) (d x : Nat) : TM1638 :=
  { s with _registers := s._registers.set d x }

/-- The assignment `_allLEDs = m`. -/
def putLeds (s : TM1638) (m : Nat) : TM1638 :=
  { s with _allLEDs := m }

/-- One call of a public display function, with its arguments. -/
inductive Call where
  | displayClear
  | displayChar (digit number : Nat) (raw : Bool)
  | displayDP (digit : Nat) (status : Bool)
  | displayInt8 (digit number : Nat) (useDec : Bool)
  | displayInt12 (digit number : Nat) (useDec : Bool)
  | displayInt16 (digit number : Nat) (useDec : Bool)
  | displayBin8 (number : Nat) (lsbFirst : Bool)
  | displayLED1 (digit : Nat) (status : Bool)
  | displayLED8 (number : Nat) (lsbFirst : Bool)
deriving DecidableEq

/-- The driver after one call. -/
def perform (s : TM1638) : Call → TM1638
  | Call.displayClear => displayClear s
  | Call.displayChar digit number raw => displayChar s digit number raw
  | Call.displayDP digit status => displayDP s digit status
  | Call.displayInt8 digit number useDec => displayInt8 s digit number useDec
  | Call.displayInt12 digit number useDec => displayInt12 s digit number useDec
  | Call.displayInt16 digit number useDec => displayInt16 s digit number useDec
  | Call.displayBin8 number lsbFirst => displayBin8 s number lsbFirst
  | Call.displayLED1 digit status => displayLED1 s digit status
  | Call.displayLED8 number lsbFirst => displayLED8 s number lsbFirst

/-- The driver after a sequence of calls, first call first. -/
def performAll (s : TM1638) (calls : List Call) : TM1638 :=
  calls.foldl perform s

/-- A digit map with 8 distinct entries below 8. -/
def ValidMap (m : List Nat) : Prop :=
  m.length = 8 ∧ (∀ i, i < 8 → m.getD i 0 < 8) ∧
    (∀ i, i < 8 → ∀ j, j < 8 → m.getD i 0 = m.getD j 0 → i = j)

instance (m : List Nat) : Decidable (ValidMap m) := by
  unfold ValidMap; infer_instance

/-- The shadow array as C declares it: 8 entries, each a byte. -/
def ByteRegisters (l : List Nat) : Prop :=
  l.length = 8 ∧ (∀ i, i < 8 → l.getD i 0 < 256)

instance (l : List Nat) : Decidable (ByteRegisters l) := by
  unfold ByteRegisters; infer_instance

/-- A driver with byte registers, a valid digit map and counts of at most 8. -/
def Sound (s : TM1638) : Prop :=
  ByteRegisters s._registers ∧ ValidMap s._tmDigitMap ∧ s._numDigits ≤ 8 ∧ s._numLEDs ≤ 8

/-- The chip's segment slot of logical digit `i`, at 0xC0 + 2 * digitMap[i], holds shadow
register `i`. -/
def Synced (s : TM1638) (i : Nat) : Prop :=
  s.chip.byteAt (0xc0 + 2 * s._tmDigitMap.getD i 0) = s._registers.getD i 0

/-- Shadow/chip consistency: a sound driver whose every configured digit is synced. -/
def Consistent (s : TM1638) : Prop :=
  Sound s ∧ ∀ i, i < s._numDigits → Synced s i

end TM1638

/-! ## Arithmetic of the register byte -/

theorem land_dp_eq (r : Nat) : r &&& 0x80 = 128 * (r / 128 % 2) := by
  have h := Nat.and_two_pow r 7
  rw [Nat.toNat_testBit] at h
  simpa [Nat.mul_comm] using h

theorem land_seg_eq (g : Nat) : g &&& 0x7f = g % 128 :=
  Nat.and_pow_two_sub_one_eq_mod g 7

theorem merge_dp_seg (r g : Nat) :
    (r &&& 0x80) ||| (g &&& 0x7f) = 128 * (r / 128 % 2) + g % 128 := by
  rw [land_dp_eq, land_seg_eq]
  exact (Nat.mul_add_lt_is_or (i := 7) (Nat.mod_lt _ (by norm_num)) _).symm

theorem merge_seg_dp (r g : Nat) :
    (g &&& 0x7f) ||| (r &&& 0x80) = 128 * (r / 128 % 2) + g % 128 := by
  rw [Nat.lor_comm]; exact merge_dp_seg r g

theorem merge_small_dp (r t : Nat) (ht : t < 128) :
    t ||| (r &&& 0x80) = 128 * (r / 128 % 2) + t := by
  have h := merge_seg_dp r t
  rw [land_seg_eq, Nat.mod_eq_of_lt ht] at h
  exact h

theorem lor_mod_byte (a b : Nat) : (a ||| b) % 256 = (a % 256 ||| b % 256) := by
  apply Nat.eq_of_testBit_eq
  intro i
  have h : (256 : Nat) = 2 ^ 8 := by norm_num
  simp only [h, Nat.testBit_mod_two_pow, Nat.testBit_lor, Bool.and_or_distrib_left]

theorem land_mod_byte (a b : Nat) : (a &&& b) % 256 = (a % 256 &&& b % 256) := by
  apply Nat.eq_of_testBit_eq
  intro i
  have h : (256 : Nat) = 2 ^ 8 := by norm_num
  simp only [h, Nat.testBit_mod_two_pow, Nat.testBit_land]
  cases decide (i < 8) <;> simp

set_option maxRecDepth 100000 in
theorem byte_lor_dp : ∀ x < 256, (x ||| 128) = 128 + x % 128 := by decide

set_option maxRecDepth 100000 in
theorem byte_land_seg : ∀ x < 256, (x &&& 127) = x % 128 := by decide

theorem bitWrite_seven_true (r : Nat) : bitWrite r 7 true = 128 + r % 128 := by
  have h0 : ((1 <<< 7) % 4294967296 : Nat) = 128 := by decide
  have h := byte_lor_dp (r % 256) (Nat.mod_lt _ (by norm_num))
  simp only [bitWrite, h0, if_true]
  rw [lor_mod_byte, show (128 : Nat) % 256 = 128 from rfl, h]
  omega

theorem bitWrite_seven_false (r : Nat) : bitWrite r 7 false = r % 128 := by
  have h0 : (4294967295 ^^^ ((1 <<< 7) % 4294967296) : Nat) % 256 = 127 := by decide
  have h := byte_land_seg (r % 256) (Nat.mod_lt _ (by norm_num))
  simp only [bitWrite, Bool.false_eq_true, if_false]
  rw [land_mod_byte, h0, h]
  omega

/-- Every entry of the character table, and the value read past its end, fits in 7 bits. -/
theorem tmCharTable_lt (k : Nat) : tmCharTable.getD k 0 < 128 := by
  by_cases h : k < 47
  · revert k; decide
  · have hk : tmCharTable.length ≤ k := by simp [tmCharTable]; omega
    rw [List.getD_eq_default _ _ hk]; norm_num

theorem tmCharTable_seg (k : Nat) : tmCharTable.getD k 0 &&& 0x7f = tmCharTable.getD k 0 := by
  rw [land_seg_eq]; exact Nat.mod_eq_of_lt (tmCharTable_lt k)

/-! ## Lists as C arrays -/

theorem getD_set_self (l : List Nat) (i v : Nat) (h : i < l.length) :
    (l.set i v).getD i 0 = v := by
  simp [List.getD_eq_getElem?_getD, List.getElem?_set, h]

theorem getD_set_other (l : List Nat) (i j v : Nat) (h : i ≠ j) :
    (l.set i v).getD j 0 = l.getD j 0 := by
  simp [List.getD_eq_getElem?_getD, List.getElem?_set, h]

theorem length_eq_eight (l : List Nat) (h : l.length = 8) :
    ∃ a b c d e f g k, l = [a, b, c, d, e, f, g, k] := by
  match l, h with
  | [a, b, c, d, e, f, g, k], _ => exact ⟨a, b, c, d, e, f, g, k, rfl⟩

/-! ## What the transport functions leave alone -/

namespace TM1638

@[simp] theorem writeCommand_registers (s : TM1638) (c : Nat) :
    (writeCommand s c)._registers = s._registers := rfl

@[simp] theorem writeCommand_allLEDs (s : TM1638) (c : Nat) :
    (writeCommand s c)._allLEDs = s._allLEDs := rfl

@[simp] theorem writeCommand_numDigits (s : TM1638) (c : Nat) :
    (writeCommand s c)._numDigits = s._numDigits := rfl

@[simp] theorem writeCommand_numLEDs (s : TM1638) (c : Nat) :
    (writeCommand s c)._numLEDs = s._numLEDs := rfl

@[simp] theorem writeCommand_charTableSize (s : TM1638) (c : Nat) :
    (writeCommand s c).charTableSize = s.charTableSize := rfl

@[simp] theorem writeDigit_registers (s : TM1638) (d : Nat) (b : Bool) :
    (writeDigit s d b)._registers = s._registers := by cases b <;> rfl

@[simp] theorem writeDigit_allLEDs (s : TM1638) (d : Nat) (b : Bool) :
    (writeDigit s d b)._allLEDs = s._allLEDs := by cases b <;> rfl

@[simp] theorem writeDigit_numDigits (s : TM1638) (d : Nat) (b : Bool) :
    (writeDigit s d b)._numDigits = s._numDigits := by cases b <;> rfl

@[simp] theorem writeDigit_numLEDs (s : TM1638) (d : Nat) (b : Bool) :
    (writeDigit s d b)._numLEDs = s._numLEDs := by cases b <;> rfl

@[simp] theorem writeDigit_charTableSize (s : TM1638) (d : Nat) (b : Bool) :
    (writeDigit s d b).charTableSize = s.charTableSize := by cases b <;> rfl

/-! ## The shadow registers after each display function -/

theorem displayChar_registers (s : TM1638) (d v : Nat) (raw : Bool) (hd : d < s._numDigits) :
    (displayChar s d v raw)._registers = s._registers.set d
      (128 * (s._registers.getD d 0 / 128 % 2) +
        (if raw then v % 128
         else tmCharTable.getD (if v ≥ s.charTableSize then 0x20 else v) 0)) := by
  unfold displayChar
  rw [if_pos hd]
  cases raw
  · simp only [writeDigit_registers, writeCommand_registers, Bool.false_eq_true, if_false]
    rw [merge_small_dp _ _ (tmCharTable_lt _)]
  · simp only [writeDigit_registers, writeCommand_registers, if_true]
    rw [merge_seg_dp]

theorem displayDP_registers (s : TM1638) (d : Nat) (dp : Bool) (hd : d < s._numDigits) :
    (displayDP s d dp)._registers = s._registers.set d
      ((if dp then 128 else 0) + s._registers.getD d 0 % 128) := by
  unfold displayDP
  rw [if_pos hd]
  cases dp
  · simp only [writeDigit_registers, writeCommand_registers, bitWrite_seven_false]
    simp
  · simp only [writeDigit_registers, writeCommand_registers, bitWrite_seven_true]
    simp

theorem putGlyph_registers (s : TM1638) (i j k : Nat) :
    (putGlyph s i j k)._registers = s._registers.set i
      (128 * (s._registers.getD j 0 / 128 % 2) + tmCharTable.getD k 0) := by
  unfold putGlyph
  rw [merge_dp_seg, Nat.mod_eq_of_lt (tmCharTable_lt k)]

theorem glyph_of_bit (v i : Nat) :
    tmCharTable.getD ((v >>> i) &&& 0x01) 0 = if v.testBit i then 0x06 else 0x3f := by
  rw [Nat.and_one_is_mod, Nat.shiftRight_eq_div_pow, Nat.testBit_to_div_mod]
  rcases Nat.mod_two_eq_zero_or_one (v / 2 ^ i) with h | h <;> simp [h, tmCharTable]

theorem range_eight : List.range 8 = [0, 1, 2, 3, 4, 5, 6, 7] := by decide

/-- The shadow registers after `displayBin8` in LSB-first order: every digit keeps its own
decimal point and shows its own bit. -/
theorem displayBin8_lsb_registers (s : TM1638) (v a b c d e f g k : Nat)
    (hn : s._numDigits > 7) (hr : s._registers = [a, b, c, d, e, f, g, k]) :
    (displayBin8 s v true)._registers =
      [128 * (a / 128 % 2) + (if v.testBit 0 then 0x06 else 0x3f),
       128 * (b / 128 % 2) + (if v.testBit 1 then 0x06 else 0x3f),
       128 * (c / 128 % 2) + (if v.testBit 2 then 0x06 else 0x3f),
       128 * (d / 128 % 2) + (if v.testBit 3 then 0x06 else 0x3f),
       128 * (e / 128 % 2) + (if v.testBit 4 then 0x06 else 0x3f),
       128 * (f / 128 % 2) + (if v.testBit 5 then 0x06 else 0x3f),
       128 * (g / 128 % 2) + (if v.testBit 6 then 0x06 else 0x3f),
       128 * (k / 128 % 2) + (if v.testBit 7 then 0x06 else 0x3f)] := by
  unfold displayBin8
  rw [if_pos hn, range_eight]
  simp only [List.foldl_cons, List.foldl_nil, if_true, writeDigit_registers,
    writeCommand_registers, putGlyph_registers, glyph_of_bit, hr, List.set_cons_zero,
    List.set_cons_succ, List.getD_cons_zero, List.getD_cons_succ]

theorem dp_of_bit_glyph (x : Nat) (b : Bool) :
    (128 * (x / 128 % 2) + (if b = true then 0x06 else 0x3f)) / 128 % 2 = x / 128 % 2 := by
  cases b <;> simp <;> omega

/-- The shadow registers after `displayBin8` in MSB-first order: digit `i` shows bit `7 - i`,
digits 4..7 keep their own decimal point, and digits 0..3 take the decimal point of digits
7..4. -/
theorem displayBin8_msb_registers (s : TM1638) (v a b c d e f g k : Nat)
    (hn : s._numDigits > 7) (hr : s._registers = [a, b, c, d, e, f, g, k]) :
    (displayBin8 s v false)._registers =
      [128 * (k / 128 % 2) + (if v.testBit 7 then 0x06 else 0x3f),
       128 * (g / 128 % 2) + (if v.testBit 6 then 0x06 else 0x3f),
       128 * (f / 128 % 2) + (if v.testBit 5 then 0x06 else 0x3f),
       128 * (e / 128 % 2) + (if v.testBit 4 then 0x06 else 0x3f),
       128 * (e / 128 % 2) + (if v.testBit 3 then 0x06 else 0x3f),
       128 * (f / 128 % 2) + (if v.testBit 2 then 0x06 else 0x3f),
       128 * (g / 128 % 2) + (if v.testBit 1 then 0x06 else 0x3f),
       128 * (k / 128 % 2) + (if v.testBit 0 then 0x06 else 0x3f)] := by
  unfold displayBin8
  rw [if_pos hn, range_eight]
  simp only [List.foldl_cons, List.foldl_nil, Bool.false_eq_true, if_false, writeDigit_registers,
    writeCommand_registers, putGlyph_registers, glyph_of_bit, hr, List.set_cons_zero,
    List.set_cons_succ, List.getD_cons_zero, List.getD_cons_succ, dp_of_bit_glyph,
    Nat.reduceSub]

/-! ## What the display functions leave alone -/

theorem foldl_keeps {α β : Type} (p : TM1638 → β) (f : TM1638 → α → TM1638)
    (h : ∀ s a, p (f s a) = p s) (l : List α) (s : TM1638) : p (l.foldl f s) = p s := by
  induction l generalizing s with
  | nil => rfl
  | cons a l ih => rw [List.foldl_cons, ih, h]

@[simp] theorem displayLED1_numDigits (s : TM1638) (d : Nat) (b : Bool) :
    (displayLED1 s d b)._numDigits = s._numDigits := by
  unfold displayLED1; split <;> simp

@[simp] theorem displayChar_numDigits (s : TM1638) (d v : Nat) (raw : Bool) :
    (displayChar s d v raw)._numDigits = s._numDigits := by
  unfold displayChar; split <;> simp

@[simp] theorem displayDP_numDigits (s : TM1638) (d : Nat) (b : Bool) :
    (displayDP s d b)._numDigits = s._numDigits := by
  unfold displayDP; split <;> simp

@[simp] theorem displayClear_numDigits (s : TM1638) :
    (displayClear s)._numDigits = s._numDigits := by
  unfold displayClear
  exact foldl_keeps (fun s => s._numDigits) _ (fun s a => by simp) _ s

@[simp] theorem displayBrightness_numDigits (s : TM1638) (b : Nat) :
    (displayBrightness s b)._numDigits = s._numDigits := rfl

/-- The digit count recorded by `begin`: the argument when it lies in 1..8, otherwise 1. -/
theorem begin_numDigits (s : TM1638) (m : List Nat) (nb nl nd br : Nat) :
    (begin s m nb nl nd br)._numDigits = if nd > 0 ∧ nd ≤ MAX_DIGITS38 then nd else 1 := by
  unfold begin
  simp only [displayBrightness_numDigits, displayClear_numDigits, pinMode]

@[simp] theorem displayDP_charTableSize (s : TM1638) (d : Nat) (b : Bool) :
    (displayDP s d b).charTableSize = s.charTableSize := by
  unfold displayDP; split <;> simp

@[simp] theorem displayChar_charTableSize (s : TM1638) (d v : Nat) (raw : Bool) :
    (displayChar s d v raw).charTableSize = s.charTableSize := by
  unfold displayChar; split <;> simp

/-- The byte `displayChar` leaves in the shadow register of the digit it writes. -/
theorem displayChar_reg_self (s : TM1638) (d v : Nat) (raw : Bool) (hd : d < s._numDigits)
    (hl : d < s._registers.length) :
    (displayChar s d v raw)._registers.getD d 0 =
      128 * (s._registers.getD d 0 / 128 % 2) +
        (if raw then v % 128
         else tmCharTable.getD (if v ≥ s.charTableSize then 0x20 else v) 0) := by
  rw [displayChar_registers s d v raw hd, getD_set_self _ _ _ hl]

/-- The byte `displayDP` leaves in the shadow register of the digit it writes. -/
theorem displayDP_reg_self (s : TM1638) (d : Nat) (dp : Bool) (hd : d < s._numDigits)
    (hl : d < s._registers.length) :
    (displayDP s d dp)._registers.getD d 0 =
      (if dp then 128 else 0) + s._registers.getD d 0 % 128 := by
  rw [displayDP_registers s d dp hd, getD_set_self _ _ _ hl]

theorem displayChar_length (s : TM1638) (d v : Nat) (raw : Bool) :
    (displayChar s d v raw)._registers.length = s._registers.length := by
  unfold displayChar; split <;> simp

theorem displayDP_length (s : TM1638) (d : Nat) (dp : Bool) :
    (displayDP s d dp)._registers.length = s._registers.length := by
  unfold displayDP; split <;> simp

theorem Ready.digit_lt {s : TM1638} (h : Ready s) {d : Nat} (hd : d < s._numDigits) :
    d < s._registers.length := by
  obtain ⟨_, h2, h3, _⟩ := h
  omega

/-- The segment pattern `displayChar` computes for `v`: the low 7 bits in raw mode, the table
entry (that of index 0x20 when `v` is not below `size`) otherwise. -/
theorem segment_lt (v size : Nat) (raw : Bool) :
    (if raw then v % 128 else tmCharTable.getD (if v ≥ size then 0x20 else v) 0) < 128 := by
  cases raw
  · simpa using tmCharTable_lt _
  · simp only [if_true]; omega

/-! ## The number-display functions -/

theorem putGlyph_length (s : TM1638) (i j k : Nat) :
    (putGlyph s i j k)._registers.length = s._registers.length := by
  simp [putGlyph]

theorem putGlyph_getD_self (s : TM1638) (i k : Nat) (hi : i < s._registers.length) :
    (putGlyph s i i k)._registers.getD i 0 =
      128 * (s._registers.getD i 0 / 128 % 2) + tmCharTable.getD k 0 := by
  rw [putGlyph_registers, getD_set_self _ _ _ hi]

theorem putGlyph_getD_other (s : TM1638) (i j k n : Nat) (h : i ≠ n) :
    (putGlyph s i j k)._registers.getD n 0 = s._registers.getD n 0 := by
  rw [putGlyph_registers, getD_set_other _ _ _ _ h]

/-- The two bytes two consecutive glyph assignments leave in the registers they write. -/
theorem putGlyph_two (s : TM1638) (d k0 k1 : Nat) (hl : d + 1 < s._registers.length) :
    (putGlyph (putGlyph s d d k0) (d + 1) (d + 1) k1)._registers.getD d 0
      = 128 * (s._registers.getD d 0 / 128 % 2) + tmCharTable.getD k0 0 ∧
    (putGlyph (putGlyph s d d k0) (d + 1) (d + 1) k1)._registers.getD (d + 1) 0
      = 128 * (s._registers.getD (d + 1) 0 / 128 % 2) + tmCharTable.getD k1 0 := by
  refine ⟨?_, ?_⟩
  · rw [putGlyph_getD_other _ _ _ _ _ (by omega), putGlyph_getD_self _ _ _ (by omega)]
  · rw [putGlyph_getD_self _ _ _ (by rw [putGlyph_length]; omega),
      putGlyph_getD_other _ _ _ _ _ (by omega)]

/-- The three bytes three consecutive glyph assignments leave in the registers they write. -/
theorem putGlyph_three (s : TM1638) (d k0 k1 k2 : Nat) (hl : d + 2 < s._registers.length) :
    (putGlyph (putGlyph (putGlyph s d d k0) (d + 1) (d + 1) k1)
        (d + 2) (d + 2) k2)._registers.getD d 0
      = 128 * (s._registers.getD d 0 / 128 % 2) + tmCharTable.getD k0 0 ∧
    (putGlyph (putGlyph (putGlyph s d d k0) (d + 1) (d + 1) k1)
        (d + 2) (d + 2) k2)._registers.getD (d + 1) 0
      = 128 * (s._registers.getD (d + 1) 0 / 128 % 2) + tmCharTable.getD k1 0 ∧
    (putGlyph (putGlyph (putGlyph s d d k0) (d + 1) (d + 1) k1)
        (d + 2) (d + 2) k2)._registers.getD (d + 2) 0
      = 128 * (s._registers.getD (d + 2) 0 / 128 % 2) + tmCharTable.getD k2 0 := by
  refine ⟨?_, ?_, ?_⟩
  · rw [putGlyph_getD_other _ _ _ _ _ (by omega), putGlyph_getD_other _ _ _ _ _ (by omega),
      putGlyph_getD_self _ _ _ (by omega)]
  · rw [putGlyph_getD_other _ _ _ _ _ (by omega),
      putGlyph_getD_self _ _ _ (by rw [putGlyph_length]; omega),
      putGlyph_getD_other _ _ _ _ _ (by omega)]
  · rw [putGlyph_getD_self _ _ _ (by rw [putGlyph_length, putGlyph_length]; omega),
      putGlyph_getD_other _ _ _ _ _ (by omega), putGlyph_getD_other _ _ _ _ _ (by omega)]

/-- The four bytes four consecutive glyph assignments leave in the registers they write. -/
theorem putGlyph_four (s : TM1638) (d k0 k1 k2 k3 : Nat) (hl : d + 3 < s._registers.length) :
    (putGlyph (putGlyph (putGlyph (putGlyph s d d k0) (d + 1) (d + 1) k1)
        (d + 2) (d + 2) k2) (d + 3) (d + 3) k3)._registers.getD d 0
      = 128 * (s._registers.getD d 0 / 128 % 2) + tmCharTable.getD k0 0 ∧
    (putGlyph (putGlyph (putGlyph (putGlyph s d d k0) (d + 1) (d + 1) k1)
        (d + 2) (d + 2) k2) (d + 3) (d + 3) k3)._registers.getD (d + 1) 0
      = 128 * (s._registers.getD (d + 1) 0 / 128 % 2) + tmCharTable.getD k1 0 ∧
    (putGlyph (putGlyph (putGlyph (putGlyph s d d k0) (d + 1) (d + 1) k1)
        (d + 2) (d + 2) k2) (d + 3) (d + 3) k3)._registers.getD (d + 2) 0
      = 128 * (s._registers.getD (d + 2) 0 / 128 % 2) + tmCharTable.getD k2 0 ∧
    (putGlyph (putGlyph (putGlyph (putGlyph s d d k0) (d + 1) (d + 1) k1)
        (d + 2) (d + 2) k2) (d + 3) (d + 3) k3)._registers.getD (d + 3) 0
      = 128 * (s._registers.getD (d + 3) 0 / 128 % 2) + tmCharTable.getD k3 0 := by
  refine ⟨?_, ?_, ?_, ?_⟩
  · rw [putGlyph_getD_other _ _ _ _ _ (by omega), putGlyph_getD_other _ _ _ _ _ (by omega),
      putGlyph_getD_other _ _ _ _ _ (by omega), putGlyph_getD_self _ _ _ (by omega)]
  · rw [putGlyph_getD_other _ _ _ _ _ (by omega), putGlyph_getD_other _ _ _ _ _ (by omega),
      putGlyph_getD_self _ _ _ (by rw [putGlyph_length]; omega),
      putGlyph_getD_other _ _ _ _ _ (by omega)]
  · rw [putGlyph_getD_other _ _ _ _ _ (by omega),
      putGlyph_getD_self _ _ _ (by rw [putGlyph_length, putGlyph_length]; omega),
      putGlyph_getD_other _ _ _ _ _ (by omega), putGlyph_getD_other _ _ _ _ _ (by omega)]
  · rw [putGlyph_getD_self _ _ _
        (by rw [putGlyph_length, putGlyph_length, putGlyph_length]; omega),
      putGlyph_getD_other _ _ _ _ _ (by omega), putGlyph_getD_other _ _ _ _ _ (by omega),
      putGlyph_getD_other _ _ _ _ _ (by omega)]

theorem displayInt8_registers (s : TM1638) (d v : Nat) (useDec : Bool)
    (hg : s._numDigits > 1 ∧ d < s._numDigits - 1) :
    (displayInt8 s d v useDec)._registers =
      (if useDec then
        putGlyph (putGlyph s d d (((if v > 99 then 99 else v) / 10) % 10))
          (d + 1) (d + 1) ((if v > 99 then 99 else v) % 10)
      else
        putGlyph (putGlyph s d d ((v / 16) % 16)) (d + 1) (d + 1) (v % 16))._registers := by
  unfold displayInt8
  rw [if_pos hg]
  simp only [writeDigit_registers, writeCommand_registers]

theorem displayInt12_registers (s : TM1638) (d v : Nat) (useDec : Bool)
    (hg : s._numDigits > 2 ∧ d < s._numDigits - 2) :
    (displayInt12 s d v useDec)._registers =
      (if useDec then
        putGlyph (putGlyph (putGlyph s d d (((if v > 999 then 999 else v) / 100) % 10))
          (d + 1) (d + 1) (((if v > 999 then 999 else v) / 10) % 10))
          (d + 2) (d + 2) ((if v > 999 then 999 else v) % 10)
      else
        putGlyph (putGlyph (putGlyph s d d (((if v > 0xfff then 0xfff else v) / 256) % 16))
          (d + 1) (d + 1) (((if v > 0xfff then 0xfff else v) / 16) % 16))
          (d + 2) (d + 2) ((if v > 0xfff then 0xfff else v) % 16))._registers := by
  unfold displayInt12
  rw [if_pos hg]
  simp only [writeDigit_registers, writeCommand_registers]

theorem displayInt16_registers (s : TM1638) (d v : Nat) (useDec : Bool)
    (hg : s._numDigits > 3 ∧ d < s._numDigits - 3) :
    (displayInt16 s d v useDec)._registers =
      (if useDec then
        putGlyph (putGlyph (putGlyph (putGlyph s d d
          (((if v > 9999 then 9999 else v) / 1000) % 10))
          (d + 1) (d + 1) (((if v > 9999 then 9999 else v) / 100) % 10))
          (d + 2) (d + 2) (((if v > 9999 then 9999 else v) / 10) % 10))
          (d + 3) (d + 3) ((if v > 9999 then 9999 else v) % 10)
      else
        putGlyph (putGlyph (putGlyph (putGlyph s d d ((v / 4096) % 16))
          (d + 1) (d + 1) ((v / 256) % 16)) (d + 2) (d + 2) ((v / 16) % 16))
          (d + 3) (d + 3) (v % 16))._registers := by
  unfold displayInt16
  rw [if_pos hg]
  simp only [writeDigit_registers, writeCommand_registers]

theorem clip_eq_min (v m : Nat) : (if v > m then m else v) = min v m := by
  split <;> omega

/-! ## Reading the buttons, and the display test -/

theorem range_four : List.range 4 = [0, 1, 2, 3] := by decide

theorem lor_mod_byte_left (a b : Nat) : (a % 256 ||| b) % 256 = (a ||| b) % 256 := by
  rw [lor_mod_byte, Nat.mod_mod, ← lor_mod_byte]

@[simp] theorem unwired_writeByte (s : TM1638) (x : Nat) :
    unwired (writeByte s x) = unwired s := rfl

@[simp] theorem unwired_start (s : TM1638) : unwired (start s) = unwired s := rfl

@[simp] theorem unwired_stop (s : TM1638) : unwired (stop s) = unwired s := rfl

@[simp] theorem unwired_writeCommand (s : TM1638) (c : Nat) :
    unwired (writeCommand s c) = unwired s := rfl

/-- The display test changes nothing in the driver state but the log of pin calls. -/
theorem unwired_displayTest (s : TM1638) (b : Bool) :
    unwired (displayTest s b) = unwired s := by
  unfold displayTest
  cases b
  · simp only [Bool.false_eq_true, if_false, unwired_stop]
    rw [foldl_keeps unwired _ (fun s a => by simp)]
    simp
  · simp only [if_true, unwired_stop]
    rw [foldl_keeps unwired _ (fun s a => by simp)]
    simp

/-- When no set bit is shifted past bit 7, the combined key byte needs no narrowing. -/
theorem keys_fit_byte (b0 b1 b2 b3 : Nat) (h0 : b0 < 256) (h1 : b1 < 128) (h2 : b2 < 64)
    (h3 : b3 < 32) :
    (b0 ||| (b1 <<< 1) ||| (b2 <<< 2) ||| (b3 <<< 3)) % 256
      = b0 ||| (b1 <<< 1) ||| (b2 <<< 2) ||| (b3 <<< 3) := by
  apply Nat.mod_eq_of_lt
  have e1 : b1 <<< 1 < 2 ^ 8 := by rw [Nat.shiftLeft_eq]; omega
  have e2 : b2 <<< 2 < 2 ^ 8 := by rw [Nat.shiftLeft_eq]; omega
  have e3 : b3 <<< 3 < 2 ^ 8 := by rw [Nat.shiftLeft_eq]; omega
  have e0 : b0 < 2 ^ 8 := by omega
  exact Nat.or_lt_two_pow (Nat.or_lt_two_pow (Nat.or_lt_two_pow e0 e1) e2) e3

/-- Two states that agree once their pin logs are blanked agree on every member variable. -/
theorem members_of_unwired {s t : TM1638} (h : unwired t = unwired s) :
    t._registers = s._registers ∧ t._allLEDs = s._allLEDs ∧ t._numDigits = s._numDigits ∧
    t._numLEDs = s._numLEDs ∧ t._numButtons = s._numButtons ∧ t._brightness = s._brightness ∧
    t._tmDigitMap = s._tmDigitMap ∧ t.charTableSize = s.charTableSize ∧
    t.cmdDispCtrl = s.cmdDispCtrl := by
  have h1 : (unwired t)._registers = (unwired s)._registers := by rw [h]
  have h2 : (unwired t)._allLEDs = (unwired s)._allLEDs := by rw [h]
  have h3 : (unwired t)._numDigits = (unwired s)._numDigits := by rw [h]
  have h4 : (unwired t)._numLEDs = (unwired s)._numLEDs := by rw [h]
  have h5 : (unwired t)._numButtons = (unwired s)._numButtons := by rw [h]
  have h6 : (unwired t)._brightness = (unwired s)._brightness := by rw [h]
  have h7 : (unwired t)._tmDigitMap = (unwired s)._tmDigitMap := by rw [h]
  have h8 : (unwired t).charTableSize = (unwired s).charTableSize := by rw [h]
  have h9 : (unwired t).cmdDispCtrl = (unwired s).cmdDispCtrl := by rw [h]
  exact ⟨h1, h2, h3, h4, h5, h6, h7, h8, h9⟩

/-! ## `Ready` holds after `begin` and is kept by every public function -/

theorem Ready.of_shape {s t : TM1638} (h : shape t = shape s) (hs : Ready s) : Ready t := by
  simp only [shape, Prod.mk.injEq] at h
  obtain ⟨h1, h2, h3, h4⟩ := h
  unfold Ready at hs ⊢
  rw [h1, h2, h3, h4]
  exact hs

@[simp] theorem shape_writeCommand (s : TM1638) (c : Nat) :
    shape (writeCommand s c) = shape s := rfl

@[simp] theorem shape_writeDigit (s : TM1638) (d : Nat) (b : Bool) :
    shape (writeDigit s d b) = shape s := by simp [shape]

@[simp] theorem shape_putGlyph (s : TM1638) (i j k : Nat) :
    shape (putGlyph s i j k) = shape s := by simp [shape, putGlyph]

@[simp] theorem shape_displayLED1 (s : TM1638) (d : Nat) (b : Bool) :
    shape (displayLED1 s d b) = shape s := by
  unfold displayLED1; split <;> simp [shape]

@[simp] theorem shape_displayChar (s : TM1638) (d v : Nat) (raw : Bool) :
    shape (displayChar s d v raw) = shape s := by
  unfold displayChar; split <;> simp [shape]

@[simp] theorem shape_displayDP (s : TM1638) (d : Nat) (b : Bool) :
    shape (displayDP s d b) = shape s := by
  unfold displayDP; split <;> simp [shape]

@[simp] theorem shape_displayClear (s : TM1638) : shape (displayClear s) = shape s := by
  unfold displayClear
  exact foldl_keeps shape _ (fun s a => by simp) _ s

@[simp] theorem shape_displayBrightness (s : TM1638) (b : Nat) :
    shape (displayBrightness s b) = shape s := rfl

@[simp] theorem shape_displayOff (s : TM1638) : shape (displayOff s) = shape s := rfl

@[simp] theorem shape_displayTest (s : TM1638) (b : Bool) :
    shape (displayTest s b) = shape s := by
  have h := unwired_displayTest s b
  have h' : shape (unwired (displayTest s b)) = shape (unwired s) := by rw [h]
  exact h'

@[simp] theorem shape_displayBin8 (s : TM1638) (v : Nat) (lsbFirst : Bool) :
    shape (displayBin8 s v lsbFirst) = shape s := by
  unfold displayBin8
  split
  · exact foldl_keeps shape _ (fun s a => by cases lsbFirst <;> simp) _ s
  · rfl

@[simp] theorem shape_displayInt8 (s : TM1638) (d v : Nat) (useDec : Bool) :
    shape (displayInt8 s d v useDec) = shape s := by
  unfold displayInt8
  split
  · cases useDec <;> simp
  · rfl

@[simp] theorem shape_displayInt12 (s : TM1638) (d v : Nat) (useDec : Bool) :
    shape (displayInt12 s d v useDec) = shape s := by
  unfold displayInt12
  split
  · cases useDec <;> simp
  · rfl

@[simp] theorem shape_displayInt16 (s : TM1638) (d v : Nat) (useDec : Bool) :
    shape (displayInt16 s d v useDec) = shape s := by
  unfold displayInt16
  split
  · cases useDec <;> simp
  · rfl

@[simp] theorem shape_displayLED8 (s : TM1638) (v : Nat) (lsbFirst : Bool) :
    shape (displayLED8 s v lsbFirst) = shape s := by
  unfold displayLED8
  split
  · exact foldl_keeps shape _ (fun s a => by cases lsbFirst <;> simp) _ s
  · rfl

@[simp] theorem shape_readByte (s : TM1638) : shape (readByte s).2 = shape s := rfl

@[simp] theorem shape_pinMode (s : TM1638) (p : Nat) (d : PinDir) :
    shape (pinMode s p d) = shape s := rfl

@[simp] theorem shape_start (s : TM1638) : shape (start s) = shape s := rfl

@[simp] theorem shape_stop (s : TM1638) : shape (stop s) = shape s := rfl

@[simp] theorem shape_writeByte (s : TM1638) (x : Nat) : shape (writeByte s x) = shape s := rfl

@[simp] theorem shape_readButtons (s : TM1638) : shape (readButtons s).2 = shape s := by
  unfold readButtons
  split
  · rw [range_four]
    simp
  · rfl

theorem shape_begin (s : TM1638) (m : List Nat) (nb nl nd br : Nat) :
    shape (begin s m nb nl nd br) =
      (s.charTableSize, s._registers.length,
        (if nd > 0 ∧ nd ≤ MAX_DIGITS38 then nd else 1),
        (if nl > 0 ∧ nl ≤ MAX_LEDS38 then nl else 0)) := by
  unfold begin
  simp only [shape_displayBrightness, shape_displayClear]
  rfl

/-- The constructor followed by `begin`, whatever the arguments, gives a `Ready` driver. -/
theorem ready_begin_ctor (stb clk data : Nat) (keys m : List Nat) (nb nl nd br : Nat) :
    Ready (begin (ctor stb clk data keys) m nb nl nd br) := by
  have h := shape_begin (ctor stb clk data keys) m nb nl nd br
  simp only [shape, Prod.mk.injEq] at h
  obtain ⟨h1, h2, h3, h4⟩ := h
  unfold Ready
  rw [h1, h2, h3, h4]
  refine ⟨rfl, rfl, ?_, ?_⟩
  · split <;> simp only [MAX_DIGITS38] at * <;> omega
  · split <;> simp only [MAX_LEDS38] at * <;> omega

/-! ## The decimal points under `displayBin8` -/

/-- In LSB-first order `displayBin8` leaves bit 7 of every shadow register as it was. -/
theorem displayBin8_lsbFirst_keeps_dp (s : TM1638) (hs : Ready s) (h8 : s._numDigits = 8)
    (v i : Nat) (hi : i < 8) :
    (displayBin8 s v true)._registers.getD i 0 / 128 % 2 = s._registers.getD i 0 / 128 % 2 := by
  obtain ⟨a, b, c, d, e, f, g, k, hr⟩ := length_eq_eight s._registers hs.2.1
  have hn : s._numDigits > 7 := by omega
  rw [displayBin8_lsb_registers s v a b c d e f g k hn hr, hr]
  interval_cases i <;>
    simp only [List.getD_cons_zero, List.getD_cons_succ] <;> split <;> omega

/-- In MSB-first order `displayBin8` gives digits 0..3 the bit 7 that digits 7..4 had, and
leaves bit 7 of digits 4..7 as it was. -/
theorem displayBin8_msbFirst_dp (s : TM1638) (hs : Ready s) (h8 : s._numDigits = 8)
    (v i : Nat) (hi : i < 8) :
    (displayBin8 s v false)._registers.getD i 0 / 128 % 2
      = s._registers.getD (if i < 4 then 7 - i else i) 0 / 128 % 2 := by
  obtain ⟨a, b, c, d, e, f, g, k, hr⟩ := length_eq_eight s._registers hs.2.1
  have hn : s._numDigits > 7 := by omega
  rw [displayBin8_msb_registers s v a b c d e f g k hn hr, hr]
  interval_cases i <;>
    simp only [List.getD_cons_zero, List.getD_cons_succ, Nat.reduceSub, Nat.reduceLT, if_true,
      if_false] <;> split <;> omega

end TM1638

/-! ## The claims -/

/-- C1, as stated, fails: `begin` with `numDigits = 10` does not record a digit count of 8. -/
theorem C1_begin_ten_digits_not_eight :
    8 < 10 ∧
    ¬ (TM1638.begin (TM1638.ctor 4 2 3 []) tmDigitMapDefault 8 8 10 2)._numDigits = 8 := by
  decide

/-- C1, amended: for every `numDigits` argument greater than 8, `begin` records a configured
digit count of 1, whatever the prior state and the other arguments. -/
theorem C1_begin_numDigits_over_max (s : TM1638) (m : List Nat) (nb nl nd br : Nat)
    (h : 8 < nd) : (TM1638.begin s m nb nl nd br)._numDigits = 1 := by
  rw [TM1638.begin_numDigits, if_neg]
  intro hc
  exact absurd hc.2 (by simp only [MAX_DIGITS38]; omega)

theorem C1_begin_numDigits_over_max_witness :
    8 < 10 ∧ (TM1638.begin (TM1638.ctor 4 2 3 []) tmDigitMapDefault 8 8 10 2)._numDigits = 1 :=
  ⟨by decide, C1_begin_numDigits_over_max _ _ 8 8 10 2 (by decide)⟩

/-- C2 at a failing input: on the default 8-digit driver with only the decimal point of digit 7
lit, `displayBin8 0` in MSB-first order sets bit 7 of shadow register 0, which was clear
before the call (and leaves it clear in LSB-first order). -/
theorem C2_displayBin8_msbFirst_moves_dp :
    (TM1638.displayDP TM1638.demo 7 true)._numDigits = 8 ∧
    (TM1638.displayDP TM1638.demo 7 true)._registers = [0, 0, 0, 0, 0, 0, 0, 0x80] ∧
    (TM1638.displayBin8 (TM1638.displayDP TM1638.demo 7 true) 0 false)._registers
      = [0xbf, 0x3f, 0x3f, 0x3f, 0x3f, 0x3f, 0x3f, 0xbf] ∧
    (TM1638.displayBin8 (TM1638.displayDP TM1638.demo 7 true) 0 true)._registers
      = [0x3f, 0x3f, 0x3f, 0x3f, 0x3f, 0x3f, 0x3f, 0xbf] ∧
    (TM1638.displayDP TM1638.demo 7 true)._registers.getD 0 0 / 128 % 2 = 0 ∧
    (TM1638.displayBin8 (TM1638.displayDP TM1638.demo 7 true) 0 false)._registers.getD 0 0
      / 128 % 2 = 1 := by
  decide

/-- C3: for a digit `d < numDigits` of a set-up driver, `displayChar` (raw or table mode)
leaves bit 7 of shadow register `d` unchanged; `displayDP` sets bit 7 to the flag and leaves
bits 0-6 unchanged; and the two calls commute on register `d`, which ends up holding the
segment pattern of `v` in bits 0-6 and the flag in bit 7. -/
theorem C3_decimal_point_orthogonal_to_char (s : TM1638) (hs : TM1638.Ready s) (d v : Nat)
    (raw dp : Bool) (hd : d < s._numDigits) :
    (TM1638.displayChar s d v raw)._registers.getD d 0 / 128 % 2
        = s._registers.getD d 0 / 128 % 2 ∧
    (TM1638.displayDP s d dp)._registers.getD d 0 / 128 % 2 = (if dp then 1 else 0) ∧
    (TM1638.displayDP s d dp)._registers.getD d 0 % 128 = s._registers.getD d 0 % 128 ∧
    (TM1638.displayChar (TM1638.displayDP s d dp) d v raw)._registers.getD d 0
        = (TM1638.displayDP (TM1638.displayChar s d v raw) d dp)._registers.getD d 0 ∧
    (TM1638.displayChar (TM1638.displayDP s d dp) d v raw)._registers.getD d 0
        = (if dp then 128 else 0) +
          (if raw then v &&& 0x7f
           else tmCharTable.getD (if v ≥ 47 then 0x20 else v) 0) := by
  have hl := hs.digit_lt hd
  have hc : s.charTableSize = 47 := hs.1
  have hseg := TM1638.segment_lt v 47 raw
  have e1 := TM1638.displayChar_reg_self s d v raw hd hl
  have e2 := TM1638.displayDP_reg_self s d dp hd hl
  have e3 := TM1638.displayChar_reg_self (TM1638.displayDP s d dp) d v raw
    (by simpa using hd) (by rw [TM1638.displayDP_length]; exact hl)
  have e4 := TM1638.displayDP_reg_self (TM1638.displayChar s d v raw) d dp
    (by simpa using hd) (by rw [TM1638.displayChar_length]; exact hl)
  rw [TM1638.displayDP_charTableSize] at e3
  rw [hc] at e1 e3
  rw [land_seg_eq]
  rw [e3, e4, e1, e2]
  generalize (if raw then v % 128 else tmCharTable.getD (if v ≥ 47 then 0x20 else v) 0) = g
    at hseg ⊢
  cases dp <;> simp <;> omega

theorem C3_decimal_point_orthogonal_to_char_witness :
    TM1638.Ready TM1638.demo ∧ 3 < TM1638.demo._numDigits ∧
    (TM1638.displayChar TM1638.demo 3 5 false)._registers.getD 3 0 / 128 % 2
        = TM1638.demo._registers.getD 3 0 / 128 % 2 ∧
    (TM1638.displayDP TM1638.demo 3 true)._registers.getD 3 0 / 128 % 2
        = (if true then 1 else 0) ∧
    (TM1638.displayDP TM1638.demo 3 true)._registers.getD 3 0 % 128
        = TM1638.demo._registers.getD 3 0 % 128 ∧
    (TM1638.displayChar (TM1638.displayDP TM1638.demo 3 true) 3 5 false)._registers.getD 3 0
        = (TM1638.displayDP (TM1638.displayChar TM1638.demo 3 5 false) 3 true)._registers.getD 3 0 ∧
    (TM1638.displayChar (TM1638.displayDP TM1638.demo 3 true) 3 5 false)._registers.getD 3 0
        = (if true then 128 else 0) +
          (if false then 5 &&& 0x7f
           else tmCharTable.getD (if 5 ≥ 47 then 0x20 else 5) 0) :=
  ⟨by decide, by decide,
    C3_decimal_point_orthogonal_to_char TM1638.demo (by decide) 3 5 false true (by decide)⟩

/-- C4: for a digit `d < numDigits` of a set-up driver, table-mode `displayChar` stores in
bits 0-6 of shadow register `d` the table entry of every index 0..46 (0x00 for index 32), and
for every index from 47 upwards the same pattern as for index 32, namely 0x00; raw-mode
`displayChar` stores `value & 0x7F`. -/
theorem C4_displayChar_segment_bits (s : TM1638) (hs : TM1638.Ready s) (d : Nat)
    (hd : d < s._numDigits) :
    (∀ v, v < 47 →
      (TM1638.displayChar s d v false)._registers.getD d 0 % 128 = tmCharTable.getD v 0) ∧
    (TM1638.displayChar s d 32 false)._registers.getD d 0 % 128 = 0x00 ∧
    (∀ v, 47 ≤ v →
      (TM1638.displayChar s d v false)._registers.getD d 0 % 128
        = (TM1638.displayChar s d 32 false)._registers.getD d 0 % 128 ∧
      (TM1638.displayChar s d v false)._registers.getD d 0 % 128 = 0x00) ∧
    (∀ v, (TM1638.displayChar s d v true)._registers.getD d 0 % 128 = v &&& 0x7f) := by
  have hl := hs.digit_lt hd
  have hc : s.charTableSize = 47 := hs.1
  have key : ∀ v raw, (TM1638.displayChar s d v raw)._registers.getD d 0 % 128 =
      (if raw then v % 128 else tmCharTable.getD (if v ≥ 47 then 0x20 else v) 0) := by
    intro v raw
    have hseg := TM1638.segment_lt v 47 raw
    rw [TM1638.displayChar_reg_self s d v raw hd hl, hc]
    omega
  have h32 : (TM1638.displayChar s d 32 false)._registers.getD d 0 % 128 = 0x00 := by
    rw [key]; decide
  refine ⟨?_, h32, ?_, ?_⟩
  · intro v hv
    rw [key]
    simp [Nat.not_le.mpr hv]
  · intro v hv
    have hv0 : (TM1638.displayChar s d v false)._registers.getD d 0 % 128 = 0x00 := by
      rw [key]
      simp only [Bool.false_eq_true, if_false, ge_iff_le, hv, if_true]
      decide
    exact ⟨by rw [hv0, h32], hv0⟩
  · intro v
    rw [key, land_seg_eq]
    simp

theorem C4_displayChar_segment_bits_witness :
    TM1638.Ready TM1638.demo ∧ 3 < TM1638.demo._numDigits ∧ 15 < 47 ∧
    (TM1638.displayChar TM1638.demo 3 15 false)._registers.getD 3 0 % 128
        = tmCharTable.getD 15 0 ∧
    (TM1638.displayChar TM1638.demo 3 32 false)._registers.getD 3 0 % 128 = 0x00 ∧
    47 ≤ 200 ∧
    (TM1638.displayChar TM1638.demo 3 200 false)._registers.getD 3 0 % 128
        = (TM1638.displayChar TM1638.demo 3 32 false)._registers.getD 3 0 % 128 ∧
    (TM1638.displayChar TM1638.demo 3 200 false)._registers.getD 3 0 % 128 = 0x00 ∧
    (TM1638.displayChar TM1638.demo 3 0xff true)._registers.getD 3 0 % 128 = 0xff &&& 0x7f :=
  ⟨by decide, by decide, by decide,
    (C4_displayChar_segment_bits TM1638.demo (by decide) 3 (by decide)).1 15 (by decide),
    (C4_displayChar_segment_bits TM1638.demo (by decide) 3 (by decide)).2.1,
    by decide,
    ((C4_displayChar_segment_bits TM1638.demo (by decide) 3 (by decide)).2.2.1 200
      (by decide)).1,
    ((C4_displayChar_segment_bits TM1638.demo (by decide) 3 (by decide)).2.2.1 200
      (by decide)).2,
    (C4_displayChar_segment_bits TM1638.demo (by decide) 3 (by decide)).2.2.2 0xff⟩

/-- C5: with more than one digit and `d < numDigits - 1`, for every byte `v`, `displayInt8` in
decimal mode stores in bits 0-6 of shadow registers `d` and `d + 1` the glyphs of the tens and
units digits of `min v 99`, in hexadecimal mode the glyphs of `v / 16` and `v % 16`, and in
both modes leaves bit 7 of the two registers unchanged. -/
theorem C5_displayInt8_glyphs (s : TM1638) (hs : TM1638.Ready s) (d v : Nat) (useDec : Bool)
    (hn : 1 < s._numDigits) (hd : d < s._numDigits - 1) (hv : v < 256) :
    (TM1638.displayInt8 s d v true)._registers.getD d 0 % 128
        = tmCharTable.getD (min v 99 / 10) 0 ∧
    (TM1638.displayInt8 s d v true)._registers.getD (d + 1) 0 % 128
        = tmCharTable.getD (min v 99 % 10) 0 ∧
    (TM1638.displayInt8 s d v false)._registers.getD d 0 % 128
        = tmCharTable.getD (v / 16) 0 ∧
    (TM1638.displayInt8 s d v false)._registers.getD (d + 1) 0 % 128
        = tmCharTable.getD (v % 16) 0 ∧
    (TM1638.displayInt8 s d v useDec)._registers.getD d 0 / 128 % 2
        = s._registers.getD d 0 / 128 % 2 ∧
    (TM1638.displayInt8 s d v useDec)._registers.getD (d + 1) 0 / 128 % 2
        = s._registers.getD (d + 1) 0 / 128 % 2 := by
  have hl : d + 1 < s._registers.length := by
    obtain ⟨_, h2, h3, _⟩ := hs
    omega
  have hT := tmCharTable_lt
  have e : ∀ u, (TM1638.displayInt8 s d v u)._registers = _ :=
    fun u => TM1638.displayInt8_registers s d v u ⟨hn, hd⟩
  have k1 : (min v 99 / 10) % 10 = min v 99 / 10 := by omega
  have k2 : (v / 16) % 16 = v / 16 := by omega
  refine ⟨?_, ?_, ?_, ?_, ?_, ?_⟩
  · rw [e, if_pos rfl, (TM1638.putGlyph_two s d _ _ hl).1, TM1638.clip_eq_min, k1]
    have := hT (min v 99 / 10); omega
  · rw [e, if_pos rfl, (TM1638.putGlyph_two s d _ _ hl).2, TM1638.clip_eq_min]
    have := hT (min v 99 % 10); omega
  · rw [e, if_neg (by decide), (TM1638.putGlyph_two s d _ _ hl).1, k2]
    have := hT (v / 16); omega
  · rw [e, if_neg (by decide), (TM1638.putGlyph_two s d _ _ hl).2]
    have := hT (v % 16); omega
  · rw [e]
    cases useDec
    · rw [if_neg (by decide), (TM1638.putGlyph_two s d _ _ hl).1]
      have := hT (v / 16 % 16); omega
    · rw [if_pos rfl, (TM1638.putGlyph_two s d _ _ hl).1]
      have := hT ((if v > 99 then 99 else v) / 10 % 10); omega
  · rw [e]
    cases useDec
    · rw [if_neg (by decide), (TM1638.putGlyph_two s d _ _ hl).2]
      have := hT (v % 16); omega
    · rw [if_pos rfl, (TM1638.putGlyph_two s d _ _ hl).2]
      have := hT ((if v > 99 then 99 else v) % 10); omega

theorem C5_displayInt8_glyphs_witness :
    (TM1638.Ready TM1638.demo ∧ 1 < TM1638.demo._numDigits ∧ 3 < TM1638.demo._numDigits - 1 ∧
      150 < 256) ∧
    ((TM1638.displayInt8 TM1638.demo 3 150 true)._registers.getD 3 0 % 128
        = tmCharTable.getD (min 150 99 / 10) 0 ∧
    (TM1638.displayInt8 TM1638.demo 3 150 true)._registers.getD (3 + 1) 0 % 128
        = tmCharTable.getD (min 150 99 % 10) 0 ∧
    (TM1638.displayInt8 TM1638.demo 3 150 false)._registers.getD 3 0 % 128
        = tmCharTable.getD (150 / 16) 0 ∧
    (TM1638.displayInt8 TM1638.demo 3 150 false)._registers.getD (3 + 1) 0 % 128
        = tmCharTable.getD (150 % 16) 0 ∧
    (TM1638.displayInt8 TM1638.demo 3 150 true)._registers.getD 3 0 / 128 % 2
        = TM1638.demo._registers.getD 3 0 / 128 % 2 ∧
    (TM1638.displayInt8 TM1638.demo 3 150 true)._registers.getD (3 + 1) 0 / 128 % 2
        = TM1638.demo._registers.getD (3 + 1) 0 / 128 % 2) ∧
    (TM1638.displayInt8 TM1638.demo 3 150 true)._registers = [0, 0, 0, 0x67, 0x67, 0, 0, 0] ∧
    (TM1638.displayInt8 TM1638.demo 3 150 false)._registers = [0, 0, 0, 0x67, 0x7d, 0, 0, 0] :=
  ⟨by decide,
    C5_displayInt8_glyphs TM1638.demo (by decide) 3 150 true (by decide) (by decide) (by decide),
    by decide, by decide⟩

/-- C6: with more than three digits and `d < numDigits - 3`, for every 16-bit `v`,
`displayInt16` in hexadecimal mode stores in bits 0-6 of shadow registers `d .. d + 3` the
glyphs of the four base-16 digits of `v` itself, most significant first (these digits add up
to `v`: nothing is clipped), and in decimal mode the glyphs of the four base-10 digits of
`min v 9999`. -/
theorem C6_displayInt16_glyphs (s : TM1638) (hs : TM1638.Ready s) (d v : Nat)
    (hn : 3 < s._numDigits) (hd : d < s._numDigits - 3) (hv : v < 65536) :
    ((TM1638.displayInt16 s d v false)._registers.getD d 0 % 128
        = tmCharTable.getD (v / 4096) 0 ∧
     (TM1638.displayInt16 s d v false)._registers.getD (d + 1) 0 % 128
        = tmCharTable.getD (v / 256 % 16) 0 ∧
     (TM1638.displayInt16 s d v false)._registers.getD (d + 2) 0 % 128
        = tmCharTable.getD (v / 16 % 16) 0 ∧
     (TM1638.displayInt16 s d v false)._registers.getD (d + 3) 0 % 128
        = tmCharTable.getD (v % 16) 0 ∧
     v = 4096 * (v / 4096) + 256 * (v / 256 % 16) + 16 * (v / 16 % 16) + v % 16 ∧
     v / 4096 < 16) ∧
    ((TM1638.displayInt16 s d v true)._registers.getD d 0 % 128
        = tmCharTable.getD (min v 9999 / 1000) 0 ∧
     (TM1638.displayInt16 s d v true)._registers.getD (d + 1) 0 % 128
        = tmCharTable.getD (min v 9999 / 100 % 10) 0 ∧
     (TM1638.displayInt16 s d v true)._registers.getD (d + 2) 0 % 128
        = tmCharTable.getD (min v 9999 / 10 % 10) 0 ∧
     (TM1638.displayInt16 s d v true)._registers.getD (d + 3) 0 % 128
        = tmCharTable.getD (min v 9999 % 10) 0 ∧
     min v 9999 / 1000 < 10) := by
  have hl : d + 3 < s._registers.length := by
    obtain ⟨_, h2, h3, _⟩ := hs
    omega
  have hT := tmCharTable_lt
  have e : ∀ u, (TM1638.displayInt16 s d v u)._registers = _ :=
    fun u => TM1638.displayInt16_registers s d v u ⟨hn, hd⟩
  have k1 : (min v 9999 / 1000) % 10 = min v 9999 / 1000 := by omega
  have k2 : (v / 4096) % 16 = v / 4096 := by omega
  refine ⟨⟨?_, ?_, ?_, ?_, by omega, by omega⟩, ⟨?_, ?_, ?_, ?_, by omega⟩⟩
  · rw [e, if_neg (by decide), (TM1638.putGlyph_four s d _ _ _ _ hl).1, k2]
    have := hT (v / 4096); omega
  · rw [e, if_neg (by decide), (TM1638.putGlyph_four s d _ _ _ _ hl).2.1]
    have := hT (v / 256 % 16); omega
  · rw [e, if_neg (by decide), (TM1638.putGlyph_four s d _ _ _ _ hl).2.2.1]
    have := hT (v / 16 % 16); omega
  · rw [e, if_neg (by decide), (TM1638.putGlyph_four s d _ _ _ _ hl).2.2.2]
    have := hT (v % 16); omega
  · rw [e, if_pos rfl, (TM1638.putGlyph_four s d _ _ _ _ hl).1, TM1638.clip_eq_min, k1]
    have := hT (min v 9999 / 1000); omega
  · rw [e, if_pos rfl, (TM1638.putGlyph_four s d _ _ _ _ hl).2.1, TM1638.clip_eq_min]
    have := hT (min v 9999 / 100 % 10); omega
  · rw [e, if_pos rfl, (TM1638.putGlyph_four s d _ _ _ _ hl).2.2.1, TM1638.clip_eq_min]
    have := hT (min v 9999 / 10 % 10); omega
  · rw [e, if_pos rfl, (TM1638.putGlyph_four s d _ _ _ _ hl).2.2.2, TM1638.clip_eq_min]
    have := hT (min v 9999 % 10); omega

theorem C6_displayInt16_glyphs_witness :
    (TM1638.Ready TM1638.demo ∧ 3 < TM1638.demo._numDigits ∧ 2 < TM1638.demo._numDigits - 3 ∧
      0xffff < 65536) ∧
    (TM1638.displayInt16 TM1638.demo 2 0xffff false)._registers.getD 2 0 % 128
        = tmCharTable.getD (0xffff / 4096) 0 ∧
    (TM1638.displayInt16 TM1638.demo 2 0xffff false)._registers
        = [0, 0, 0x71, 0x71, 0x71, 0x71, 0, 0] ∧
    (TM1638.displayInt16 TM1638.demo 2 12345 true)._registers
        = [0, 0, 0x67, 0x67, 0x67, 0x67, 0, 0] :=
  ⟨by decide,
    (C6_displayInt16_glyphs TM1638.demo (by decide) 2 0xffff (by decide) (by decide)
      (by decide)).1.1,
    by decide, by decide⟩

/-- C7: with more than two digits and `d < numDigits - 2`, for every 16-bit `v`,
`displayInt12` in decimal mode stores in bits 0-6 of shadow registers `d .. d + 2` the glyphs
of the three base-10 digits of `min v 999`, and in hexadecimal mode the glyphs of the three
base-16 digits of `min v 0xFFF`, most significant first. -/
theorem C7_displayInt12_glyphs (s : TM1638) (hs : TM1638.Ready s) (d v : Nat)
    (hn : 2 < s._numDigits) (hd : d < s._numDigits - 2) (hv : v < 65536) :
    ((TM1638.displayInt12 s d v true)._registers.getD d 0 % 128
        = tmCharTable.getD (min v 999 / 100) 0 ∧
     (TM1638.displayInt12 s d v true)._registers.getD (d + 1) 0 % 128
        = tmCharTable.getD (min v 999 / 10 % 10) 0 ∧
     (TM1638.displayInt12 s d v true)._registers.getD (d + 2) 0 % 128
        = tmCharTable.getD (min v 999 % 10) 0 ∧
     min v 999 / 100 < 10) ∧
    ((TM1638.displayInt12 s d v false)._registers.getD d 0 % 128
        = tmCharTable.getD (min v 0xfff / 256) 0 ∧
     (TM1638.displayInt12 s d v false)._registers.getD (d + 1) 0 % 128
        = tmCharTable.getD (min v 0xfff / 16 % 16) 0 ∧
     (TM1638.displayInt12 s d v false)._registers.getD (d + 2) 0 % 128
        = tmCharTable.getD (min v 0xfff % 16) 0 ∧
     min v 0xfff / 256 < 16) := by
  have hl : d + 2 < s._registers.length := by
    obtain ⟨_, h2, h3, _⟩ := hs
    omega
  have hT := tmCharTable_lt
  have e : ∀ u, (TM1638.displayInt12 s d v u)._registers = _ :=
    fun u => TM1638.displayInt12_registers s d v u ⟨hn, hd⟩
  have k1 : (min v 999 / 100) % 10 = min v 999 / 100 := by omega
  have k2 : (min v 0xfff / 256) % 16 = min v 0xfff / 256 := by omega
  refine ⟨⟨?_, ?_, ?_, by omega⟩, ⟨?_, ?_, ?_, by omega⟩⟩
  · rw [e, if_pos rfl, (TM1638.putGlyph_three s d _ _ _ hl).1, TM1638.clip_eq_min, k1]
    have := hT (min v 999 / 100); omega
  · rw [e, if_pos rfl, (TM1638.putGlyph_three s d _ _ _ hl).2.1, TM1638.clip_eq_min]
    have := hT (min v 999 / 10 % 10); omega
  · rw [e, if_pos rfl, (TM1638.putGlyph_three s d _ _ _ hl).2.2, TM1638.clip_eq_min]
    have := hT (min v 999 % 10); omega
  · rw [e, if_neg (by decide), (TM1638.putGlyph_three s d _ _ _ hl).1, TM1638.clip_eq_min, k2]
    have := hT (min v 0xfff / 256); omega
  · rw [e, if_neg (by decide), (TM1638.putGlyph_three s d _ _ _ hl).2.1, TM1638.clip_eq_min]
    have := hT (min v 0xfff / 16 % 16); omega
  · rw [e, if_neg (by decide), (TM1638.putGlyph_three s d _ _ _ hl).2.2, TM1638.clip_eq_min]
    have := hT (min v 0xfff % 16); omega

theorem C7_displayInt12_glyphs_witness :
    (TM1638.Ready TM1638.demo ∧ 2 < TM1638.demo._numDigits ∧ 5 < TM1638.demo._numDigits - 2 ∧
      0xabcd < 65536) ∧
    (TM1638.displayInt12 TM1638.demo 5 0xabcd false)._registers.getD 5 0 % 128
        = tmCharTable.getD (min 0xabcd 0xfff / 256) 0 ∧
    (TM1638.displayInt12 TM1638.demo 5 0xabcd false)._registers
        = [0, 0, 0, 0, 0, 0x71, 0x71, 0x71] ∧
    (TM1638.displayInt12 TM1638.demo 5 1234 true)._registers
        = [0, 0, 0, 0, 0, 0x67, 0x67, 0x67] ∧
    (TM1638.displayInt12 TM1638.demo 5 407 true)._registers
        = [0, 0, 0, 0, 0, 0x66, 0x3f, 0x07] :=
  ⟨by decide,
    (C7_displayInt12_glyphs TM1638.demo (by decide) 5 0xabcd (by decide) (by decide)
      (by decide)).2.1,
    by decide, by decide, by decide⟩

/-- C8: with 8 configured digits, for every value `v` and every `i` in 0..7, after
`displayBin8 v` in LSB-first order bits 0-6 of shadow register `i` hold the glyph '1' (0x06)
when bit `i` of `v` is set and the glyph '0' (0x3F) otherwise; in MSB-first order register `i`
shows bit `7 - i` of `v` in the same way. -/
theorem C8_displayBin8_glyphs (s : TM1638) (hs : TM1638.Ready s) (h8 : s._numDigits = 8)
    (v i : Nat) (hi : i < 8) :
    (TM1638.displayBin8 s v true)._registers.getD i 0 % 128
        = (if v.testBit i then 0x06 else 0x3f) ∧
    (TM1638.displayBin8 s v false)._registers.getD i 0 % 128
        = (if v.testBit (7 - i) then 0x06 else 0x3f) := by
  obtain ⟨a, b, c, d, e, f, g, k, hr⟩ := length_eq_eight s._registers hs.2.1
  have hn : s._numDigits > 7 := by omega
  rw [TM1638.displayBin8_lsb_registers s v a b c d e f g k hn hr,
    TM1638.displayBin8_msb_registers s v a b c d e f g k hn hr]
  interval_cases i <;>
    simp only [List.getD_cons_zero, List.getD_cons_succ, Nat.reduceSub] <;>
    constructor <;> split <;> omega

theorem C8_displayBin8_glyphs_witness :
    (TM1638.Ready TM1638.demo ∧ TM1638.demo._numDigits = 8 ∧ 1 < 8) ∧
    ((TM1638.displayBin8 TM1638.demo 0b10110010 true)._registers.getD 1 0 % 128
        = (if (0b10110010 : Nat).testBit 1 then 0x06 else 0x3f) ∧
    (TM1638.displayBin8 TM1638.demo 0b10110010 false)._registers.getD 1 0 % 128
        = (if (0b10110010 : Nat).testBit (7 - 1) then 0x06 else 0x3f)) ∧
    (TM1638.displayBin8 TM1638.demo 0b10110010 true)._registers
        = [0x3f, 0x06, 0x3f, 0x3f, 0x06, 0x06, 0x3f, 0x06] ∧
    (TM1638.displayBin8 TM1638.demo 0b10110010 false)._registers
        = [0x06, 0x3f, 0x06, 0x06, 0x3f, 0x3f, 0x06, 0x3f] :=
  ⟨by decide,
    C8_displayBin8_glyphs TM1638.demo (by decide) (by decide) 0b10110010 1 (by decide),
    by decide, by decide⟩

/-- C9: with buttons configured, when the chip answers the key scan with the bytes `b0 .. b3`
(in read order), `readButtons` returns the byte `b0 | (b1<<1) | (b2<<2) | (b3<<3)`: the low 8
bits of that expression, which is also the OR of the four bytes each shifted within 8 bits,
and is the expression itself whenever no set bit is shifted past bit 7.
The four bytes are consumed, and the bus sees start, the key-scan command 0x42, the data pin
turned to input, four reads, the data pin turned back to output, and stop. -/
theorem C9_readButtons_combines (s : TM1638) (hb : 0 < s._numButtons) (b0 b1 b2 b3 : Nat)
    (rest : List Nat) (hk : s.keys = b0 :: b1 :: b2 :: b3 :: rest)
    (h0 : b0 < 256) (h1 : b1 < 256) (h2 : b2 < 256) (h3 : b3 < 256) :
    (TM1638.readButtons s).1 = (b0 ||| (b1 <<< 1) ||| (b2 <<< 2) ||| (b3 <<< 3)) % 256 ∧
    (TM1638.readButtons s).1
      = b0 ||| ((b1 <<< 1) % 256) ||| ((b2 <<< 2) % 256) ||| ((b3 <<< 3) % 256) ∧
    (b1 < 128 → b2 < 64 → b3 < 32 →
      (TM1638.readButtons s).1 = b0 ||| (b1 <<< 1) ||| (b2 <<< 2) ||| (b3 <<< 3)) ∧
    (TM1638.readButtons s).2.keys = rest ∧
    (TM1638.readButtons s).2.wire = s.wire ++
      [PinCall.digitalWrite s._stbPin PinLevel.LOW,
       PinCall.shiftOut s._dataPin s._clkPin 0x42,
       PinCall.pinMode s._dataPin PinDir.INPUT,
       PinCall.shiftIn s._dataPin s._clkPin b0,
       PinCall.shiftIn s._dataPin s._clkPin b1,
       PinCall.shiftIn s._dataPin s._clkPin b2,
       PinCall.shiftIn s._dataPin s._clkPin b3,
       PinCall.pinMode s._dataPin PinDir.OUTPUT,
       PinCall.digitalWrite s._stbPin PinLevel.HIGH] := by
  unfold TM1638.readButtons
  rw [if_pos hb, TM1638.range_four]
  simp only [List.foldl_cons, List.foldl_nil, TM1638.readByte, TM1638.start, TM1638.stop,
    TM1638.writeByte, TM1638.pinMode, TM1638.digitalWrite, hk, List.headD_cons, List.tail_cons,
    Nat.mod_eq_of_lt h0, Nat.mod_eq_of_lt h1, Nat.mod_eq_of_lt h2, Nat.mod_eq_of_lt h3]
  refine ⟨?_, ?_, ?_, trivial, ?_⟩
  · simp only [Nat.shiftLeft_zero, Nat.zero_or, TM1638.lor_mod_byte_left]
  · simp only [Nat.shiftLeft_zero, Nat.zero_or, TM1638.lor_mod_byte_left]
    rw [lor_mod_byte, lor_mod_byte (b0 ||| b1 <<< 1), lor_mod_byte b0, Nat.mod_eq_of_lt h0]
  · intro g1 g2 g3
    simp only [Nat.shiftLeft_zero, Nat.zero_or, TM1638.lor_mod_byte_left]
    exact TM1638.keys_fit_byte b0 b1 b2 b3 h0 g1 g2 g3
  · simp [READ_KEYS38]

theorem C9_readButtons_combines_witness :
    (0 < (TM1638.beginDefault (TM1638.ctor 4 2 3 [0x11, 0x10, 0x01, 0x80, 0x55]) 8 8 8 2)._numButtons
      ∧ (TM1638.beginDefault (TM1638.ctor 4 2 3 [0x11, 0x10, 0x01, 0x80, 0x55]) 8 8 8 2).keys
          = 0x11 :: 0x10 :: 0x01 :: 0x80 :: [0x55]
      ∧ 0x11 < 256 ∧ 0x10 < 256 ∧ 0x01 < 256 ∧ 0x80 < 256) ∧
    (TM1638.readButtons
        (TM1638.beginDefault (TM1638.ctor 4 2 3 [0x11, 0x10, 0x01, 0x80, 0x55]) 8 8 8 2)).1
      = (0x11 ||| (0x10 <<< 1) ||| (0x01 <<< 2) ||| (0x80 <<< 3)) % 256 ∧
    (TM1638.readButtons
        (TM1638.beginDefault (TM1638.ctor 4 2 3 [0x11, 0x10, 0x01, 0x80, 0x55]) 8 8 8 2)).1
      = 0x35 :=
  ⟨by decide,
    (C9_readButtons_combines
      (TM1638.beginDefault (TM1638.ctor 4 2 3 [0x11, 0x10, 0x01, 0x80, 0x55]) 8 8 8 2)
      (by decide) 0x11 0x10 0x01 0x80 [0x55] (by decide) (by decide) (by decide) (by decide)
      (by decide)).1,
    by decide⟩

/-- C10: from any driver state, `displayTest true` followed by `displayTest false` leaves the
shadow registers, the LED mask and the configuration exactly as they were, and neither call
alone changes anything in the driver state but the log of pin calls. -/
theorem C10_displayTest_keeps_shadow (s : TM1638) (b : Bool) :
    TM1638.unwired (TM1638.displayTest s b) = TM1638.unwired s ∧
    (TM1638.displayTest (TM1638.displayTest s true) false)._registers = s._registers ∧
    (TM1638.displayTest (TM1638.displayTest s true) false)._allLEDs = s._allLEDs ∧
    (TM1638.displayTest (TM1638.displayTest s true) false)._numDigits = s._numDigits ∧
    (TM1638.displayTest (TM1638.displayTest s true) false)._numLEDs = s._numLEDs ∧
    (TM1638.displayTest (TM1638.displayTest s true) false)._numButtons = s._numButtons ∧
    (TM1638.displayTest (TM1638.displayTest s true) false)._brightness = s._brightness ∧
    (TM1638.displayTest (TM1638.displayTest s true) false)._tmDigitMap = s._tmDigitMap ∧
    (TM1638.displayTest (TM1638.displayTest s true) false).charTableSize = s.charTableSize ∧
    (TM1638.displayTest (TM1638.displayTest s true) false).cmdDispCtrl = s.cmdDispCtrl := by
  have h : TM1638.unwired (TM1638.displayTest (TM1638.displayTest s true) false)
      = TM1638.unwired s := by
    rw [TM1638.unwired_displayTest, TM1638.unwired_displayTest]
  exact ⟨TM1638.unwired_displayTest s b, TM1638.members_of_unwired h⟩

/-! # Bus traffic, the chip, and the remaining display functions -/

theorem one_shl_mod (bit : Nat) (hb : bit < 32) : (1 <<< bit) % 4294967296 = 2 ^ bit := by
  rw [Nat.shiftLeft_eq, Nat.one_mul]
  apply Nat.mod_eq_of_lt
  calc 2 ^ bit < 2 ^ 32 := Nat.pow_lt_pow_right (by norm_num) hb
    _ = 4294967296 := by norm_num


/-- Bit `j` of the byte `bitWrite` stores. -/
theorem bitWrite_testBit (v bit j : Nat) (b : Bool) (hb : bit < 8) :
    (bitWrite v bit b).testBit j = (decide (j < 8) && (if j = bit then b else v.testBit j)) := by
  have h32 : (4294967295 : Nat) = 2 ^ 32 - 1 := by norm_num
  have h8 : (256 : Nat) = 2 ^ 8 := by norm_num
  unfold bitWrite
  rw [one_shl_mod bit (by omega)]
  cases b
  · simp only [Bool.false_eq_true, if_false, h8, h32, Nat.testBit_mod_two_pow, Nat.testBit_land,
      Nat.testBit_xor, Nat.testBit_two_pow_sub_one, Nat.testBit_two_pow]
    by_cases hj : j = bit
    · subst hj; simp; omega
    · have : ¬ bit = j := fun h => hj h.symm
      simp only [hj, this, decide_False, Bool.xor_false, if_false]
      by_cases h8' : j < 8
      · have : j < 32 := by omega
        simp [h8', this]
      · simp [h8']
  · simp only [if_true, h8, Nat.testBit_mod_two_pow, Nat.testBit_lor, Nat.testBit_two_pow]
    by_cases hj : j = bit
    · subst hj; simp
    · have : ¬ bit = j := fun h => hj h.symm
      simp [hj, this]

theorem shr_land_one (v i : Nat) : (v >>> i) &&& 0x01 = (v.testBit i).toNat := by
  rw [Nat.and_one_is_mod, Nat.shiftRight_eq_div_pow, Nat.toNat_testBit]

theorem shr_land_one_ne (v i : Nat) : (((v >>> i) &&& 0x01) != 0) = v.testBit i := by
  rw [shr_land_one]; cases v.testBit i <;> rfl

theorem bitWrite_lt (v bit : Nat) (b : Bool) : bitWrite v bit b < 256 := by
  unfold bitWrite; split <;> exact Nat.mod_lt _ (by norm_num)

namespace TM1638

theorem start_wire (s : TM1638) :
    (start s).wire = s.wire ++ [PinCall.digitalWrite s._stbPin PinLevel.LOW] := rfl
theorem writeCommand_wire (s : TM1638) (c : Nat) :
    (writeCommand s c).wire = s.wire ++
      [PinCall.digitalWrite s._stbPin PinLevel.LOW,
       PinCall.shiftOut s._dataPin s._clkPin (c % 256),
       PinCall.digitalWrite s._stbPin PinLevel.HIGH] := by
  simp [writeCommand, start, stop, writeByte, digitalWrite]

theorem writeDigit_wire (s : TM1638) (d : Nat) (led : Bool) :
    (writeDigit s d led).wire = s.wire ++
      [PinCall.digitalWrite s._stbPin PinLevel.LOW,
       PinCall.shiftOut s._dataPin s._clkPin
         ((STARTADDR38 + (s._tmDigitMap.getD d 0 <<< 1) + (if led then 1 else 0)) % 256),
       PinCall.shiftOut s._dataPin s._clkPin
         ((if led then (s._allLEDs >>> d) &&& 0x01 else s._registers.getD d 0) % 256),
       PinCall.digitalWrite s._stbPin PinLevel.HIGH] := by
  cases led <;> simp [writeDigit, digitMapAt, start, stop, writeByte, digitalWrite]

@[simp] theorem writeCommand_stbPin (s : TM1638) (c : Nat) :
    (writeCommand s c)._stbPin = s._stbPin := rfl
@[simp] theorem writeCommand_dataPin (s : TM1638) (c : Nat) :
    (writeCommand s c)._dataPin = s._dataPin := rfl
@[simp] theorem writeCommand_clkPin (s : TM1638) (c : Nat) :
    (writeCommand s c)._clkPin = s._clkPin := rfl
@[simp] theorem writeCommand_tmDigitMap (s : TM1638) (c : Nat) :
    (writeCommand s c)._tmDigitMap = s._tmDigitMap := rfl
@[simp] theorem writeDigit_stbPin (s : TM1638) (d : Nat) (b : Bool) :
    (writeDigit s d b)._stbPin = s._stbPin := by cases b <;> rfl
@[simp] theorem writeDigit_dataPin (s : TM1638) (d : Nat) (b : Bool) :
    (writeDigit s d b)._dataPin = s._dataPin := by cases b <;> rfl
@[simp] theorem writeDigit_clkPin (s : TM1638) (d : Nat) (b : Bool) :
    (writeDigit s d b)._clkPin = s._clkPin := by cases b <;> rfl
@[simp] theorem writeDigit_tmDigitMap (s : TM1638) (d : Nat) (b : Bool) :
    (writeDigit s d b)._tmDigitMap = s._tmDigitMap := by cases b <;> rfl

end TM1638

namespace TM1638

theorem displayLED1_allLEDs (s : TM1638) (i : Nat) (b : Bool) :
    (displayLED1 s i b)._allLEDs =
      if s._numLEDs > 0 ∧ i < s._numLEDs then bitWrite s._allLEDs i b else s._allLEDs := by
  unfold displayLED1; split <;> simp

@[simp] theorem displayLED1_numLEDs (s : TM1638) (i : Nat) (b : Bool) :
    (displayLED1 s i b)._numLEDs = s._numLEDs := by
  unfold displayLED1; split <;> simp

/-- The LED mask after `displayLED8` with 8 or more LEDs configured: eight single-bit writes,
bit `d` taking bit `d` of the number in LSB-first order and bit `7 - d` otherwise. -/
theorem displayLED8_allLEDs (s : TM1638) (v : Nat) (lsbFirst : Bool) (hn : s._numLEDs > 7) :
    (displayLED8 s v lsbFirst)._allLEDs =
      bitWrite (bitWrite (bitWrite (bitWrite (bitWrite (bitWrite (bitWrite (bitWrite s._allLEDs
        0 (v.testBit (if lsbFirst then 0 else 7)))
        1 (v.testBit (if lsbFirst then 1 else 6)))
        2 (v.testBit (if lsbFirst then 2 else 5)))
        3 (v.testBit (if lsbFirst then 3 else 4)))
        4 (v.testBit (if lsbFirst then 4 else 3)))
        5 (v.testBit (if lsbFirst then 5 else 2)))
        6 (v.testBit (if lsbFirst then 6 else 1)))
        7 (v.testBit (if lsbFirst then 7 else 0)) := by
  have h0 : s._numLEDs > 0 ∧ 0 < s._numLEDs := ⟨by omega, by omega⟩
  have h1 : s._numLEDs > 0 ∧ 1 < s._numLEDs := ⟨by omega, by omega⟩
  have h2 : s._numLEDs > 0 ∧ 2 < s._numLEDs := ⟨by omega, by omega⟩
  have h3 : s._numLEDs > 0 ∧ 3 < s._numLEDs := ⟨by omega, by omega⟩
  have h4 : s._numLEDs > 0 ∧ 4 < s._numLEDs := ⟨by omega, by omega⟩
  have h5 : s._numLEDs > 0 ∧ 5 < s._numLEDs := ⟨by omega, by omega⟩
  have h6 : s._numLEDs > 0 ∧ 6 < s._numLEDs := ⟨by omega, by omega⟩
  have h7 : s._numLEDs > 0 ∧ 7 < s._numLEDs := ⟨by omega, by omega⟩
  unfold displayLED8
  rw [if_pos hn, range_eight]
  cases lsbFirst <;>
    simp only [List.foldl_cons, List.foldl_nil, Bool.false_eq_true, if_false, if_true,
      displayLED1_allLEDs, displayLED1_numLEDs, shr_land_one_ne, h0, h1, h2, h3, h4, h5, h6, h7,
      and_self, Nat.reduceSub]

end TM1638

/-! ## The part of the state no display function writes -/

namespace TM1638

@[simp] theorem fixedPart_writeCommand (s : TM1638) (c : Nat) :
    fixedPart (writeCommand s c) = fixedPart s := rfl

@[simp] theorem fixedPart_writeDigit (s : TM1638) (d : Nat) (b : Bool) :
    fixedPart (writeDigit s d b) = fixedPart s := by
  cases b <;> simp [fixedPart, writeDigit, digitMapAt, start, stop, writeByte, digitalWrite]

@[simp] theorem fixedPart_putGlyph (s : TM1638) (i j k : Nat) :
    fixedPart (putGlyph s i j k) = fixedPart s := rfl

@[simp] theorem fixedPart_displayLED1 (s : TM1638) (d : Nat) (b : Bool) :
    fixedPart (displayLED1 s d b) = fixedPart s := by
  unfold displayLED1
  split
  · simp only [fixedPart_writeDigit, fixedPart_writeCommand]; rfl
  · rfl

@[simp] theorem fixedPart_displayChar (s : TM1638) (d v : Nat) (raw : Bool) :
    fixedPart (displayChar s d v raw) = fixedPart s := by
  unfold displayChar
  split
  · simp only [fixedPart_writeDigit, fixedPart_writeCommand]; rfl
  · rfl

@[simp] theorem fixedPart_displayDP (s : TM1638) (d : Nat) (b : Bool) :
    fixedPart (displayDP s d b) = fixedPart s := by
  unfold displayDP
  split
  · simp only [fixedPart_writeDigit, fixedPart_writeCommand]; rfl
  · rfl

@[simp] theorem fixedPart_displayClear (s : TM1638) :
    fixedPart (displayClear s) = fixedPart s := by
  unfold displayClear
  exact foldl_keeps fixedPart _ (fun s a => by simp) _ s

/-- States with the same fixed part agree on the configuration, the pins and the key bytes. -/
theorem config_of_fixedPart {s t : TM1638} (h : fixedPart t = fixedPart s) :
    t._numLEDs = s._numLEDs ∧ t._numDigits = s._numDigits ∧ t._numButtons = s._numButtons ∧
    t._brightness = s._brightness ∧ t._tmDigitMap = s._tmDigitMap ∧
    t.charTableSize = s.charTableSize ∧ t.cmdDispCtrl = s.cmdDispCtrl ∧
    t._stbPin = s._stbPin ∧ t._clkPin = s._clkPin ∧ t._dataPin = s._dataPin ∧
    t.keys = s.keys := by
  have h1 : (fixedPart t)._numLEDs = (fixedPart s)._numLEDs := by rw [h]
  have h2 : (fixedPart t)._numDigits = (fixedPart s)._numDigits := by rw [h]
  have h3 : (fixedPart t)._numButtons = (fixedPart s)._numButtons := by rw [h]
  have h4 : (fixedPart t)._brightness = (fixedPart s)._brightness := by rw [h]
  have h5 : (fixedPart t)._tmDigitMap = (fixedPart s)._tmDigitMap := by rw [h]
  have h6 : (fixedPart t).charTableSize = (fixedPart s).charTableSize := by rw [h]
  have h7 : (fixedPart t).cmdDispCtrl = (fixedPart s).cmdDispCtrl := by rw [h]
  have h8 : (fixedPart t)._stbPin = (fixedPart s)._stbPin := by rw [h]
  have h9 : (fixedPart t)._clkPin = (fixedPart s)._clkPin := by rw [h]
  have h10 : (fixedPart t)._dataPin = (fixedPart s)._dataPin := by rw [h]
  have h11 : (fixedPart t).keys = (fixedPart s).keys := by rw [h]
  exact ⟨h1, h2, h3, h4, h5, h6, h7, h8, h9, h10, h11⟩

@[simp] theorem displayChar_numLEDs (s : TM1638) (d v : Nat) (raw : Bool) :
    (displayChar s d v raw)._numLEDs = s._numLEDs :=
  (config_of_fixedPart (fixedPart_displayChar s d v raw)).1

@[simp] theorem displayDP_numLEDs (s : TM1638) (d : Nat) (b : Bool) :
    (displayDP s d b)._numLEDs = s._numLEDs :=
  (config_of_fixedPart (fixedPart_displayDP s d b)).1

@[simp] theorem displayClear_tmDigitMap (s : TM1638) :
    (displayClear s)._tmDigitMap = s._tmDigitMap :=
  (config_of_fixedPart (fixedPart_displayClear s)).2.2.2.2.1

@[simp] theorem displayClear_numLEDs (s : TM1638) :
    (displayClear s)._numLEDs = s._numLEDs :=
  (config_of_fixedPart (fixedPart_displayClear s)).1

@[simp] theorem displayClear_numButtons (s : TM1638) :
    (displayClear s)._numButtons = s._numButtons :=
  (config_of_fixedPart (fixedPart_displayClear s)).2.2.1

/-- The configuration `begin` records: the digit map as given, each count when it lies in
1..8 (otherwise 0 LEDs, 1 digit, 0 buttons), the brightness masked to 3 bits, and the
display-control command built from it. -/
theorem begin_config (s : TM1638) (m : List Nat) (nb nl nd br : Nat) :
    (begin s m nb nl nd br)._tmDigitMap = m ∧
    (begin s m nb nl nd br)._numLEDs = (if nl > 0 ∧ nl ≤ MAX_LEDS38 then nl else 0) ∧
    (begin s m nb nl nd br)._numDigits = (if nd > 0 ∧ nd ≤ MAX_DIGITS38 then nd else 1) ∧
    (begin s m nb nl nd br)._numButtons = (if nb > 0 ∧ nb ≤ MAX_BUTTONS38 then nb else 0) ∧
    (begin s m nb nl nd br)._brightness = br &&& INTENSITY_MAX38 ∧
    (begin s m nb nl nd br).cmdDispCtrl = (DISP_ON38 + (br &&& INTENSITY_MAX38)) % 256 := by
  unfold begin
  refine ⟨?_, ?_, ?_, ?_, ?_, ?_⟩ <;>
    simp only [displayBrightness, writeCommand, start, stop, writeByte, digitalWrite,
      displayClear_tmDigitMap, displayClear_numLEDs, displayClear_numDigits,
      displayClear_numButtons, pinMode]

end TM1638

/-! ## What goes over the wire -/

theorem brightness_lor : ∀ x < 8, 0x88 + x = 0x88 ||| x := by decide

namespace TM1638

/-- The pin calls of `displayChar` on an accepted digit: the fixed-address command, then one
transaction carrying the digit's chip address and the byte just stored in its shadow
register. -/
theorem displayChar_wire (s : TM1638) (d v : Nat) (raw : Bool) (hd : d < s._numDigits)
    (hl : d < s._registers.length) :
    (displayChar s d v raw).wire = s.wire ++
      [PinCall.digitalWrite s._stbPin PinLevel.LOW,
       PinCall.shiftOut s._dataPin s._clkPin ADDR_FIXED38,
       PinCall.digitalWrite s._stbPin PinLevel.HIGH,
       PinCall.digitalWrite s._stbPin PinLevel.LOW,
       PinCall.shiftOut s._dataPin s._clkPin
         ((STARTADDR38 + (s._tmDigitMap.getD d 0 <<< 1)) % 256),
       PinCall.shiftOut s._dataPin s._clkPin ((displayChar s d v raw)._registers.getD d 0),
       PinCall.digitalWrite s._stbPin PinLevel.HIGH] := by
  have hlt : (displayChar s d v raw)._registers.getD d 0 < 256 := by
    rw [displayChar_reg_self s d v raw hd hl]
    have := segment_lt v s.charTableSize raw
    omega
  have hw : (displayChar s d v raw).wire = s.wire ++
      [PinCall.digitalWrite s._stbPin PinLevel.LOW,
       PinCall.shiftOut s._dataPin s._clkPin (ADDR_FIXED38 % 256),
       PinCall.digitalWrite s._stbPin PinLevel.HIGH,
       PinCall.digitalWrite s._stbPin PinLevel.LOW,
       PinCall.shiftOut s._dataPin s._clkPin
         ((STARTADDR38 + (s._tmDigitMap.getD d 0 <<< 1) + 0) % 256),
       PinCall.shiftOut s._dataPin s._clkPin
         ((displayChar s d v raw)._registers.getD d 0 % 256),
       PinCall.digitalWrite s._stbPin PinLevel.HIGH] := by
    unfold displayChar
    rw [if_pos hd]
    simp only [writeDigit_wire, writeCommand_wire, writeCommand_stbPin, writeCommand_dataPin,
      writeCommand_clkPin, writeCommand_tmDigitMap, writeCommand_registers,
      writeDigit_registers, Bool.false_eq_true, if_false, List.append_assoc, List.cons_append,
      List.nil_append]
  rw [hw, Nat.mod_eq_of_lt hlt]
  rfl

end TM1638

/-! ## Lookups into the digit map -/

namespace TM1638

theorem LookupsBelow.refl (s : TM1638) (n : Nat) : LookupsBelow s s n :=
  ⟨[], by simp, by simp⟩

theorem LookupsBelow.of_eq {s t : TM1638} (h : t.mapReads = s.mapReads) (n : Nat) :
    LookupsBelow s t n :=
  ⟨[], by simp [h], by simp⟩

theorem LookupsBelow.trans {s t u : TM1638} {n : Nat} (h1 : LookupsBelow s t n)
    (h2 : LookupsBelow t u n) : LookupsBelow s u n := by
  obtain ⟨a, ha, hA⟩ := h1
  obtain ⟨b, hb, hB⟩ := h2
  refine ⟨a ++ b, by rw [hb, ha, List.append_assoc], ?_⟩
  intro i hi
  rcases List.mem_append.mp hi with h | h
  · exact hA i h
  · exact hB i h

@[simp] theorem writeCommand_mapReads (s : TM1638) (c : Nat) :
    (writeCommand s c).mapReads = s.mapReads := rfl

theorem writeDigit_mapReads (s : TM1638) (d : Nat) (b : Bool) :
    (writeDigit s d b).mapReads = s.mapReads ++ [d] := by
  cases b <;> simp [writeDigit, digitMapAt, start, stop, writeByte, digitalWrite]

@[simp] theorem putGlyph_mapReads (s : TM1638) (i j k : Nat) :
    (putGlyph s i j k).mapReads = s.mapReads := rfl

theorem lookups_writeDigit (s : TM1638) (d : Nat) (b : Bool) (n : Nat) (h : d < n) :
    LookupsBelow s (writeDigit s d b) n :=
  ⟨[d], writeDigit_mapReads s d b, by simpa using h⟩

theorem displayChar_mapReads (s : TM1638) (d v : Nat) (raw : Bool) :
    (displayChar s d v raw).mapReads =
      if d < s._numDigits then s.mapReads ++ [d] else s.mapReads := by
  unfold displayChar
  split <;> simp [writeDigit_mapReads]

theorem displayDP_mapReads (s : TM1638) (d : Nat) (b : Bool) :
    (displayDP s d b).mapReads =
      if d < s._numDigits then s.mapReads ++ [d] else s.mapReads := by
  unfold displayDP
  split <;> simp [writeDigit_mapReads]

theorem displayLED1_mapReads (s : TM1638) (d : Nat) (b : Bool) :
    (displayLED1 s d b).mapReads =
      if s._numLEDs > 0 ∧ d < s._numLEDs then s.mapReads ++ [d] else s.mapReads := by
  unfold displayLED1
  split <;> simp [writeDigit_mapReads]

theorem lookups_displayChar (s : TM1638) (d v : Nat) (raw : Bool) :
    LookupsBelow s (displayChar s d v raw) s._numDigits := by
  by_cases h : d < s._numDigits
  · exact ⟨[d], by rw [displayChar_mapReads, if_pos h], by simpa using h⟩
  · exact LookupsBelow.of_eq (by rw [displayChar_mapReads, if_neg h]) _

theorem lookups_displayDP (s : TM1638) (d : Nat) (b : Bool) :
    LookupsBelow s (displayDP s d b) s._numDigits := by
  by_cases h : d < s._numDigits
  · exact ⟨[d], by rw [displayDP_mapReads, if_pos h], by simpa using h⟩
  · exact LookupsBelow.of_eq (by rw [displayDP_mapReads, if_neg h]) _

theorem lookups_displayLED1 (s : TM1638) (d : Nat) (b : Bool) :
    LookupsBelow s (displayLED1 s d b) s._numLEDs := by
  by_cases h : s._numLEDs > 0 ∧ d < s._numLEDs
  · exact ⟨[d], by rw [displayLED1_mapReads, if_pos h], by simpa using h.2⟩
  · exact LookupsBelow.of_eq (by rw [displayLED1_mapReads, if_neg h]) _

/-- In `displayClear` the LED of digit `d` is looked up only when `d` is below both counts. -/
theorem lookups_displayLED1_digits (s : TM1638) (d : Nat) (b : Bool) (hd : d < s._numDigits) :
    LookupsBelow s (displayLED1 s d b) s._numDigits := by
  by_cases h : s._numLEDs > 0 ∧ d < s._numLEDs
  · exact ⟨[d], by rw [displayLED1_mapReads, if_pos h], by simpa using hd⟩
  · exact LookupsBelow.of_eq (by rw [displayLED1_mapReads, if_neg h]) _

/-- A loop whose every round keeps two counts and looks up only below `n` does so as a whole. -/
theorem lookups_foldl {α : Type} (f : TM1638 → α → TM1638) (n nd nl : Nat) (l : List α)
    (h : ∀ s a, a ∈ l → s._numDigits = nd → s._numLEDs = nl →
      LookupsBelow s (f s a) n ∧ (f s a)._numDigits = nd ∧ (f s a)._numLEDs = nl)
    (s : TM1638) (hd : s._numDigits = nd) (hl : s._numLEDs = nl) :
    LookupsBelow s (l.foldl f s) n := by
  induction l generalizing s with
  | nil => exact LookupsBelow.refl s n
  | cons a l ih =>
    rw [List.foldl_cons]
    obtain ⟨h1, h2, h3⟩ := h s a (List.mem_cons_self a l) hd hl
    exact h1.trans (ih (fun s b hb => h s b (List.mem_cons_of_mem a hb)) (f s a) h2 h3)

theorem lookups_displayClear (s : TM1638) :
    LookupsBelow s (displayClear s) s._numDigits := by
  unfold displayClear
  refine lookups_foldl _ s._numDigits s._numDigits s._numLEDs _ ?_ s rfl rfl
  intro t d hd hnd hnl
  have hd' : d < t._numDigits := by rw [hnd]; exact List.mem_range.mp hd
  refine ⟨?_, by simp [hnd], by simp [hnl]⟩
  have h1 := lookups_displayLED1_digits t d false hd'
  have h2 := lookups_displayChar (displayLED1 t d false) d 0x00 true
  have h3 := lookups_displayDP (displayChar (displayLED1 t d false) d 0x00 true) d false
  simp only [displayLED1_numDigits, displayChar_numDigits] at h2 h3
  rw [← hnd]
  exact h1.trans (h2.trans h3)

end TM1638

namespace TM1638

theorem lookups_displayInt8 (s : TM1638) (d v : Nat) (useDec : Bool) :
    LookupsBelow s (displayInt8 s d v useDec) s._numDigits := by
  unfold displayInt8
  split
  · next hg =>
    refine ⟨[d, (d + 1) % 256], ?_, ?_⟩
    · cases useDec <;> simp [writeDigit_mapReads]
    · intro i hi
      have := Nat.mod_le (d + 1) 256
      simp only [List.mem_cons, List.mem_singleton, List.not_mem_nil, or_false] at hi
      rcases hi with h | h <;> omega
  · exact LookupsBelow.refl s _

theorem lookups_displayInt12 (s : TM1638) (d v : Nat) (useDec : Bool) :
    LookupsBelow s (displayInt12 s d v useDec) s._numDigits := by
  unfold displayInt12
  split
  · next hg =>
    refine ⟨[d, (d + 1) % 256, (d + 2) % 256], ?_, ?_⟩
    · cases useDec <;> simp [writeDigit_mapReads]
    · intro i hi
      have := Nat.mod_le (d + 1) 256
      have := Nat.mod_le (d + 2) 256
      simp only [List.mem_cons, List.mem_singleton, List.not_mem_nil, or_false] at hi
      rcases hi with h | h | h <;> omega
  · exact LookupsBelow.refl s _

theorem lookups_displayInt16 (s : TM1638) (d v : Nat) (useDec : Bool) :
    LookupsBelow s (displayInt16 s d v useDec) s._numDigits := by
  unfold displayInt16
  split
  · next hg =>
    refine ⟨[d, (d + 1) % 256, (d + 2) % 256, (d + 3) % 256], ?_, ?_⟩
    · cases useDec <;> simp [writeDigit_mapReads]
    · intro i hi
      have := Nat.mod_le (d + 1) 256
      have := Nat.mod_le (d + 2) 256
      have := Nat.mod_le (d + 3) 256
      simp only [List.mem_cons, List.mem_singleton, List.not_mem_nil, or_false] at hi
      rcases hi with h | h | h | h <;> omega
  · exact LookupsBelow.refl s _

theorem lookups_displayBin8 (s : TM1638) (v : Nat) (lsbFirst : Bool) :
    LookupsBelow s (displayBin8 s v lsbFirst) s._numDigits := by
  unfold displayBin8
  split
  · next hg =>
    refine lookups_foldl _ s._numDigits s._numDigits s._numLEDs _ ?_ s rfl rfl
    intro t d hd hnd hnl
    have hd' : d < 8 := List.mem_range.mp hd
    refine ⟨⟨[d], ?_, ?_⟩, ?_, ?_⟩
    · cases lsbFirst <;> simp [writeDigit_mapReads]
    · intro i hi
      simp only [List.mem_singleton] at hi
      omega
    · cases lsbFirst <;> simp [hnd, putGlyph]
    · cases lsbFirst <;> simp [hnl, putGlyph]
  · exact LookupsBelow.refl s _

theorem lookups_displayLED8 (s : TM1638) (v : Nat) (lsbFirst : Bool) :
    LookupsBelow s (displayLED8 s v lsbFirst) s._numLEDs := by
  unfold displayLED8
  split
  · next hg =>
    refine lookups_foldl _ s._numLEDs s._numDigits s._numLEDs _ ?_ s rfl rfl
    intro t d hd hnd hnl
    cases lsbFirst
    · refine ⟨?_, by simp [hnd], by simp [hnl]⟩
      have h := lookups_displayLED1 t d (((v >>> (7 - d)) &&& 0x01) != 0)
      rw [hnl] at h
      simpa using h
    · refine ⟨?_, by simp [hnd], by simp [hnl]⟩
      have h := lookups_displayLED1 t d (((v >>> d) &&& 0x01) != 0)
      rw [hnl] at h
      simpa using h
  · exact LookupsBelow.refl s _

end TM1638

/-! ## Clearing the display, and `begin` twice -/

theorem foldl_comm_step {α β : Type} (g : β → α → β)
    (hc : ∀ x a b, g (g x a) b = g (g x b) a) (l : List α) (x : β) (a : α) :
    g (l.foldl g x) a = l.foldl g (g x a) := by
  induction l generalizing x with
  | nil => rfl
  | cons b l ih => rw [List.foldl_cons, List.foldl_cons, ih, hc]

/-- Running twice a loop whose rounds commute and are idempotent is running it once. -/
theorem foldl_idem {α β : Type} (g : β → α → β)
    (hc : ∀ x a b, g (g x a) b = g (g x b) a) (hi : ∀ x a, g (g x a) a = g x a)
    (l : List α) (x : β) :
    l.foldl g (l.foldl g x) = l.foldl g x := by
  induction l generalizing x with
  | nil => rfl
  | cons a l ih =>
    rw [List.foldl_cons, List.foldl_cons, ← foldl_comm_step g hc, foldl_comm_step g hc l _ a,
      foldl_comm_step g hc l _ a, hi, ih]

theorem foldl_proj {α β : Type} (p : TM1638 → β) (f : TM1638 → α → TM1638) (g : β → α → β)
    (h : ∀ s a, p (f s a) = g (p s) a) (l : List α) (s : TM1638) :
    p (l.foldl f s) = l.foldl g (p s) := by
  induction l generalizing s with
  | nil => rfl
  | cons a l ih => rw [List.foldl_cons, List.foldl_cons, ih, h]

theorem bitWrite_clear_comm (m a b : Nat) :
    bitWrite (bitWrite m a false) b false = bitWrite (bitWrite m b false) a false := by
  have h8 : (256 : Nat) = 2 ^ 8 := by norm_num
  simp only [bitWrite, Bool.false_eq_true, if_false]
  apply Nat.eq_of_testBit_eq
  intro j
  simp only [h8, Nat.testBit_mod_two_pow, Nat.testBit_land]
  cases decide (j < 8) <;> cases m.testBit j <;>
    cases (4294967295 ^^^ (1 <<< a) % 4294967296).testBit j <;>
    cases (4294967295 ^^^ (1 <<< b) % 4294967296).testBit j <;> rfl

theorem bitWrite_clear_idem (m a : Nat) :
    bitWrite (bitWrite m a false) a false = bitWrite m a false := by
  have h8 : (256 : Nat) = 2 ^ 8 := by norm_num
  simp only [bitWrite, Bool.false_eq_true, if_false]
  apply Nat.eq_of_testBit_eq
  intro j
  simp only [h8, Nat.testBit_mod_two_pow, Nat.testBit_land]
  cases decide (j < 8) <;> cases m.testBit j <;>
    cases (4294967295 ^^^ (1 <<< a) % 4294967296).testBit j <;> rfl

theorem set_zero_comm (l : List Nat) (a b : Nat) :
    (l.set a 0).set b 0 = (l.set b 0).set a 0 := by
  by_cases h : a = b
  · rw [h]
  · exact List.set_comm 0 0 l h

namespace TM1638

theorem clearStep_comm (nd nl : Nat) (x : List Nat × Nat) (a b : Nat) :
    clearStep nd nl (clearStep nd nl x a) b = clearStep nd nl (clearStep nd nl x b) a := by
  unfold clearStep
  refine Prod.ext ?_ ?_
  · by_cases ha : a < nd <;> by_cases hb : b < nd <;> simp [ha, hb, set_zero_comm]
  · by_cases ha : nl > 0 ∧ a < nl <;> by_cases hb : nl > 0 ∧ b < nl
    · simp only [if_pos ha, if_pos hb, bitWrite_clear_comm]
    · simp only [if_pos ha, if_neg hb]
    · simp only [if_neg ha, if_pos hb]
    · simp only [if_neg ha, if_neg hb]

theorem clearStep_idem (nd nl : Nat) (x : List Nat × Nat) (a : Nat) :
    clearStep nd nl (clearStep nd nl x a) a = clearStep nd nl x a := by
  unfold clearStep
  refine Prod.ext ?_ ?_
  · by_cases ha : a < nd <;> simp [ha]
  · by_cases ha : nl > 0 ∧ a < nl
    · simp only [if_pos ha, bitWrite_clear_idem]
    · simp only [if_neg ha]

end TM1638

namespace TM1638

@[simp] theorem displayLED1_registers (s : TM1638) (d : Nat) (b : Bool) :
    (displayLED1 s d b)._registers = s._registers := by
  unfold displayLED1; split <;> simp

@[simp] theorem displayChar_allLEDs (s : TM1638) (d v : Nat) (raw : Bool) :
    (displayChar s d v raw)._allLEDs = s._allLEDs := by
  unfold displayChar; split <;> simp

@[simp] theorem displayDP_allLEDs (s : TM1638) (d : Nat) (b : Bool) :
    (displayDP s d b)._allLEDs = s._allLEDs := by
  unfold displayDP; split <;> simp

theorem displayChar_registers_out (s : TM1638) (d v : Nat) (raw : Bool)
    (hd : ¬ d < s._numDigits) : (displayChar s d v raw)._registers = s._registers := by
  unfold displayChar; rw [if_neg hd]

theorem displayDP_registers_out (s : TM1638) (d : Nat) (b : Bool)
    (hd : ¬ d < s._numDigits) : (displayDP s d b)._registers = s._registers := by
  unfold displayDP; rw [if_neg hd]

theorem getD_set_self_mod (l : List Nat) (d k : Nat) :
    (l.set d (128 * k)).getD d 0 % 128 = 0 := by
  by_cases h : d < l.length
  · rw [getD_set_self _ _ _ h]; omega
  · rw [List.getD_eq_default _ _ (by simp; omega)]

/-- One round of the `displayClear` loop, seen on the shadow state. -/
theorem shadow_clear_round (s : TM1638) (d : Nat) :
    shadow (displayDP (displayChar (displayLED1 s d false) d 0x00 true) d false)
      = clearStep s._numDigits s._numLEDs (shadow s) d := by
  unfold shadow clearStep
  refine Prod.ext ?_ ?_
  · by_cases hd : d < s._numDigits
    · have h1 : d < (displayLED1 s d false)._numDigits := by simpa using hd
      have h2 : d < (displayChar (displayLED1 s d false) d 0x00 true)._numDigits := by
        simpa using hd
      simp only [if_pos hd]
      rw [displayDP_registers _ _ _ h2, displayChar_registers _ _ _ _ h1]
      simp only [displayLED1_registers, Bool.false_eq_true, if_false, if_true, Nat.zero_mod,
        Nat.add_zero, Nat.zero_add, List.set_set, getD_set_self_mod]
    · have h1 : ¬ d < (displayLED1 s d false)._numDigits := by simpa using hd
      have h2 : ¬ d < (displayChar (displayLED1 s d false) d 0x00 true)._numDigits := by
        simpa using hd
      simp only [if_neg hd]
      rw [displayDP_registers_out _ _ _ h2, displayChar_registers_out _ _ _ _ h1,
        displayLED1_registers]
  · simp only [displayDP_allLEDs, displayChar_allLEDs, displayLED1_allLEDs]

/-- The shadow state after `displayClear`: the rounds for digits `0 .. numDigits - 1`. -/
theorem shadow_displayClear (s : TM1638) :
    shadow (displayClear s)
      = (List.range s._numDigits).foldl (clearStep s._numDigits s._numLEDs) (shadow s) := by
  unfold displayClear
  have key : ∀ (l : List Nat) (t : TM1638), t._numDigits = s._numDigits →
      t._numLEDs = s._numLEDs →
      shadow (l.foldl (fun s digit =>
          displayDP (displayChar (displayLED1 s digit false) digit 0x00 true) digit false) t)
        = l.foldl (clearStep s._numDigits s._numLEDs) (shadow t) := by
    intro l
    induction l with
    | nil => intro t _ _; rfl
    | cons a l ih =>
      intro t hd hl
      rw [List.foldl_cons, List.foldl_cons, ih _ (by simp [hd]) (by simp [hl]),
        shadow_clear_round, hd, hl]
  exact key _ s rfl rfl

/-- The shadow state after `begin`: the clearing rounds for the clamped counts, applied to
the shadow state before. -/
theorem shadow_begin (s : TM1638) (m : List Nat) (nb nl nd br : Nat) :
    shadow (begin s m nb nl nd br)
      = (List.range (if nd > 0 ∧ nd ≤ MAX_DIGITS38 then nd else 1)).foldl
          (clearStep (if nd > 0 ∧ nd ≤ MAX_DIGITS38 then nd else 1)
            (if nl > 0 ∧ nl ≤ MAX_LEDS38 then nl else 0)) (shadow s) := by
  unfold begin
  have hb : ∀ t b, shadow (displayBrightness t b) = shadow t := fun _ _ => rfl
  rw [hb, shadow_displayClear]
  rfl

end TM1638

namespace TM1638

theorem getD_set_zero (l : List Nat) (k d : Nat) :
    (l.set k 0).getD d 0 = if k = d then 0 else l.getD d 0 := by
  by_cases h : k = d
  · subst h
    rw [if_pos rfl]
    by_cases hk : k < l.length
    · exact getD_set_self _ _ _ hk
    · rw [List.getD_eq_default _ _ (by simp; omega)]
  · rw [if_neg h, getD_set_other _ _ _ _ h]

theorem clearStep_fst (nd nl : Nat) (x : List Nat × Nat) (d : Nat) :
    (clearStep nd nl x d).1 = if d < nd then x.1.set d 0 else x.1 := rfl

theorem clearStep_snd (nd nl : Nat) (x : List Nat × Nat) (d : Nat) :
    (clearStep nd nl x d).2 = if nl > 0 ∧ d < nl then bitWrite x.2 d false else x.2 := rfl

/-- After the clearing rounds for digits `0 .. k - 1`, the registers below `k` and below the
digit count read 0 and the others are as before. -/
theorem clear_rounds_registers (nd nl : Nat) (x : List Nat × Nat) (k d : Nat) :
    ((List.range k).foldl (clearStep nd nl) x).1.getD d 0
      = if d < k ∧ d < nd then 0 else x.1.getD d 0 := by
  induction k with
  | zero => simp
  | succ k ih =>
    rw [List.range_succ, List.foldl_append, List.foldl_cons, List.foldl_nil, clearStep_fst]
    by_cases hk : k < nd
    · simp only [if_pos hk, getD_set_zero, ih]
      by_cases hkd : k = d
      · subst hkd; simp [hk]
      · have : (d < k + 1 ∧ d < nd) ↔ (d < k ∧ d < nd) := by omega
        simp only [if_neg hkd, this]
    · simp only [if_neg hk, ih]
      have : (d < k + 1 ∧ d < nd) ↔ (d < k ∧ d < nd) := by omega
      simp only [this]

/-- After the clearing rounds for digits `0 .. k - 1`, the LED bits below `k` and below the
LED count are 0. -/
theorem clear_rounds_leds (nd nl : Nat) (hnl : nl ≤ 8) (x : List Nat × Nat) (k j : Nat)
    (hj : j < k) (hjl : j < nl) :
    ((List.range k).foldl (clearStep nd nl) x).2.testBit j = false := by
  induction k with
  | zero => omega
  | succ k ih =>
    rw [List.range_succ, List.foldl_append, List.foldl_cons, List.foldl_nil, clearStep_snd]
    by_cases hk : nl > 0 ∧ k < nl
    · simp only [if_pos hk]
      rw [bitWrite_testBit _ _ _ _ (by omega : k < 8)]
      by_cases hjk : j = k
      · simp [hjk]
      · have hj' : j < k := by omega
        simp [hjk, ih hj']
    · simp only [if_neg hk]
      exact ih (by omega)

/-- What `displayClear` achieves on a set-up driver: every shadow register below the digit
count is 0x00, and every LED-mask bit below both the digit count and the LED count is 0. -/
theorem displayClear_clears (s : TM1638) (hs : Ready s) :
    (∀ d, d < s._numDigits → (displayClear s)._registers.getD d 0 = 0) ∧
    (∀ j, j < s._numDigits → j < s._numLEDs → (displayClear s)._allLEDs.testBit j = false) := by
  have h := shadow_displayClear s
  have h1 : (displayClear s)._registers
      = ((List.range s._numDigits).foldl (clearStep s._numDigits s._numLEDs) (shadow s)).1 :=
    congrArg Prod.fst h
  have h2 : (displayClear s)._allLEDs
      = ((List.range s._numDigits).foldl (clearStep s._numDigits s._numLEDs) (shadow s)).2 :=
    congrArg Prod.snd h
  refine ⟨?_, ?_⟩
  · intro d hd
    rw [h1, clear_rounds_registers, if_pos ⟨hd, hd⟩]
  · intro j hj hjl
    rw [h2]
    exact clear_rounds_leds _ _ hs.2.2.2 _ _ _ hj hjl

end TM1638

/-! ## The chip under `displayTest` -/

theorem toNat_mod_byte (b : Bool) : b.toNat % 256 = b.toNat := by cases b <;> rfl

theorem length_eq_sixteen (l : List Nat) (h : l.length = 16) :
    ∃ a0 a1 a2 a3 a4 a5 a6 a7 a8 a9 a10 a11 a12 a13 a14 a15,
      l = [a0, a1, a2, a3, a4, a5, a6, a7, a8, a9, a10, a11, a12, a13, a14, a15] := by
  match l, h with
  | [a0, a1, a2, a3, a4, a5, a6, a7, a8, a9, a10, a11, a12, a13, a14, a15], _ =>
    exact ⟨a0, a1, a2, a3, a4, a5, a6, a7, a8, a9, a10, a11, a12, a13, a14, a15, rfl⟩

namespace Chip

theorem run_append (stb : Nat) (c : Chip) (w1 w2 : List PinCall) :
    run stb c (w1 ++ w2) = run stb (run stb c w1) w2 := by
  unfold run; rw [List.foldl_append]

theorem run_cons (stb : Nat) (c : Chip) (e : PinCall) (w : List PinCall) :
    run stb c (e :: w) = run stb (step stb c e) w := rfl

theorem run_nil (stb : Nat) (c : Chip) : run stb c [] = c := rfl

theorem step_mem_length (stb : Nat) (c : Chip) (e : PinCall) :
    (step stb c e).mem.length = c.mem.length := by
  cases e with
  | pinMode p d => rfl
  | digitalWrite p l =>
    cases l <;> simp only [step] <;> split <;> rfl
  | shiftOut a b d =>
    simp only [step]
    split
    · split
      · rfl
      · simp only [store]
        split <;> simp
    · rfl
  | shiftIn a b d => rfl

theorem run_mem_length (stb : Nat) (c : Chip) (w : List PinCall) :
    (run stb c w).mem.length = c.mem.length := by
  induction w generalizing c with
  | nil => rfl
  | cons e w ih => rw [run_cons, ih, step_mem_length]

/-- An auto-increment transaction from address 0xC0 with 16 data bytes, as `displayTest`
sends it, leaves exactly those bytes in the display memory. -/
theorem run_bulk_write (stb dp cp : Nat) (c : Chip) (hc : c.mem.length = 16)
    (x0 x1 x2 x3 x4 x5 x6 x7 x8 x9 x10 x11 x12 x13 x14 x15 : Nat) :
    (run stb c
      [PinCall.digitalWrite stb PinLevel.LOW, PinCall.shiftOut dp cp 0x40,
       PinCall.digitalWrite stb PinLevel.HIGH, PinCall.digitalWrite stb PinLevel.LOW,
       PinCall.shiftOut dp cp 0xc0,
       PinCall.shiftOut dp cp x0, PinCall.shiftOut dp cp x1, PinCall.shiftOut dp cp x2,
       PinCall.shiftOut dp cp x3, PinCall.shiftOut dp cp x4, PinCall.shiftOut dp cp x5,
       PinCall.shiftOut dp cp x6, PinCall.shiftOut dp cp x7, PinCall.shiftOut dp cp x8,
       PinCall.shiftOut dp cp x9, PinCall.shiftOut dp cp x10, PinCall.shiftOut dp cp x11,
       PinCall.shiftOut dp cp x12, PinCall.shiftOut dp cp x13, PinCall.shiftOut dp cp x14,
       PinCall.shiftOut dp cp x15, PinCall.digitalWrite stb PinLevel.HIGH]).mem
      = [x0, x1, x2, x3, x4, x5, x6, x7, x8, x9, x10, x11, x12, x13, x14, x15] := by
  obtain ⟨a0, a1, a2, a3, a4, a5, a6, a7, a8, a9, a10, a11, a12, a13, a14, a15, hm⟩ :=
    length_eq_sixteen c.mem hc
  simp only [run_cons, run_nil, step, command, store, if_true, hm, List.set_cons_zero,
    List.set_cons_succ, Nat.reduceAdd, Nat.reduceSub, Nat.reduceLeDiff, Nat.reduceEqDiff,
    and_self, and_true, true_and, if_false, Bool.false_eq_true, le_refl, Nat.reduceEqDiff,
    Nat.reduceLeDiff]

end Chip

namespace TM1638

/-- The pin calls of `displayTest false` when the larger of the two counts is 8: the
auto-increment command, then one transaction with the address 0xC0 and, for each `i` from 0
to 7 in this order, shadow register `i` and LED bit `i`. -/
theorem displayTest_false_wire (s : TM1638) (a b c d e f g k : Nat)
    (hmax : max s._numDigits s._numLEDs = 8) (hr : s._registers = [a, b, c, d, e, f, g, k]) :
    (displayTest s false).wire = s.wire ++
      [PinCall.digitalWrite s._stbPin PinLevel.LOW,
       PinCall.shiftOut s._dataPin s._clkPin 0x40,
       PinCall.digitalWrite s._stbPin PinLevel.HIGH,
       PinCall.digitalWrite s._stbPin PinLevel.LOW,
       PinCall.shiftOut s._dataPin s._clkPin 0xc0,
       PinCall.shiftOut s._dataPin s._clkPin (a % 256),
       PinCall.shiftOut s._dataPin s._clkPin (s._allLEDs.testBit 0).toNat,
       PinCall.shiftOut s._dataPin s._clkPin (b % 256),
       PinCall.shiftOut s._dataPin s._clkPin (s._allLEDs.testBit 1).toNat,
       PinCall.shiftOut s._dataPin s._clkPin (c % 256),
       PinCall.shiftOut s._dataPin s._clkPin (s._allLEDs.testBit 2).toNat,
       PinCall.shiftOut s._dataPin s._clkPin (d % 256),
       PinCall.shiftOut s._dataPin s._clkPin (s._allLEDs.testBit 3).toNat,
       PinCall.shiftOut s._dataPin s._clkPin (e % 256),
       PinCall.shiftOut s._dataPin s._clkPin (s._allLEDs.testBit 4).toNat,
       PinCall.shiftOut s._dataPin s._clkPin (f % 256),
       PinCall.shiftOut s._dataPin s._clkPin (s._allLEDs.testBit 5).toNat,
       PinCall.shiftOut s._dataPin s._clkPin (g % 256),
       PinCall.shiftOut s._dataPin s._clkPin (s._allLEDs.testBit 6).toNat,
       PinCall.shiftOut s._dataPin s._clkPin (k % 256),
       PinCall.shiftOut s._dataPin s._clkPin (s._allLEDs.testBit 7).toNat,
       PinCall.digitalWrite s._stbPin PinLevel.HIGH] := by
  unfold displayTest
  simp only [Bool.false_eq_true, if_false, writeCommand, start, stop, writeByte, digitalWrite,
    hmax, range_eight, List.foldl_cons, List.foldl_nil, hr, List.getD_cons_zero,
    List.getD_cons_succ, shr_land_one, toNat_mod_byte, List.append_assoc, List.cons_append,
    List.nil_append, ADDR_AUTO38, STARTADDR38, Nat.reduceMod]

/-- What `displayTest false` restores on a set-up driver with 8 digits and 8 LEDs: the chip's
segment slot of PHYSICAL digit `i`, at 0xC0 + 2 * i, receives shadow register `i`, and the LED
slot next to it receives LED bit `i`; the digit map is not consulted. -/
theorem displayTest_false_chip (s : TM1638) (hs : Ready s) (hd : s._numDigits = 8)
    (hl : s._numLEDs = 8) (i : Nat) (hi : i < 8) :
    (displayTest s false).chip.byteAt (0xc0 + 2 * i) = s._registers.getD i 0 % 256 ∧
    (displayTest s false).chip.byteAt (0xc0 + 2 * i + 1) = (s._allLEDs.testBit i).toNat := by
  obtain ⟨a, b, c, d, e, f, g, k, hr⟩ := length_eq_eight s._registers hs.2.1
  have hmax : max s._numDigits s._numLEDs = 8 := by rw [hd, hl]; rfl
  have hstb : (displayTest s false)._stbPin = s._stbPin := by
    have h := unwired_displayTest s false
    have h' : (unwired (displayTest s false))._stbPin = (unwired s)._stbPin := by rw [h]
    exact h'
  have hlen : (chip s).mem.length = 16 := by
    unfold chip; rw [Chip.run_mem_length]; rfl
  have hmem : (displayTest s false).chip.mem =
      [a % 256, (s._allLEDs.testBit 0).toNat, b % 256, (s._allLEDs.testBit 1).toNat,
       c % 256, (s._allLEDs.testBit 2).toNat, d % 256, (s._allLEDs.testBit 3).toNat,
       e % 256, (s._allLEDs.testBit 4).toNat, f % 256, (s._allLEDs.testBit 5).toNat,
       g % 256, (s._allLEDs.testBit 6).toNat, k % 256, (s._allLEDs.testBit 7).toNat] := by
    unfold chip
    rw [hstb, displayTest_false_wire s a b c d e f g k hmax hr, Chip.run_append]
    exact Chip.run_bulk_write _ _ _ _ hlen _ _ _ _ _ _ _ _ _ _ _ _ _ _ _ _
  unfold Chip.byteAt
  rw [hmem, hr]
  interval_cases i <;> simp

end TM1638

/-! ## The claims, continued -/

set_option maxRecDepth 100000 in
/-- C11 at a failing input: with the digit map `[1, 0, 2, 3, 4, 5, 6, 7]` and 8 digits and
LEDs, after `displayChar(0, 8)` and `displayLED1(0, ON)` the chip holds 0x7F and 1 in the two
slots of logical digit 0, at 0xC2 and 0xC3. After `displayTest false` these slots hold 0x00
and 0, the values of logical digit 1, although shadow register 0 is still 0x7F and LED bit 0
still set: the restore wrote register `i` to the slots of physical digit `i`. -/
theorem C11_displayTest_restore_ignores_digit_map :
    TM1638.swapped._tmDigitMap = [1, 0, 2, 3, 4, 5, 6, 7] ∧
    TM1638.swapped._numDigits = 8 ∧ TM1638.swapped._numLEDs = 8 ∧
    TM1638.swapped._registers = [0x7f, 0, 0, 0, 0, 0, 0, 0] ∧
    TM1638.swapped._allLEDs = 0x01 ∧
    TM1638.swapped.chip.mem = [0, 0, 0x7f, 1, 0, 0, 0, 0, 0, 0, 0, 0, 0, 0, 0, 0] ∧
    (TM1638.displayTest TM1638.swapped false)._registers = [0x7f, 0, 0, 0, 0, 0, 0, 0] ∧
    (TM1638.displayTest TM1638.swapped false)._allLEDs = 0x01 ∧
    (TM1638.displayTest TM1638.swapped false).chip.mem
      = [0x7f, 1, 0, 0, 0, 0, 0, 0, 0, 0, 0, 0, 0, 0, 0, 0] ∧
    (TM1638.displayTest TM1638.swapped false).chip.byteAt
      (0xc0 + 2 * TM1638.swapped._tmDigitMap.getD 0 0) = 0x00 ∧
    (TM1638.displayTest TM1638.swapped false).chip.byteAt
      (0xc0 + 2 * TM1638.swapped._tmDigitMap.getD 0 0 + 1) = 0 := by
  decide

/-- C12 at a failing input: on a driver set up with 8 LEDs and 4 digits, after
`displayLED1(6, ON)` the LED mask is 0x40, and `displayClear` leaves it at 0x40: LED 6, below
the LED count 8, is still on, because the loop runs over the 4 digits only. -/
theorem C12_displayClear_leaves_led_on :
    TM1638.fourDigits._numDigits = 4 ∧ TM1638.fourDigits._numLEDs = 8 ∧
    (TM1638.displayLED1 TM1638.fourDigits 6 true)._allLEDs = 0x40 ∧
    (TM1638.displayClear (TM1638.displayLED1 TM1638.fourDigits 6 true))._allLEDs = 0x40 ∧
    (TM1638.displayClear (TM1638.displayLED1 TM1638.fourDigits 6 true))._allLEDs.testBit 6
      = true ∧
    (TM1638.displayClear (TM1638.displayLED1 TM1638.fourDigits 6 true))._registers
      = [0, 0, 0, 0, 0, 0, 0, 0] := by
  decide

/-- C13: for a set-up driver and every `index < numLEDs` whose digit-map entry is a chip digit
(below 8), `displayLED1 index status` sets bit `index` of the LED mask to `status`, leaves the
other seven bits as they were, and emits the fixed-address command 0x44 followed by one
transaction whose address byte is `0xC0 + 2 * digitMap[index] + 1`, an odd address, and whose
data byte is 1 when `status` is set and 0 otherwise. -/
theorem C13_displayLED1_bit_and_bytes (s : TM1638) (hs : TM1638.Ready s) (i : Nat)
    (status : Bool) (hi : i < s._numLEDs) (_hl : i < s._tmDigitMap.length)
    (hm : s._tmDigitMap.getD i 0 < 8) :
    (TM1638.displayLED1 s i status)._allLEDs.testBit i = status ∧
    (∀ j, j < 8 → j ≠ i →
      (TM1638.displayLED1 s i status)._allLEDs.testBit j = s._allLEDs.testBit j) ∧
    (TM1638.displayLED1 s i status).wire = s.wire ++
      [PinCall.digitalWrite s._stbPin PinLevel.LOW,
       PinCall.shiftOut s._dataPin s._clkPin 0x44,
       PinCall.digitalWrite s._stbPin PinLevel.HIGH,
       PinCall.digitalWrite s._stbPin PinLevel.LOW,
       PinCall.shiftOut s._dataPin s._clkPin (0xc0 + 2 * s._tmDigitMap.getD i 0 + 1),
       PinCall.shiftOut s._dataPin s._clkPin (if status then 1 else 0),
       PinCall.digitalWrite s._stbPin PinLevel.HIGH] ∧
    (0xc0 + 2 * s._tmDigitMap.getD i 0 + 1) % 2 = 1 := by
  have hn : s._numLEDs ≤ 8 := hs.2.2.2
  have hg : s._numLEDs > 0 ∧ i < s._numLEDs := ⟨by omega, hi⟩
  have hi8 : i < 8 := by omega
  have hL : (TM1638.displayLED1 s i status)._allLEDs = bitWrite s._allLEDs i status := by
    rw [TM1638.displayLED1_allLEDs, if_pos hg]
  have hbit : (bitWrite s._allLEDs i status).testBit i = status := by
    rw [bitWrite_testBit _ _ _ _ hi8]; simp [hi8]
  refine ⟨?_, ?_, ?_, by omega⟩
  · rw [hL, hbit]
  · intro j hj hne
    rw [hL, bitWrite_testBit _ _ _ _ hi8]; simp [hj, hne]
  · unfold TM1638.displayLED1
    rw [if_pos hg]
    simp only [TM1638.writeDigit_wire, TM1638.writeCommand_wire]
    simp only [TM1638.writeCommand_allLEDs, TM1638.writeCommand_stbPin,
      TM1638.writeCommand_dataPin, TM1638.writeCommand_clkPin, TM1638.writeCommand_tmDigitMap,
      List.append_assoc, List.cons_append, List.nil_append, shr_land_one, hbit, if_true,
      Nat.shiftLeft_eq]
    have e1 : (STARTADDR38 + s._tmDigitMap.getD i 0 * 2 ^ 1 + 1) % 256
        = 0xc0 + 2 * s._tmDigitMap.getD i 0 + 1 := by
      simp only [STARTADDR38]; omega
    have e2 : (status.toNat) % 256 = if status then 1 else 0 := by cases status <;> rfl
    rw [e1, e2]
    simp [ADDR_FIXED38]

theorem C13_displayLED1_bit_and_bytes_witness :
    (TM1638.Ready TM1638.demo ∧ 3 < TM1638.demo._numLEDs ∧
      3 < TM1638.demo._tmDigitMap.length ∧ TM1638.demo._tmDigitMap.getD 3 0 < 8) ∧
    (TM1638.displayLED1 TM1638.demo 3 true)._allLEDs.testBit 3 = true ∧
    (TM1638.displayLED1 TM1638.demo 3 true)._allLEDs = 0x08 ∧
    (TM1638.displayLED1 (TM1638.displayLED1 TM1638.demo 3 true) 5 true)._allLEDs = 0x28 ∧
    (TM1638.displayLED1 (TM1638.displayLED1 (TM1638.displayLED1 TM1638.demo 3 true) 5 true)
      3 false)._allLEDs = 0x20 :=
  ⟨by decide,
    (C13_displayLED1_bit_and_bytes TM1638.demo (by decide) 3 true (by decide) (by decide)
      (by decide)).1,
    by decide, by decide, by decide⟩

/-- C14: with 8 configured LEDs and any prior LED mask, for every byte `v`, `displayLED8 v` in
LSB-first order leaves the LED mask equal to `v`, and in MSB-first order leaves it equal to
the 8-bit reversal of `v` (a byte whose bit `j` is bit `7 - j` of `v`); with fewer than 8
configured LEDs the call returns the state it was given, pin-call log included. -/
theorem C14_displayLED8_mask (s : TM1638) (v : Nat) (hv : v < 256) :
    (s._numLEDs = 8 →
      (TM1638.displayLED8 s v true)._allLEDs = v ∧
      (TM1638.displayLED8 s v false)._allLEDs < 256 ∧
      ∀ j, j < 8 → (TM1638.displayLED8 s v false)._allLEDs.testBit j = v.testBit (7 - j)) ∧
    (s._numLEDs < 8 → ∀ lsbFirst, TM1638.displayLED8 s v lsbFirst = s) := by
  refine ⟨?_, ?_⟩
  · intro h8
    have hn : s._numLEDs > 7 := by omega
    refine ⟨?_, ?_, ?_⟩
    · rw [TM1638.displayLED8_allLEDs s v true hn]
      apply Nat.eq_of_testBit_eq
      intro j
      simp only [bitWrite_testBit _ _ _ _ (by norm_num : (0:Nat) < 8),
        bitWrite_testBit _ _ _ _ (by norm_num : (1:Nat) < 8),
        bitWrite_testBit _ _ _ _ (by norm_num : (2:Nat) < 8),
        bitWrite_testBit _ _ _ _ (by norm_num : (3:Nat) < 8),
        bitWrite_testBit _ _ _ _ (by norm_num : (4:Nat) < 8),
        bitWrite_testBit _ _ _ _ (by norm_num : (5:Nat) < 8),
        bitWrite_testBit _ _ _ _ (by norm_num : (6:Nat) < 8),
        bitWrite_testBit _ _ _ _ (by norm_num : (7:Nat) < 8), if_true]
      by_cases hj : j < 8
      · interval_cases j <;> simp
      · have hlt : v < 2 ^ j :=
          lt_of_lt_of_le hv (by
            calc 256 = 2 ^ 8 := by norm_num
              _ ≤ 2 ^ j := Nat.pow_le_pow_right (by norm_num) (by omega))
        rw [Nat.testBit_lt_two_pow hlt]
        simp [hj]
    · rw [TM1638.displayLED8_allLEDs s v false hn]
      exact bitWrite_lt _ _ _
    · intro j hj
      rw [TM1638.displayLED8_allLEDs s v false hn]
      simp only [bitWrite_testBit _ _ _ _ (by norm_num : (0:Nat) < 8),
        bitWrite_testBit _ _ _ _ (by norm_num : (1:Nat) < 8),
        bitWrite_testBit _ _ _ _ (by norm_num : (2:Nat) < 8),
        bitWrite_testBit _ _ _ _ (by norm_num : (3:Nat) < 8),
        bitWrite_testBit _ _ _ _ (by norm_num : (4:Nat) < 8),
        bitWrite_testBit _ _ _ _ (by norm_num : (5:Nat) < 8),
        bitWrite_testBit _ _ _ _ (by norm_num : (6:Nat) < 8),
        bitWrite_testBit _ _ _ _ (by norm_num : (7:Nat) < 8), Bool.false_eq_true, if_false]
      interval_cases j <;> simp
  · intro hlt lsbFirst
    unfold TM1638.displayLED8
    rw [if_neg (by omega)]

theorem C14_displayLED8_mask_witness :
    (0b10110010 < 256 ∧ TM1638.demo._numLEDs = 8 ∧
      (TM1638.beginDefault (TM1638.ctor 4 2 3 []) 8 4 8 2)._numLEDs < 8) ∧
    (TM1638.displayLED8 TM1638.demo 0b10110010 true)._allLEDs = 0b10110010 ∧
    (TM1638.displayLED8 TM1638.demo 0b10110010 false)._allLEDs = 0b01001101 ∧
    TM1638.displayLED8 (TM1638.beginDefault (TM1638.ctor 4 2 3 []) 8 4 8 2) 0b10110010 true
      = TM1638.beginDefault (TM1638.ctor 4 2 3 []) 8 4 8 2 :=
  ⟨by decide,
    ((C14_displayLED8_mask TM1638.demo 0b10110010 (by decide)).1 (by decide)).1,
    by decide,
    (C14_displayLED8_mask (TM1638.beginDefault (TM1638.ctor 4 2 3 []) 8 4 8 2) 0b10110010
      (by decide)).2 (by decide) true⟩

/-- C15: for every level, `displayBrightness level` records the brightness `level & 7` and
sends exactly one command transaction, whose byte is `0x88 | (level & 7)` and so lies in
0x88..0x8F, without changing a shadow register or the LED mask. -/
theorem C15_displayBrightness_command (s : TM1638) (level : Nat) :
    (TM1638.displayBrightness s level)._brightness = level &&& 7 ∧
    (TM1638.displayBrightness s level).wire = s.wire ++
      [PinCall.digitalWrite s._stbPin PinLevel.LOW,
       PinCall.shiftOut s._dataPin s._clkPin (0x88 ||| (level &&& 7)),
       PinCall.digitalWrite s._stbPin PinLevel.HIGH] ∧
    0x88 ≤ (0x88 ||| (level &&& 7)) ∧ (0x88 ||| (level &&& 7)) ≤ 0x8f ∧
    (TM1638.displayBrightness s level)._registers = s._registers ∧
    (TM1638.displayBrightness s level)._allLEDs = s._allLEDs := by
  have h7 : level &&& 7 = level % 8 := Nat.and_pow_two_sub_one_eq_mod level 3
  have hlt : level % 8 < 8 := Nat.mod_lt _ (by norm_num)
  have hor := brightness_lor (level % 8) hlt
  refine ⟨rfl, ?_, ?_, ?_, rfl, rfl⟩
  · unfold TM1638.displayBrightness
    simp only [TM1638.writeCommand_wire]
    have e : (DISP_ON38 + (level &&& INTENSITY_MAX38)) % 256 % 256 = 0x88 ||| (level &&& 7) := by
      simp only [DISP_ON38, INTENSITY_MAX38]
      rw [h7, ← hor]; omega
    rw [e]
  · rw [h7, ← hor]; omega
  · rw [h7, ← hor]; omega

/-- C16, as stated, fails: on a driver set up with 8 LEDs and 4 digits, `displayLED1 6` looks
the digit map up at index 6, which is not below the digit count 4. -/
theorem C16_led_lookup_above_numDigits :
    TM1638.fourDigits = TM1638.begin (TM1638.ctor 4 2 3 []) tmDigitMapDefault 8 8 4 2 ∧
    TM1638.fourDigits._numDigits = 4 ∧ TM1638.fourDigits._numLEDs = 8 ∧
    (TM1638.displayLED1 TM1638.fourDigits 6 true).mapReads
      = TM1638.fourDigits.mapReads ++ [6] ∧
    ¬ 6 < TM1638.fourDigits._numDigits := by
  decide

/-- C16, amended: from every driver state, every lookup into the digit map made by
`displayChar`, `displayDP`, `displayInt8`, `displayInt12`, `displayInt16`, `displayBin8` and
`displayClear` uses an index below the digit count, and every lookup made by `displayLED1`
and `displayLED8` uses an index below the LED count. -/
theorem C16_lookups_below_counts (s : TM1638) (d v : Nat) (b : Bool) :
    TM1638.LookupsBelow s (TM1638.displayChar s d v b) s._numDigits ∧
    TM1638.LookupsBelow s (TM1638.displayDP s d b) s._numDigits ∧
    TM1638.LookupsBelow s (TM1638.displayInt8 s d v b) s._numDigits ∧
    TM1638.LookupsBelow s (TM1638.displayInt12 s d v b) s._numDigits ∧
    TM1638.LookupsBelow s (TM1638.displayInt16 s d v b) s._numDigits ∧
    TM1638.LookupsBelow s (TM1638.displayBin8 s v b) s._numDigits ∧
    TM1638.LookupsBelow s (TM1638.displayClear s) s._numDigits ∧
    TM1638.LookupsBelow s (TM1638.displayLED1 s d b) s._numLEDs ∧
    TM1638.LookupsBelow s (TM1638.displayLED8 s v b) s._numLEDs :=
  ⟨TM1638.lookups_displayChar s d v b, TM1638.lookups_displayDP s d b,
    TM1638.lookups_displayInt8 s d v b, TM1638.lookups_displayInt12 s d v b,
    TM1638.lookups_displayInt16 s d v b, TM1638.lookups_displayBin8 s v b,
    TM1638.lookups_displayClear s, TM1638.lookups_displayLED1 s d b,
    TM1638.lookups_displayLED8 s v b⟩

/-- C17: a call with an out-of-range position returns the driver state it was given, pin-call
log included: `displayChar` and `displayDP` with `digit >= numDigits`, `displayLED1` with
`index >= numLEDs`, `displayInt8` / `displayInt12` / `displayInt16` whose last digit
`digit + 1` / `+ 2` / `+ 3` is `>= numDigits`, and `displayBin8` with fewer than 8 digits. -/
theorem C17_out_of_range_is_noop (s : TM1638) (d v : Nat) (b : Bool) :
    (s._numDigits ≤ d → TM1638.displayChar s d v b = s ∧ TM1638.displayDP s d b = s) ∧
    (s._numLEDs ≤ d → TM1638.displayLED1 s d b = s) ∧
    (s._numDigits ≤ d + 1 → TM1638.displayInt8 s d v b = s) ∧
    (s._numDigits ≤ d + 2 → TM1638.displayInt12 s d v b = s) ∧
    (s._numDigits ≤ d + 3 → TM1638.displayInt16 s d v b = s) ∧
    (s._numDigits < 8 → TM1638.displayBin8 s v b = s) := by
  refine ⟨?_, ?_, ?_, ?_, ?_, ?_⟩
  · intro h
    constructor
    · unfold TM1638.displayChar; rw [if_neg (by omega)]
    · unfold TM1638.displayDP; rw [if_neg (by omega)]
  · intro h
    unfold TM1638.displayLED1; rw [if_neg (by omega)]
  · intro h
    unfold TM1638.displayInt8; rw [if_neg (by omega)]
  · intro h
    unfold TM1638.displayInt12; rw [if_neg (by omega)]
  · intro h
    unfold TM1638.displayInt16; rw [if_neg (by omega)]
  · intro h
    unfold TM1638.displayBin8; rw [if_neg (by omega)]

theorem C17_out_of_range_is_noop_witness :
    (TM1638.fourDigits._numDigits ≤ 4 ∧ TM1638.fourDigits._numLEDs ≤ 8 ∧
      TM1638.fourDigits._numDigits ≤ 3 + 1 ∧ TM1638.fourDigits._numDigits ≤ 2 + 2 ∧
      TM1638.fourDigits._numDigits ≤ 1 + 3 ∧ TM1638.fourDigits._numDigits < 8) ∧
    (TM1638.displayChar TM1638.fourDigits 4 5 false = TM1638.fourDigits ∧
      TM1638.displayDP TM1638.fourDigits 4 false = TM1638.fourDigits) ∧
    TM1638.displayLED1 TM1638.fourDigits 8 true = TM1638.fourDigits ∧
    TM1638.displayInt8 TM1638.fourDigits 3 42 true = TM1638.fourDigits ∧
    TM1638.displayInt12 TM1638.fourDigits 2 42 true = TM1638.fourDigits ∧
    TM1638.displayInt16 TM1638.fourDigits 1 42 true = TM1638.fourDigits ∧
    TM1638.displayBin8 TM1638.fourDigits 42 true = TM1638.fourDigits :=
  ⟨by decide,
    (C17_out_of_range_is_noop TM1638.fourDigits 4 5 false).1 (by decide),
    (C17_out_of_range_is_noop TM1638.fourDigits 8 5 true).2.1 (by decide),
    (C17_out_of_range_is_noop TM1638.fourDigits 3 42 true).2.2.1 (by decide),
    (C17_out_of_range_is_noop TM1638.fourDigits 2 42 true).2.2.2.1 (by decide),
    (C17_out_of_range_is_noop TM1638.fourDigits 1 42 true).2.2.2.2.1 (by decide),
    (C17_out_of_range_is_noop TM1638.fourDigits 1 42 true).2.2.2.2.2 (by decide)⟩

/-- C18: for every prior state and every argument tuple, calling `begin` a second time with
the same arguments leaves the shadow registers, the LED mask and the whole recorded
configuration as the first call left them. -/
theorem C18_begin_idempotent (s : TM1638) (m : List Nat) (nb nl nd br : Nat) :
    (TM1638.begin (TM1638.begin s m nb nl nd br) m nb nl nd br)._registers
      = (TM1638.begin s m nb nl nd br)._registers ∧
    (TM1638.begin (TM1638.begin s m nb nl nd br) m nb nl nd br)._allLEDs
      = (TM1638.begin s m nb nl nd br)._allLEDs ∧
    (TM1638.begin (TM1638.begin s m nb nl nd br) m nb nl nd br)._tmDigitMap
      = (TM1638.begin s m nb nl nd br)._tmDigitMap ∧
    (TM1638.begin (TM1638.begin s m nb nl nd br) m nb nl nd br)._numLEDs
      = (TM1638.begin s m nb nl nd br)._numLEDs ∧
    (TM1638.begin (TM1638.begin s m nb nl nd br) m nb nl nd br)._numDigits
      = (TM1638.begin s m nb nl nd br)._numDigits ∧
    (TM1638.begin (TM1638.begin s m nb nl nd br) m nb nl nd br)._numButtons
      = (TM1638.begin s m nb nl nd br)._numButtons ∧
    (TM1638.begin (TM1638.begin s m nb nl nd br) m nb nl nd br)._brightness
      = (TM1638.begin s m nb nl nd br)._brightness ∧
    (TM1638.begin (TM1638.begin s m nb nl nd br) m nb nl nd br).cmdDispCtrl
      = (TM1638.begin s m nb nl nd br).cmdDispCtrl := by
  have hsh : TM1638.shadow (TM1638.begin (TM1638.begin s m nb nl nd br) m nb nl nd br)
      = TM1638.shadow (TM1638.begin s m nb nl nd br) := by
    rw [TM1638.shadow_begin (TM1638.begin s m nb nl nd br), TM1638.shadow_begin s]
    exact foldl_idem _ (TM1638.clearStep_comm _ _) (TM1638.clearStep_idem _ _) _ _
  obtain ⟨a1, a2, a3, a4, a5, a6⟩ := TM1638.begin_config s m nb nl nd br
  obtain ⟨b1, b2, b3, b4, b5, b6⟩ :=
    TM1638.begin_config (TM1638.begin s m nb nl nd br) m nb nl nd br
  refine ⟨congrArg Prod.fst hsh, congrArg Prod.snd hsh, ?_, ?_, ?_, ?_, ?_, ?_⟩
  · rw [b1, a1]
  · rw [b2, a2]
  · rw [b3, a3]
  · rw [b4, a4]
  · rw [b5, a5]
  · rw [b6, a6]

/-- C19: after `begin` with `numLEDs = 0` or `numLEDs > 8`, `displayLED1` returns the state it
was given for every index and flag (nothing changed, nothing sent); after `begin` with
`numButtons = 0` or `numButtons > 8`, `readButtons` returns 0 and the state it was given (no
byte read from the bus). -/
theorem C19_disabled_leds_and_buttons (s : TM1638) (m : List Nat) (nb nl nd br i : Nat)
    (status : Bool) :
    ((nl = 0 ∨ 8 < nl) →
      TM1638.displayLED1 (TM1638.begin s m nb nl nd br) i status
        = TM1638.begin s m nb nl nd br) ∧
    ((nb = 0 ∨ 8 < nb) →
      TM1638.readButtons (TM1638.begin s m nb nl nd br) = (0, TM1638.begin s m nb nl nd br)) := by
  obtain ⟨_, hL, _, hB, _, _⟩ := TM1638.begin_config s m nb nl nd br
  refine ⟨?_, ?_⟩
  · intro h
    have h0 : (TM1638.begin s m nb nl nd br)._numLEDs = 0 := by
      rw [hL, if_neg]
      simp only [MAX_LEDS38]; omega
    unfold TM1638.displayLED1
    rw [if_neg (by omega)]
  · intro h
    have h0 : (TM1638.begin s m nb nl nd br)._numButtons = 0 := by
      rw [hB, if_neg]
      simp only [MAX_BUTTONS38]; omega
    unfold TM1638.readButtons
    rw [if_neg (by omega)]

theorem C19_disabled_leds_and_buttons_witness :
    ((0 = 0 ∨ 8 < 0) ∧ (20 = 0 ∨ 8 < 20)) ∧
    TM1638.displayLED1 (TM1638.begin (TM1638.ctor 4 2 3 [0x11, 0x01]) tmDigitMapDefault 20 0 8 2)
        3 true
      = TM1638.begin (TM1638.ctor 4 2 3 [0x11, 0x01]) tmDigitMapDefault 20 0 8 2 ∧
    TM1638.readButtons (TM1638.begin (TM1638.ctor 4 2 3 [0x11, 0x01]) tmDigitMapDefault 20 0 8 2)
      = (0, TM1638.begin (TM1638.ctor 4 2 3 [0x11, 0x01]) tmDigitMapDefault 20 0 8 2) :=
  ⟨by decide,
    (C19_disabled_leds_and_buttons (TM1638.ctor 4 2 3 [0x11, 0x01]) tmDigitMapDefault
      20 0 8 2 3 true).1 (by decide),
    (C19_disabled_leds_and_buttons (TM1638.ctor 4 2 3 [0x11, 0x01]) tmDigitMapDefault
      20 0 8 2 3 true).2 (by decide)⟩

/-- C20: for a set-up driver and every `d < numDigits` whose digit-map entry is a chip digit
(below 8), `displayChar d value raw` emits exactly the fixed-address command transaction 0x44
followed by one transaction whose address byte is `0xC0 + 2 * digitMap[d]` and whose single
data byte is the value shadow register `d` has after the call. -/
theorem C20_displayChar_transactions (s : TM1638) (hs : TM1638.Ready s) (d v : Nat)
    (raw : Bool) (hd : d < s._numDigits) (_hl : d < s._tmDigitMap.length)
    (hm : s._tmDigitMap.getD d 0 < 8) :
    (TM1638.displayChar s d v raw).wire = s.wire ++
      [PinCall.digitalWrite s._stbPin PinLevel.LOW,
       PinCall.shiftOut s._dataPin s._clkPin 0x44,
       PinCall.digitalWrite s._stbPin PinLevel.HIGH,
       PinCall.digitalWrite s._stbPin PinLevel.LOW,
       PinCall.shiftOut s._dataPin s._clkPin (0xc0 + 2 * s._tmDigitMap.getD d 0),
       PinCall.shiftOut s._dataPin s._clkPin
         ((TM1638.displayChar s d v raw)._registers.getD d 0),
       PinCall.digitalWrite s._stbPin PinLevel.HIGH] := by
  rw [TM1638.displayChar_wire s d v raw hd (hs.digit_lt hd)]
  have e : (STARTADDR38 + (s._tmDigitMap.getD d 0 <<< 1)) % 256
      = 0xc0 + 2 * s._tmDigitMap.getD d 0 := by
    rw [Nat.shiftLeft_eq]; simp only [STARTADDR38]; omega
  rw [e]

theorem C20_displayChar_transactions_witness :
    (TM1638.Ready TM1638.demo ∧ 3 < TM1638.demo._numDigits ∧
      3 < TM1638.demo._tmDigitMap.length ∧ TM1638.demo._tmDigitMap.getD 3 0 < 8) ∧
    (TM1638.displayChar TM1638.demo 3 5 false).wire = TM1638.demo.wire ++
      [PinCall.digitalWrite TM1638.demo._stbPin PinLevel.LOW,
       PinCall.shiftOut TM1638.demo._dataPin TM1638.demo._clkPin 0x44,
       PinCall.digitalWrite TM1638.demo._stbPin PinLevel.HIGH,
       PinCall.digitalWrite TM1638.demo._stbPin PinLevel.LOW,
       PinCall.shiftOut TM1638.demo._dataPin TM1638.demo._clkPin
         (0xc0 + 2 * TM1638.demo._tmDigitMap.getD 3 0),
       PinCall.shiftOut TM1638.demo._dataPin TM1638.demo._clkPin
         ((TM1638.displayChar TM1638.demo 3 5 false)._registers.getD 3 0),
       PinCall.digitalWrite TM1638.demo._stbPin PinLevel.HIGH] ∧
    (TM1638.displayChar TM1638.demo 3 5 false)._registers.getD 3 0 = 0x6d ∧
    0xc0 + 2 * TM1638.demo._tmDigitMap.getD 3 0 = 0xc6 :=
  ⟨by decide,
    C20_displayChar_transactions TM1638.demo (by decide) 3 5 false (by decide) (by decide)
      (by decide),
    by decide, by decide⟩

/-! # Configuration bounds, the key layout, consistency and locality -/

/-! ## The key-scan layout -/

/-- A byte with no bit set other than bit 0 and bit 4 has every other bit clear. -/
theorem scan_bits_clear (b j : Nat) (h : b &&& 0x11 = b) (h0 : j ≠ 0) (h4 : j ≠ 4) :
    b.testBit j = false := by
  rw [← h, Nat.testBit_land]
  have : (0x11 : Nat).testBit j = false := by
    by_cases hj : j < 5
    · interval_cases j <;> first | contradiction | decide
    · apply Nat.testBit_lt_two_pow
      calc (0x11 : Nat) < 2 ^ 5 := by norm_num
        _ ≤ 2 ^ j := Nat.pow_le_pow_right (by norm_num) (by omega)
  rw [this, Bool.and_false]

theorem scan_byte_le (b : Nat) (h : b &&& 0x11 = b) : b ≤ 0x11 := by
  have hle : b &&& 0x11 ≤ 0x11 := Nat.and_le_right
  rw [h] at hle
  exact hle

/-- A byte with no bit set other than bit 0 and bit 4 is given by these two bits. -/
theorem scan_byte_of_bits (b : Nat) (h : b &&& 0x11 = b) :
    b = (b.testBit 0).toNat + 16 * (b.testBit 4).toNat := by
  have hle := scan_byte_le b h
  interval_cases b <;> first | rfl | (exfalso; revert h; decide)

namespace TM1638

/-- The byte `readButtons` returns when buttons are configured and the chip answers with the
bytes `b0 .. b3`. -/
theorem readButtons_value (s : TM1638) (hb : 0 < s._numButtons) (b0 b1 b2 b3 : Nat)
    (rest : List Nat) (hk : s.keys = b0 :: b1 :: b2 :: b3 :: rest)
    (h0 : b0 < 256) (h1 : b1 < 256) (h2 : b2 < 256) (h3 : b3 < 256) :
    (readButtons s).1 = (b0 ||| (b1 <<< 1) ||| (b2 <<< 2) ||| (b3 <<< 3)) % 256 := by
  unfold readButtons
  rw [if_pos hb, range_four]
  simp only [List.foldl_cons, List.foldl_nil, readByte, start, stop, writeByte, pinMode,
    digitalWrite, hk, List.headD_cons, List.tail_cons, Nat.mod_eq_of_lt h0,
    Nat.mod_eq_of_lt h1, Nat.mod_eq_of_lt h2, Nat.mod_eq_of_lt h3, Nat.shiftLeft_zero,
    Nat.zero_or, lor_mod_byte_left]

end TM1638

/-! ## What one write does to the chip -/

namespace TM1638

theorem putGlyph_eq_putReg (s : TM1638) (i j k : Nat) :
    putGlyph s i j k = putReg s i
      ((s._registers.getD j 0 &&& DP_CTRL38) ||| (tmCharTable.getD k 0 &&& 0x7f)) := rfl

theorem displayChar_eq (s : TM1638) (d v : Nat) (raw : Bool) (hd : d < s._numDigits) :
    displayChar s d v raw = writeDigit (writeCommand (putReg s d
      (if raw then (v &&& 0x7f) ||| (s._registers.getD d 0 &&& DP_CTRL38)
       else tmCharTable.getD (if v ≥ s.charTableSize then 0x20 else v) 0
         ||| (s._registers.getD d 0 &&& DP_CTRL38))) ADDR_FIXED38) d false := by
  unfold displayChar putReg
  rw [if_pos hd]

theorem displayDP_eq (s : TM1638) (d : Nat) (b : Bool) (hd : d < s._numDigits) :
    displayDP s d b = writeDigit (writeCommand (putReg s d
      (bitWrite (s._registers.getD d 0) 7 b)) ADDR_FIXED38) d false := by
  unfold displayDP putReg
  rw [if_pos hd]

theorem displayLED1_eq (s : TM1638) (d : Nat) (b : Bool)
    (hd : s._numLEDs > 0 ∧ d < s._numLEDs) :
    displayLED1 s d b = writeDigit (writeCommand (putLeds s
      (bitWrite s._allLEDs d b)) ADDR_FIXED38) d true := by
  unfold displayLED1 putLeds
  rw [if_pos hd]

@[simp] theorem chip_putReg (s : TM1638) (d x : Nat) : (putReg s d x).chip = s.chip := rfl

@[simp] theorem chip_putLeds (s : TM1638) (m : Nat) : (putLeds s m).chip = s.chip := rfl

theorem chip_mem_length (s : TM1638) : s.chip.mem.length = 16 := by
  unfold chip; rw [Chip.run_mem_length]; rfl

/-- A command transaction leaves the chip's display memory alone. -/
theorem chip_writeCommand_mem (s : TM1638) (c : Nat) :
    (writeCommand s c).chip.mem = s.chip.mem := by
  unfold chip
  rw [writeCommand_wire, writeCommand_stbPin, Chip.run_append]
  simp only [Chip.run_cons, Chip.run_nil, Chip.step, Chip.command, if_true]

/-- A `writeDigit` transaction stores its data byte at the address it names, when that
address lies in the display memory. -/
theorem chip_writeDigit_mem (s : TM1638) (d : Nat) (led : Bool) :
    (writeDigit s d led).chip.mem =
      if 0xc0 ≤ (STARTADDR38 + (s._tmDigitMap.getD d 0 <<< 1) + (if led then 1 else 0)) % 256 ∧
          (STARTADDR38 + (s._tmDigitMap.getD d 0 <<< 1) + (if led then 1 else 0)) % 256 ≤ 0xcf
      then s.chip.mem.set
        ((STARTADDR38 + (s._tmDigitMap.getD d 0 <<< 1) + (if led then 1 else 0)) % 256 - 0xc0)
        ((if led then (s._allLEDs >>> d) &&& 0x01 else s._registers.getD d 0) % 256)
      else s.chip.mem := by
  unfold chip
  rw [writeDigit_wire, writeDigit_stbPin, Chip.run_append]
  generalize (STARTADDR38 + (s._tmDigitMap.getD d 0 <<< 1) + (if led then 1 else 0)) % 256 = A
  by_cases h : 0xc0 ≤ A ∧ A ≤ 0xcf
  · simp only [Chip.run_cons, Chip.run_nil, Chip.step, Chip.command, Chip.store, if_true,
      Bool.false_eq_true, if_false, if_pos h]
  · simp only [Chip.run_cons, Chip.run_nil, Chip.step, Chip.command, Chip.store, if_true,
      Bool.false_eq_true, if_false, if_neg h]

end TM1638

/-! ## Soundness and syncedness under the primitive steps -/

namespace TM1638

theorem synced_iff (s : TM1638) (i : Nat) :
    Synced s i ↔ s.chip.mem.getD (2 * s._tmDigitMap.getD i 0) 0 = s._registers.getD i 0 := by
  unfold Synced Chip.byteAt
  rw [Nat.add_sub_cancel_left]

theorem sound_putReg (s : TM1638) (d x : Nat) (hs : Sound s) (hx : x < 256) :
    Sound (putReg s d x) := by
  obtain ⟨⟨hl, hb⟩, hm, hd, hn⟩ := hs
  refine ⟨⟨?_, ?_⟩, hm, hd, hn⟩
  · simp [putReg, hl]
  · intro i hi
    show (s._registers.set d x).getD i 0 < 256
    by_cases h : d = i
    · subst h
      rw [getD_set_self _ _ _ (by omega)]; exact hx
    · rw [getD_set_other _ _ _ _ h]; exact hb i hi

theorem sound_putLeds (s : TM1638) (m : Nat) (hs : Sound s) : Sound (putLeds s m) := hs

theorem sound_writeCommand (s : TM1638) (c : Nat) (hs : Sound s) :
    Sound (writeCommand s c) := hs

theorem sound_writeDigit (s : TM1638) (d : Nat) (b : Bool) (hs : Sound s) :
    Sound (writeDigit s d b) := by
  unfold Sound
  rw [writeDigit_registers, writeDigit_tmDigitMap, writeDigit_numDigits, writeDigit_numLEDs]
  exact hs

theorem synced_putReg (s : TM1638) (d x i : Nat) (hne : i ≠ d) (h : Synced s i) :
    Synced (putReg s d x) i := by
  rw [synced_iff] at h ⊢
  rw [chip_putReg]
  show s.chip.mem.getD (2 * s._tmDigitMap.getD i 0) 0 = (s._registers.set d x).getD i 0
  rw [getD_set_other _ _ _ _ (fun e => hne e.symm)]
  exact h

theorem synced_putLeds (s : TM1638) (m i : Nat) (h : Synced s i) :
    Synced (putLeds s m) i := h

theorem synced_writeCommand (s : TM1638) (c i : Nat) (h : Synced s i) :
    Synced (writeCommand s c) i := by
  rw [synced_iff] at h ⊢
  rw [chip_writeCommand_mem, writeCommand_registers, writeCommand_tmDigitMap]
  exact h

/-- Writing digit `d` to the chip syncs `d` and keeps every other digit synced. -/
theorem synced_writeDigit (s : TM1638) (d i : Nat) (hs : Sound s) (hd : d < 8) (hi : i < 8)
    (h : i ≠ d → Synced s i) : Synced (writeDigit s d false) i := by
  obtain ⟨⟨_, hb⟩, ⟨_, hlt, hinj⟩, _, _⟩ := hs
  have hmd := hlt d hd
  have hmi := hlt i hi
  have hlen := chip_mem_length s
  have hA : (STARTADDR38 + (s._tmDigitMap.getD d 0 <<< 1) + 0) % 256
      = 0xc0 + 2 * s._tmDigitMap.getD d 0 := by
    rw [Nat.shiftLeft_eq]; simp only [STARTADDR38]; omega
  rw [synced_iff]
  rw [chip_writeDigit_mem, writeDigit_registers, writeDigit_tmDigitMap]
  simp only [Bool.false_eq_true, if_false, hA]
  rw [if_pos (by omega), Nat.add_sub_cancel_left, Nat.mod_eq_of_lt (hb d hd)]
  by_cases hid : i = d
  · subst hid
    rw [getD_set_self _ _ _ (by omega)]
  · have hne : s._tmDigitMap.getD d 0 ≠ s._tmDigitMap.getD i 0 :=
      fun e => hid (hinj d hd i hi e).symm
    rw [getD_set_other _ _ _ _ (by omega)]
    exact (synced_iff s i).mp (h hid)

/-- Writing an LED to the chip keeps every digit synced: LED slots are the odd addresses. -/
theorem synced_writeLED (s : TM1638) (d i : Nat) (hs : Sound s) (hd : d < 8)
    (h : Synced s i) : Synced (writeDigit s d true) i := by
  obtain ⟨_, ⟨_, hlt, _⟩, _, _⟩ := hs
  have hmd := hlt d hd
  have hA : (STARTADDR38 + (s._tmDigitMap.getD d 0 <<< 1) + 1) % 256
      = 0xc0 + (2 * s._tmDigitMap.getD d 0 + 1) := by
    rw [Nat.shiftLeft_eq]; simp only [STARTADDR38]; omega
  rw [synced_iff] at h ⊢
  rw [chip_writeDigit_mem, writeDigit_registers, writeDigit_tmDigitMap]
  simp only [if_true, hA]
  rw [if_pos (by omega), Nat.add_sub_cancel_left, getD_set_other _ _ _ _ (by omega)]
  exact h

end TM1638

/-! ## What the number, binary and LED functions leave alone -/

namespace TM1638

@[simp] theorem fixedPart_displayInt8 (s : TM1638) (d v : Nat) (useDec : Bool) :
    fixedPart (displayInt8 s d v useDec) = fixedPart s := by
  unfold displayInt8
  split
  · cases useDec <;>
      simp only [fixedPart_writeDigit, fixedPart_writeCommand, fixedPart_putGlyph,
        Bool.false_eq_true, if_false, if_true]
  · rfl

@[simp] theorem fixedPart_displayInt12 (s : TM1638) (d v : Nat) (useDec : Bool) :
    fixedPart (displayInt12 s d v useDec) = fixedPart s := by
  unfold displayInt12
  split
  · cases useDec <;>
      simp only [fixedPart_writeDigit, fixedPart_writeCommand, fixedPart_putGlyph,
        Bool.false_eq_true, if_false, if_true]
  · rfl

@[simp] theorem fixedPart_displayInt16 (s : TM1638) (d v : Nat) (useDec : Bool) :
    fixedPart (displayInt16 s d v useDec) = fixedPart s := by
  unfold displayInt16
  split
  · cases useDec <;>
      simp only [fixedPart_writeDigit, fixedPart_writeCommand, fixedPart_putGlyph,
        Bool.false_eq_true, if_false, if_true]
  · rfl

@[simp] theorem fixedPart_displayBin8 (s : TM1638) (v : Nat) (lsbFirst : Bool) :
    fixedPart (displayBin8 s v lsbFirst) = fixedPart s := by
  unfold displayBin8
  split
  · exact foldl_keeps fixedPart _ (fun s a => by
      cases lsbFirst <;>
        simp only [fixedPart_writeDigit, fixedPart_writeCommand, fixedPart_putGlyph,
          Bool.false_eq_true, if_false, if_true]) _ s
  · rfl

@[simp] theorem fixedPart_displayLED8 (s : TM1638) (v : Nat) (lsbFirst : Bool) :
    fixedPart (displayLED8 s v lsbFirst) = fixedPart s := by
  unfold displayLED8
  split
  · exact foldl_keeps fixedPart _ (fun s a => by
      cases lsbFirst <;>
        simp only [fixedPart_displayLED1, Bool.false_eq_true, if_false, if_true]) _ s
  · rfl

@[simp] theorem putGlyph_allLEDs (s : TM1638) (i j k : Nat) :
    (putGlyph s i j k)._allLEDs = s._allLEDs := rfl

theorem displayInt8_allLEDs (s : TM1638) (d v : Nat) (useDec : Bool) :
    (displayInt8 s d v useDec)._allLEDs = s._allLEDs := by
  unfold displayInt8
  split
  · cases useDec <;>
      simp only [writeDigit_allLEDs, writeCommand_allLEDs, putGlyph_allLEDs,
        Bool.false_eq_true, if_false, if_true]
  · rfl

theorem displayInt12_allLEDs (s : TM1638) (d v : Nat) (useDec : Bool) :
    (displayInt12 s d v useDec)._allLEDs = s._allLEDs := by
  unfold displayInt12
  split
  · cases useDec <;>
      simp only [writeDigit_allLEDs, writeCommand_allLEDs, putGlyph_allLEDs,
        Bool.false_eq_true, if_false, if_true]
  · rfl

theorem displayInt16_allLEDs (s : TM1638) (d v : Nat) (useDec : Bool) :
    (displayInt16 s d v useDec)._allLEDs = s._allLEDs := by
  unfold displayInt16
  split
  · cases useDec <;>
      simp only [writeDigit_allLEDs, writeCommand_allLEDs, putGlyph_allLEDs,
        Bool.false_eq_true, if_false, if_true]
  · rfl

theorem displayLED8_registers (s : TM1638) (v : Nat) (lsbFirst : Bool) :
    (displayLED8 s v lsbFirst)._registers = s._registers := by
  unfold displayLED8
  split
  · exact foldl_keeps (fun s => s._registers) _ (fun s a => by
      cases lsbFirst <;> simp) _ s
  · rfl

/-- The registers `displayChar d` leaves as they were: all but register `d`. -/
theorem displayChar_other (s : TM1638) (d v j : Nat) (raw : Bool) (hj : j ≠ d) :
    (displayChar s d v raw)._registers.getD j 0 = s._registers.getD j 0 := by
  by_cases hd : d < s._numDigits
  · rw [displayChar_registers s d v raw hd, getD_set_other _ _ _ _ (fun e => hj e.symm)]
  · rw [displayChar_registers_out s d v raw hd]

theorem displayDP_other (s : TM1638) (d j : Nat) (b : Bool) (hj : j ≠ d) :
    (displayDP s d b)._registers.getD j 0 = s._registers.getD j 0 := by
  by_cases hd : d < s._numDigits
  · rw [displayDP_registers s d b hd, getD_set_other _ _ _ _ (fun e => hj e.symm)]
  · rw [displayDP_registers_out s d b hd]

theorem displayInt8_other (s : TM1638) (d v j : Nat) (useDec : Bool) (h0 : j ≠ d)
    (h1 : j ≠ d + 1) :
    (displayInt8 s d v useDec)._registers.getD j 0 = s._registers.getD j 0 := by
  by_cases hg : s._numDigits > 1 ∧ d < s._numDigits - 1
  · rw [displayInt8_registers s d v useDec hg]
    cases useDec <;>
      simp only [Bool.false_eq_true, if_false, if_true] <;>
      rw [putGlyph_getD_other _ _ _ _ _ (fun e => h1 e.symm),
        putGlyph_getD_other _ _ _ _ _ (fun e => h0 e.symm)]
  · unfold displayInt8; rw [if_neg hg]

theorem displayInt12_other (s : TM1638) (d v j : Nat) (useDec : Bool) (h0 : j ≠ d)
    (h1 : j ≠ d + 1) (h2 : j ≠ d + 2) :
    (displayInt12 s d v useDec)._registers.getD j 0 = s._registers.getD j 0 := by
  by_cases hg : s._numDigits > 2 ∧ d < s._numDigits - 2
  · rw [displayInt12_registers s d v useDec hg]
    cases useDec <;>
      simp only [Bool.false_eq_true, if_false, if_true] <;>
      rw [putGlyph_getD_other _ _ _ _ _ (fun e => h2 e.symm),
        putGlyph_getD_other _ _ _ _ _ (fun e => h1 e.symm),
        putGlyph_getD_other _ _ _ _ _ (fun e => h0 e.symm)]
  · unfold displayInt12; rw [if_neg hg]

theorem displayInt16_other (s : TM1638) (d v j : Nat) (useDec : Bool) (h0 : j ≠ d)
    (h1 : j ≠ d + 1) (h2 : j ≠ d + 2) (h3 : j ≠ d + 3) :
    (displayInt16 s d v useDec)._registers.getD j 0 = s._registers.getD j 0 := by
  by_cases hg : s._numDigits > 3 ∧ d < s._numDigits - 3
  · rw [displayInt16_registers s d v useDec hg]
    cases useDec <;>
      simp only [Bool.false_eq_true, if_false, if_true] <;>
      rw [putGlyph_getD_other _ _ _ _ _ (fun e => h3 e.symm),
        putGlyph_getD_other _ _ _ _ _ (fun e => h2 e.symm),
        putGlyph_getD_other _ _ _ _ _ (fun e => h1 e.symm),
        putGlyph_getD_other _ _ _ _ _ (fun e => h0 e.symm)]
  · unfold displayInt16; rw [if_neg hg]

theorem length_of_shape {s t : TM1638} (h : shape t = shape s) :
    t._registers.length = s._registers.length := by
  simp only [shape, Prod.mk.injEq] at h
  exact h.2.1

theorem numDigits_of_shape {s t : TM1638} (h : shape t = shape s) :
    t._numDigits = s._numDigits := by
  simp only [shape, Prod.mk.injEq] at h
  exact h.2.2.1

end TM1638

/-! ## Every display function keeps chip and shadow registers consistent -/

namespace TM1638

theorem foldl_inv {α : Type} (Inv : TM1638 → Prop) (f : TM1638 → α → TM1638) (l : List α)
    (h : ∀ t a, a ∈ l → Inv t → Inv (f t a)) (s : TM1638) (hs : Inv s) :
    Inv (l.foldl f s) := by
  induction l generalizing s with
  | nil => exact hs
  | cons a l ih =>
    rw [List.foldl_cons]
    exact ih (fun t b hb => h t b (List.mem_cons_of_mem a hb)) _
      (h s a (List.mem_cons_self a l) hs)

theorem glyph_byte_lt (r k : Nat) :
    (r &&& DP_CTRL38) ||| (tmCharTable.getD k 0 &&& 0x7f) < 256 := by
  have h := merge_dp_seg r (tmCharTable.getD k 0)
  have : (r &&& DP_CTRL38) ||| (tmCharTable.getD k 0 &&& 0x7f)
      = 128 * (r / 128 % 2) + tmCharTable.getD k 0 % 128 := h
  omega

theorem char_byte_lt (r v size : Nat) (raw : Bool) :
    (if raw then (v &&& 0x7f) ||| (r &&& DP_CTRL38)
      else tmCharTable.getD (if v ≥ size then 0x20 else v) 0 ||| (r &&& DP_CTRL38)) < 256 := by
  cases raw
  · simp only [Bool.false_eq_true, if_false]
    have h := merge_small_dp r _ (tmCharTable_lt (if v ≥ size then 0x20 else v))
    have hl := tmCharTable_lt (if v ≥ size then 0x20 else v)
    have : tmCharTable.getD (if v ≥ size then 0x20 else v) 0 ||| (r &&& DP_CTRL38)
        = 128 * (r / 128 % 2) + tmCharTable.getD (if v ≥ size then 0x20 else v) 0 := h
    omega
  · simp only [if_true]
    have h := merge_seg_dp r v
    have : (v &&& 0x7f) ||| (r &&& DP_CTRL38) = 128 * (r / 128 % 2) + v % 128 := h
    omega

theorem sound_putGlyph (s : TM1638) (i j k : Nat) (hs : Sound s) :
    Sound (putGlyph s i j k) := by
  rw [putGlyph_eq_putReg]
  exact sound_putReg s i _ hs (glyph_byte_lt _ _)

theorem synced_putGlyph (s : TM1638) (d j k i : Nat) (hne : i ≠ d) (h : Synced s i) :
    Synced (putGlyph s d j k) i := by
  rw [putGlyph_eq_putReg]
  exact synced_putReg s d _ i hne h

/-- `displayChar d` keeps the driver sound, keeps synced digits synced, and syncs digit `d`
when it accepts it. -/
theorem keep_displayChar (s : TM1638) (d v : Nat) (raw : Bool) (hs : Sound s) :
    Sound (displayChar s d v raw) ∧
    ∀ i, i < 8 → (Synced s i ∨ (i = d ∧ d < s._numDigits)) →
      Synced (displayChar s d v raw) i := by
  by_cases hd : d < s._numDigits
  · rw [displayChar_eq s d v raw hd]
    have hx := char_byte_lt (s._registers.getD d 0) v s.charTableSize raw
    have h1 := sound_putReg s d _ hs hx
    have h2 := sound_writeCommand _ ADDR_FIXED38 h1
    have hd8 : d < 8 := lt_of_lt_of_le hd hs.2.2.1
    refine ⟨sound_writeDigit _ d false h2, ?_⟩
    intro i hi h
    apply synced_writeDigit _ d i h2 hd8 hi
    intro hne
    apply synced_writeCommand
    apply synced_putReg _ _ _ _ hne
    rcases h with h | h
    · exact h
    · exact absurd h.1 hne
  · have e : displayChar s d v raw = s := by unfold displayChar; rw [if_neg hd]
    rw [e]
    refine ⟨hs, ?_⟩
    intro i _ h
    rcases h with h | h
    · exact h
    · exact absurd h.2 hd

/-- `displayDP d` keeps the driver sound, keeps synced digits synced, and syncs digit `d`
when it accepts it. -/
theorem keep_displayDP (s : TM1638) (d : Nat) (b : Bool) (hs : Sound s) :
    Sound (displayDP s d b) ∧
    ∀ i, i < 8 → (Synced s i ∨ (i = d ∧ d < s._numDigits)) → Synced (displayDP s d b) i := by
  by_cases hd : d < s._numDigits
  · rw [displayDP_eq s d b hd]
    have h1 := sound_putReg s d _ hs (bitWrite_lt (s._registers.getD d 0) 7 b)
    have h2 := sound_writeCommand _ ADDR_FIXED38 h1
    have hd8 : d < 8 := lt_of_lt_of_le hd hs.2.2.1
    refine ⟨sound_writeDigit _ d false h2, ?_⟩
    intro i hi h
    apply synced_writeDigit _ d i h2 hd8 hi
    intro hne
    apply synced_writeCommand
    apply synced_putReg _ _ _ _ hne
    rcases h with h | h
    · exact h
    · exact absurd h.1 hne
  · have e : displayDP s d b = s := by unfold displayDP; rw [if_neg hd]
    rw [e]
    refine ⟨hs, ?_⟩
    intro i _ h
    rcases h with h | h
    · exact h
    · exact absurd h.2 hd

/-- `displayLED1` keeps the driver sound and synced digits synced. -/
theorem keep_displayLED1 (s : TM1638) (d : Nat) (b : Bool) (hs : Sound s) :
    Sound (displayLED1 s d b) ∧
    ∀ i, i < 8 → Synced s i → Synced (displayLED1 s d b) i := by
  by_cases hd : s._numLEDs > 0 ∧ d < s._numLEDs
  · rw [displayLED1_eq s d b hd]
    have h1 := sound_putLeds s (bitWrite s._allLEDs d b) hs
    have h2 := sound_writeCommand _ ADDR_FIXED38 h1
    have hd8 : d < 8 := lt_of_lt_of_le hd.2 hs.2.2.2
    refine ⟨sound_writeDigit _ d true h2, ?_⟩
    intro i _ h
    apply synced_writeLED _ d i h2 hd8
    apply synced_writeCommand
    exact synced_putLeds s _ i h
  · have e : displayLED1 s d b = s := by unfold displayLED1; rw [if_neg hd]
    rw [e]
    exact ⟨hs, fun _ _ h => h⟩

end TM1638

namespace TM1638

theorem keep_glyphs_two (s : TM1638) (d k0 k1 : Nat) (hs : Sound s) (hd : d + 1 < 8) :
    Sound (writeDigit (writeDigit (writeCommand
      (putGlyph (putGlyph s d d k0) (d + 1) (d + 1) k1) ADDR_FIXED38) d false)
      ((d + 1) % 256) false) ∧
    ∀ i, i < 8 → Synced s i → Synced (writeDigit (writeDigit (writeCommand
      (putGlyph (putGlyph s d d k0) (d + 1) (d + 1) k1) ADDR_FIXED38) d false)
      ((d + 1) % 256) false) i := by
  rw [Nat.mod_eq_of_lt (by omega : d + 1 < 256)]
  have p1 := sound_putGlyph s d d k0 hs
  have p2 := sound_putGlyph _ (d + 1) (d + 1) k1 p1
  have c := sound_writeCommand _ ADDR_FIXED38 p2
  have w1 := sound_writeDigit _ d false c
  refine ⟨sound_writeDigit _ (d + 1) false w1, ?_⟩
  intro i hi h
  apply synced_writeDigit _ (d + 1) i w1 (by omega) hi
  intro n1
  apply synced_writeDigit _ d i c (by omega) hi
  intro n0
  apply synced_writeCommand
  apply synced_putGlyph _ _ _ _ _ n1
  exact synced_putGlyph _ _ _ _ _ n0 h

theorem keep_glyphs_three (s : TM1638) (d k0 k1 k2 : Nat) (hs : Sound s) (hd : d + 2 < 8) :
    Sound (writeDigit (writeDigit (writeDigit (writeCommand
      (putGlyph (putGlyph (putGlyph s d d k0) (d + 1) (d + 1) k1) (d + 2) (d + 2) k2)
      ADDR_FIXED38) d false) ((d + 1) % 256) false) ((d + 2) % 256) false) ∧
    ∀ i, i < 8 → Synced s i → Synced (writeDigit (writeDigit (writeDigit (writeCommand
      (putGlyph (putGlyph (putGlyph s d d k0) (d + 1) (d + 1) k1) (d + 2) (d + 2) k2)
      ADDR_FIXED38) d false) ((d + 1) % 256) false) ((d + 2) % 256) false) i := by
  rw [Nat.mod_eq_of_lt (by omega : d + 1 < 256), Nat.mod_eq_of_lt (by omega : d + 2 < 256)]
  have p1 := sound_putGlyph s d d k0 hs
  have p2 := sound_putGlyph _ (d + 1) (d + 1) k1 p1
  have p3 := sound_putGlyph _ (d + 2) (d + 2) k2 p2
  have c := sound_writeCommand _ ADDR_FIXED38 p3
  have w1 := sound_writeDigit _ d false c
  have w2 := sound_writeDigit _ (d + 1) false w1
  refine ⟨sound_writeDigit _ (d + 2) false w2, ?_⟩
  intro i hi h
  apply synced_writeDigit _ (d + 2) i w2 (by omega) hi
  intro n2
  apply synced_writeDigit _ (d + 1) i w1 (by omega) hi
  intro n1
  apply synced_writeDigit _ d i c (by omega) hi
  intro n0
  apply synced_writeCommand
  apply synced_putGlyph _ _ _ _ _ n2
  apply synced_putGlyph _ _ _ _ _ n1
  exact synced_putGlyph _ _ _ _ _ n0 h

theorem keep_glyphs_four (s : TM1638) (d k0 k1 k2 k3 : Nat) (hs : Sound s)
    (hd : d + 3 < 8) :
    Sound (writeDigit (writeDigit (writeDigit (writeDigit (writeCommand
      (putGlyph (putGlyph (putGlyph (putGlyph s d d k0) (d + 1) (d + 1) k1)
        (d + 2) (d + 2) k2) (d + 3) (d + 3) k3)
      ADDR_FIXED38) d false) ((d + 1) % 256) false) ((d + 2) % 256) false)
      ((d + 3) % 256) false) ∧
    ∀ i, i < 8 → Synced s i → Synced (writeDigit (writeDigit (writeDigit (writeDigit
      (writeCommand
      (putGlyph (putGlyph (putGlyph (putGlyph s d d k0) (d + 1) (d + 1) k1)
        (d + 2) (d + 2) k2) (d + 3) (d + 3) k3)
      ADDR_FIXED38) d false) ((d + 1) % 256) false) ((d + 2) % 256) false)
      ((d + 3) % 256) false) i := by
  rw [Nat.mod_eq_of_lt (by omega : d + 1 < 256), Nat.mod_eq_of_lt (by omega : d + 2 < 256),
    Nat.mod_eq_of_lt (by omega : d + 3 < 256)]
  have p1 := sound_putGlyph s d d k0 hs
  have p2 := sound_putGlyph _ (d + 1) (d + 1) k1 p1
  have p3 := sound_putGlyph _ (d + 2) (d + 2) k2 p2
  have p4 := sound_putGlyph _ (d + 3) (d + 3) k3 p3
  have c := sound_writeCommand _ ADDR_FIXED38 p4
  have w1 := sound_writeDigit _ d false c
  have w2 := sound_writeDigit _ (d + 1) false w1
  have w3 := sound_writeDigit _ (d + 2) false w2
  refine ⟨sound_writeDigit _ (d + 3) false w3, ?_⟩
  intro i hi h
  apply synced_writeDigit _ (d + 3) i w3 (by omega) hi
  intro n3
  apply synced_writeDigit _ (d + 2) i w2 (by omega) hi
  intro n2
  apply synced_writeDigit _ (d + 1) i w1 (by omega) hi
  intro n1
  apply synced_writeDigit _ d i c (by omega) hi
  intro n0
  apply synced_writeCommand
  apply synced_putGlyph _ _ _ _ _ n3
  apply synced_putGlyph _ _ _ _ _ n2
  apply synced_putGlyph _ _ _ _ _ n1
  exact synced_putGlyph _ _ _ _ _ n0 h

theorem keep_displayInt8 (s : TM1638) (d v : Nat) (useDec : Bool) (hs : Sound s) :
    Sound (displayInt8 s d v useDec) ∧
    ∀ i, i < 8 → Synced s i → Synced (displayInt8 s d v useDec) i := by
  have hn := hs.2.2.1
  by_cases hg : s._numDigits > 1 ∧ d < s._numDigits - 1
  · unfold displayInt8
    rw [if_pos hg]
    cases useDec
    · exact keep_glyphs_two s d _ _ hs (by omega)
    · exact keep_glyphs_two s d _ _ hs (by omega)
  · have e : displayInt8 s d v useDec = s := by unfold displayInt8; rw [if_neg hg]
    rw [e]
    exact ⟨hs, fun _ _ h => h⟩

theorem keep_displayInt12 (s : TM1638) (d v : Nat) (useDec : Bool) (hs : Sound s) :
    Sound (displayInt12 s d v useDec) ∧
    ∀ i, i < 8 → Synced s i → Synced (displayInt12 s d v useDec) i := by
  have hn := hs.2.2.1
  by_cases hg : s._numDigits > 2 ∧ d < s._numDigits - 2
  · unfold displayInt12
    rw [if_pos hg]
    cases useDec
    · exact keep_glyphs_three s d _ _ _ hs (by omega)
    · exact keep_glyphs_three s d _ _ _ hs (by omega)
  · have e : displayInt12 s d v useDec = s := by unfold displayInt12; rw [if_neg hg]
    rw [e]
    exact ⟨hs, fun _ _ h => h⟩

theorem keep_displayInt16 (s : TM1638) (d v : Nat) (useDec : Bool) (hs : Sound s) :
    Sound (displayInt16 s d v useDec) ∧
    ∀ i, i < 8 → Synced s i → Synced (displayInt16 s d v useDec) i := by
  have hn := hs.2.2.1
  by_cases hg : s._numDigits > 3 ∧ d < s._numDigits - 3
  · unfold displayInt16
    rw [if_pos hg]
    cases useDec
    · exact keep_glyphs_four s d _ _ _ _ hs (by omega)
    · exact keep_glyphs_four s d _ _ _ _ hs (by omega)
  · have e : displayInt16 s d v useDec = s := by unfold displayInt16; rw [if_neg hg]
    rw [e]
    exact ⟨hs, fun _ _ h => h⟩

end TM1638

namespace TM1638

theorem keep_displayBin8 (s : TM1638) (v : Nat) (lsbFirst : Bool) (hs : Sound s) :
    Sound (displayBin8 s v lsbFirst) ∧
    ∀ i, i < 8 → Synced s i → Synced (displayBin8 s v lsbFirst) i := by
  unfold displayBin8
  split
  · refine foldl_inv (fun t => Sound t ∧ ∀ i, i < 8 → Synced s i → Synced t i) _ _ ?_ s
      ⟨hs, fun _ _ h => h⟩
    intro t digit hdig ht
    have hd8 : digit < 8 := List.mem_range.mp hdig
    obtain ⟨st, kt⟩ := ht
    cases lsbFirst
    · simp only [Bool.false_eq_true, if_false]
      have p := sound_putGlyph t digit (7 - digit) ((v >>> (7 - digit)) &&& 0x01) st
      have c := sound_writeCommand _ ADDR_FIXED38 p
      refine ⟨sound_writeDigit _ digit false c, ?_⟩
      intro i hi h
      apply synced_writeDigit _ digit i c hd8 hi
      intro n0
      apply synced_writeCommand
      exact synced_putGlyph _ _ _ _ _ n0 (kt i hi h)
    · simp only [if_true]
      have p := sound_putGlyph t digit digit ((v >>> digit) &&& 0x01) st
      have c := sound_writeCommand _ ADDR_FIXED38 p
      refine ⟨sound_writeDigit _ digit false c, ?_⟩
      intro i hi h
      apply synced_writeDigit _ digit i c hd8 hi
      intro n0
      apply synced_writeCommand
      exact synced_putGlyph _ _ _ _ _ n0 (kt i hi h)
  · exact ⟨hs, fun _ _ h => h⟩

theorem keep_displayLED8 (s : TM1638) (v : Nat) (lsbFirst : Bool) (hs : Sound s) :
    Sound (displayLED8 s v lsbFirst) ∧
    ∀ i, i < 8 → Synced s i → Synced (displayLED8 s v lsbFirst) i := by
  unfold displayLED8
  split
  · refine foldl_inv (fun t => Sound t ∧ ∀ i, i < 8 → Synced s i → Synced t i) _ _ ?_ s
      ⟨hs, fun _ _ h => h⟩
    intro t digit _ ht
    obtain ⟨st, kt⟩ := ht
    cases lsbFirst
    · simp only [Bool.false_eq_true, if_false]
      have k := keep_displayLED1 t digit (((v >>> (7 - digit)) &&& 0x01) != 0) st
      exact ⟨k.1, fun i hi h => k.2 i hi (kt i hi h)⟩
    · simp only [if_true]
      have k := keep_displayLED1 t digit (((v >>> digit) &&& 0x01) != 0) st
      exact ⟨k.1, fun i hi h => k.2 i hi (kt i hi h)⟩
  · exact ⟨hs, fun _ _ h => h⟩

/-- One round of the `displayClear` loop keeps the driver sound, keeps synced digits synced,
and syncs the digit it clears. -/
theorem keep_clear_round (t : TM1638) (d : Nat) (ht : Sound t) :
    Sound (displayDP (displayChar (displayLED1 t d false) d 0x00 true) d false) ∧
    (displayDP (displayChar (displayLED1 t d false) d 0x00 true) d false)._numDigits
      = t._numDigits ∧
    ∀ i, i < 8 → (Synced t i ∨ (i = d ∧ d < t._numDigits)) →
      Synced (displayDP (displayChar (displayLED1 t d false) d 0x00 true) d false) i := by
  have k1 := keep_displayLED1 t d false ht
  have k2 := keep_displayChar (displayLED1 t d false) d 0x00 true k1.1
  have k3 := keep_displayDP (displayChar (displayLED1 t d false) d 0x00 true) d false k2.1
  refine ⟨k3.1, by simp, ?_⟩
  intro i hi h
  apply k3.2 i hi
  rcases h with h | h
  · left
    exact k2.2 i hi (Or.inl (k1.2 i hi h))
  · right
    exact ⟨h.1, by simpa using h.2⟩

/-- From any sound driver, `displayClear` leaves every configured digit synced. -/
theorem consistent_displayClear (s : TM1638) (hs : Sound s) : Consistent (displayClear s) := by
  have key : ∀ k, Sound ((List.range k).foldl (fun s digit =>
        displayDP (displayChar (displayLED1 s digit false) digit 0x00 true) digit false) s) ∧
      ((List.range k).foldl (fun s digit =>
        displayDP (displayChar (displayLED1 s digit false) digit 0x00 true) digit false)
          s)._numDigits = s._numDigits ∧
      ∀ i, i < k → i < s._numDigits → Synced ((List.range k).foldl (fun s digit =>
        displayDP (displayChar (displayLED1 s digit false) digit 0x00 true) digit false) s)
          i := by
    intro k
    induction k with
    | zero => exact ⟨hs, rfl, fun i hi => absurd hi (Nat.not_lt_zero i)⟩
    | succ k ih =>
      obtain ⟨h1, h2, h3⟩ := ih
      rw [List.range_succ, List.foldl_append, List.foldl_cons, List.foldl_nil]
      obtain ⟨r1, r2, r3⟩ := keep_clear_round _ k h1
      refine ⟨r1, by rw [r2, h2], ?_⟩
      intro i hi hnd
      have hi8 : i < 8 := lt_of_lt_of_le hnd hs.2.2.1
      apply r3 i hi8
      by_cases hik : i = k
      · right
        exact ⟨hik, by rw [h2, ← hik]; exact hnd⟩
      · left
        exact h3 i (by omega) hnd
  obtain ⟨h1, h2, h3⟩ := key s._numDigits
  unfold displayClear
  refine ⟨h1, ?_⟩
  intro i hi
  rw [h2] at hi
  exact h3 i hi hi

theorem consistent_displayBrightness (s : TM1638) (b : Nat) (hs : Consistent s) :
    Consistent (displayBrightness s b) := by
  obtain ⟨h1, h2⟩ := hs
  refine ⟨h1, ?_⟩
  intro i hi
  have h := (synced_iff s i).mp (h2 i hi)
  rw [synced_iff]
  unfold displayBrightness
  rw [chip_writeCommand_mem, writeCommand_registers, writeCommand_tmDigitMap]
  exact h

end TM1638

namespace TM1638

theorem consistent_of_keep {s t : TM1638} (hs : Consistent s)
    (hn : t._numDigits = s._numDigits)
    (k : Sound t ∧ ∀ i, i < 8 → Synced s i → Synced t i) : Consistent t := by
  refine ⟨k.1, ?_⟩
  intro i hi
  rw [hn] at hi
  exact k.2 i (lt_of_lt_of_le hi hs.1.2.2.1) (hs.2 i hi)

/-- After `begin`, from byte registers and with a valid digit map, chip and shadow registers
are consistent. -/
theorem consistent_begin (s : TM1638) (m : List Nat) (nb nl nd br : Nat)
    (hr : ByteRegisters s._registers) (hm : ValidMap m) :
    Consistent (begin s m nb nl nd br) := by
  unfold begin
  apply consistent_displayBrightness
  apply consistent_displayClear
  unfold Sound
  simp only [pinMode]
  refine ⟨hr, hm, ?_, ?_⟩
  · simp only [MAX_DIGITS38]; split <;> omega
  · simp only [MAX_LEDS38]; split <;> omega

/-- Every call keeps chip and shadow registers consistent. -/
theorem consistent_perform (s : TM1638) (c : Call) (hs : Consistent s) :
    Consistent (perform s c) := by
  cases c with
  | displayClear => exact consistent_displayClear s hs.1
  | displayChar d v raw =>
    have k := keep_displayChar s d v raw hs.1
    exact consistent_of_keep hs (displayChar_numDigits s d v raw)
      ⟨k.1, fun i hi h => k.2 i hi (Or.inl h)⟩
  | displayDP d b =>
    have k := keep_displayDP s d b hs.1
    exact consistent_of_keep hs (displayDP_numDigits s d b)
      ⟨k.1, fun i hi h => k.2 i hi (Or.inl h)⟩
  | displayInt8 d v u =>
    exact consistent_of_keep hs (numDigits_of_shape (shape_displayInt8 s d v u))
      (keep_displayInt8 s d v u hs.1)
  | displayInt12 d v u =>
    exact consistent_of_keep hs (numDigits_of_shape (shape_displayInt12 s d v u))
      (keep_displayInt12 s d v u hs.1)
  | displayInt16 d v u =>
    exact consistent_of_keep hs (numDigits_of_shape (shape_displayInt16 s d v u))
      (keep_displayInt16 s d v u hs.1)
  | displayBin8 v l =>
    exact consistent_of_keep hs (numDigits_of_shape (shape_displayBin8 s v l))
      (keep_displayBin8 s v l hs.1)
  | displayLED1 d b =>
    exact consistent_of_keep hs (displayLED1_numDigits s d b) (keep_displayLED1 s d b hs.1)
  | displayLED8 v l =>
    exact consistent_of_keep hs (numDigits_of_shape (shape_displayLED8 s v l))
      (keep_displayLED8 s v l hs.1)

theorem consistent_performAll (s : TM1638) (calls : List Call) (hs : Consistent s) :
    Consistent (performAll s calls) := by
  unfold performAll
  exact foldl_inv Consistent perform calls (fun t c _ ht => consistent_perform t c ht) s hs

theorem fixedPart_perform (s : TM1638) (c : Call) : fixedPart (perform s c) = fixedPart s := by
  cases c <;> simp [perform]

theorem fixedPart_performAll (s : TM1638) (calls : List Call) :
    fixedPart (performAll s calls) = fixedPart s := by
  unfold performAll
  exact foldl_keeps fixedPart perform fixedPart_perform calls s

end TM1638

/-! ## The claims, concluded -/

/-- C21: for all arguments of `begin`, the recorded configuration has `1 <= numDigits <= 8`,
`numLEDs <= 8`, `numButtons <= 8` and `brightness <= 7`; a digit, LED or button count
argument within 1..8 is recorded unchanged, `numDigits = 0` is recorded as 1, and the recorded
brightness is the argument masked to 3 bits. -/
theorem C21_begin_configuration (s : TM1638) (m : List Nat) (nb nl nd br : Nat) :
    (1 ≤ (TM1638.begin s m nb nl nd br)._numDigits ∧
     (TM1638.begin s m nb nl nd br)._numDigits ≤ 8 ∧
     (TM1638.begin s m nb nl nd br)._numLEDs ≤ 8 ∧
     (TM1638.begin s m nb nl nd br)._numButtons ≤ 8 ∧
     (TM1638.begin s m nb nl nd br)._brightness ≤ 7) ∧
    ((1 ≤ nd ∧ nd ≤ 8) → (TM1638.begin s m nb nl nd br)._numDigits = nd) ∧
    ((1 ≤ nl ∧ nl ≤ 8) → (TM1638.begin s m nb nl nd br)._numLEDs = nl) ∧
    ((1 ≤ nb ∧ nb ≤ 8) → (TM1638.begin s m nb nl nd br)._numButtons = nb) ∧
    (nd = 0 → (TM1638.begin s m nb nl nd br)._numDigits = 1) ∧
    (TM1638.begin s m nb nl nd br)._brightness = br &&& 0x07 ∧
    (TM1638.begin s m nb nl nd br)._brightness = br % 8 := by
  obtain ⟨_, hL, hD, hB, hI, _⟩ := TM1638.begin_config s m nb nl nd br
  have h7 : br &&& 0x07 = br % 8 := Nat.and_pow_two_sub_one_eq_mod br 3
  simp only [MAX_LEDS38, MAX_DIGITS38, MAX_BUTTONS38, INTENSITY_MAX38] at hL hD hB hI
  rw [hL, hD, hB, hI, h7]
  have hlt : br % 8 < 8 := Nat.mod_lt _ (by norm_num)
  refine ⟨⟨?_, ?_, ?_, ?_, by omega⟩, ?_, ?_, ?_, ?_, rfl, rfl⟩
  · split <;> omega
  · split <;> omega
  · split <;> omega
  · split <;> omega
  · intro h; rw [if_pos (by omega)]
  · intro h; rw [if_pos (by omega)]
  · intro h; rw [if_pos (by omega)]
  · intro h; rw [if_neg (by omega)]

theorem C21_begin_configuration_witness :
    ((1 ≤ 4 ∧ 4 ≤ 8) ∧ (1 ≤ 3 ∧ 3 ≤ 8) ∧ (1 ≤ 2 ∧ 2 ≤ 8) ∧ 0 = 0) ∧
    (TM1638.begin (TM1638.ctor 4 2 3 []) tmDigitMapDefault 2 3 4 13)._numDigits = 4 ∧
    (TM1638.begin (TM1638.ctor 4 2 3 []) tmDigitMapDefault 2 3 4 13)._numLEDs = 3 ∧
    (TM1638.begin (TM1638.ctor 4 2 3 []) tmDigitMapDefault 2 3 4 13)._numButtons = 2 ∧
    (TM1638.begin (TM1638.ctor 4 2 3 []) tmDigitMapDefault 2 3 0 13)._numDigits = 1 ∧
    (TM1638.begin (TM1638.ctor 4 2 3 []) tmDigitMapDefault 2 3 4 13)._brightness = 5 :=
  ⟨by decide,
    (C21_begin_configuration (TM1638.ctor 4 2 3 []) tmDigitMapDefault 2 3 4 13).2.1
      (by decide),
    (C21_begin_configuration (TM1638.ctor 4 2 3 []) tmDigitMapDefault 2 3 4 13).2.2.1
      (by decide),
    (C21_begin_configuration (TM1638.ctor 4 2 3 []) tmDigitMapDefault 2 3 4 13).2.2.2.1
      (by decide),
    (C21_begin_configuration (TM1638.ctor 4 2 3 []) tmDigitMapDefault 2 3 0 13).2.2.2.2.1
      (by decide),
    by decide⟩

/-- C22: with buttons configured, when each of the four scanned bytes `b0 .. b3` has no bit
set other than bit 0 and bit 4, bit `k` of the byte `readButtons` returns is bit 0 of `bk` and
bit `k + 4` is bit 4 of `bk`, for `k` = 0, 1, 2, 3: the eight key states sit on the eight
distinct result bits, and each scanned byte is recovered from its two result bits. -/
theorem C22_readButtons_key_layout (s : TM1638) (hb : 0 < s._numButtons) (b0 b1 b2 b3 : Nat)
    (rest : List Nat) (hk : s.keys = b0 :: b1 :: b2 :: b3 :: rest)
    (h0 : b0 &&& 0x11 = b0) (h1 : b1 &&& 0x11 = b1) (h2 : b2 &&& 0x11 = b2)
    (h3 : b3 &&& 0x11 = b3) :
    ((TM1638.readButtons s).1.testBit 0 = b0.testBit 0 ∧
     (TM1638.readButtons s).1.testBit 1 = b1.testBit 0 ∧
     (TM1638.readButtons s).1.testBit 2 = b2.testBit 0 ∧
     (TM1638.readButtons s).1.testBit 3 = b3.testBit 0 ∧
     (TM1638.readButtons s).1.testBit 4 = b0.testBit 4 ∧
     (TM1638.readButtons s).1.testBit 5 = b1.testBit 4 ∧
     (TM1638.readButtons s).1.testBit 6 = b2.testBit 4 ∧
     (TM1638.readButtons s).1.testBit 7 = b3.testBit 4) ∧
    (b0 = ((TM1638.readButtons s).1.testBit 0).toNat
        + 16 * ((TM1638.readButtons s).1.testBit 4).toNat ∧
     b1 = ((TM1638.readButtons s).1.testBit 1).toNat
        + 16 * ((TM1638.readButtons s).1.testBit 5).toNat ∧
     b2 = ((TM1638.readButtons s).1.testBit 2).toNat
        + 16 * ((TM1638.readButtons s).1.testBit 6).toNat ∧
     b3 = ((TM1638.readButtons s).1.testBit 3).toNat
        + 16 * ((TM1638.readButtons s).1.testBit 7).toNat) := by
  have l0 : b0 < 256 := lt_of_le_of_lt (scan_byte_le b0 h0) (by norm_num)
  have l1 : b1 < 256 := lt_of_le_of_lt (scan_byte_le b1 h1) (by norm_num)
  have l2 : b2 < 256 := lt_of_le_of_lt (scan_byte_le b2 h2) (by norm_num)
  have l3 : b3 < 256 := lt_of_le_of_lt (scan_byte_le b3 h3) (by norm_num)
  have hr := TM1638.readButtons_value s hb b0 b1 b2 b3 rest hk l0 l1 l2 l3
  have h8 : (256 : Nat) = 2 ^ 8 := by norm_num
  have c0 := fun j hj0 hj4 => scan_bits_clear b0 j h0 hj0 hj4
  have c1 := fun j hj0 hj4 => scan_bits_clear b1 j h1 hj0 hj4
  have c2 := fun j hj0 hj4 => scan_bits_clear b2 j h2 hj0 hj4
  have c3 := fun j hj0 hj4 => scan_bits_clear b3 j h3 hj0 hj4
  have bits : (TM1638.readButtons s).1.testBit 0 = b0.testBit 0 ∧
     (TM1638.readButtons s).1.testBit 1 = b1.testBit 0 ∧
     (TM1638.readButtons s).1.testBit 2 = b2.testBit 0 ∧
     (TM1638.readButtons s).1.testBit 3 = b3.testBit 0 ∧
     (TM1638.readButtons s).1.testBit 4 = b0.testBit 4 ∧
     (TM1638.readButtons s).1.testBit 5 = b1.testBit 4 ∧
     (TM1638.readButtons s).1.testBit 6 = b2.testBit 4 ∧
     (TM1638.readButtons s).1.testBit 7 = b3.testBit 4 := by
    rw [hr]
    simp only [h8, Nat.testBit_mod_two_pow, Nat.testBit_lor, Nat.testBit_shiftLeft]
    have a1 := c0 1 (by norm_num) (by norm_num)
    have a2 := c0 2 (by norm_num) (by norm_num)
    have a3 := c0 3 (by norm_num) (by norm_num)
    have a5 := c0 5 (by norm_num) (by norm_num)
    have a6 := c0 6 (by norm_num) (by norm_num)
    have a7 := c0 7 (by norm_num) (by norm_num)
    have d1 := c1 1 (by norm_num) (by norm_num)
    have d2 := c1 2 (by norm_num) (by norm_num)
    have d3 := c1 3 (by norm_num) (by norm_num)
    have d5 := c1 5 (by norm_num) (by norm_num)
    have d6 := c1 6 (by norm_num) (by norm_num)
    have e1 := c2 1 (by norm_num) (by norm_num)
    have e2 := c2 2 (by norm_num) (by norm_num)
    have e3 := c2 3 (by norm_num) (by norm_num)
    have e5 := c2 5 (by norm_num) (by norm_num)
    have f1 := c3 1 (by norm_num) (by norm_num)
    have f2 := c3 2 (by norm_num) (by norm_num)
    have f3 := c3 3 (by norm_num) (by norm_num)
    simp [a1, a2, a3, a5, a6, a7, d1, d2, d3, d5, d6, e1, e2, e3, e5, f1, f2, f3]
  obtain ⟨r0, r1, r2, r3, r4, r5, r6, r7⟩ := bits
  refine ⟨⟨r0, r1, r2, r3, r4, r5, r6, r7⟩, ?_, ?_, ?_, ?_⟩
  · rw [r0, r4]; exact scan_byte_of_bits b0 h0
  · rw [r1, r5]; exact scan_byte_of_bits b1 h1
  · rw [r2, r6]; exact scan_byte_of_bits b2 h2
  · rw [r3, r7]; exact scan_byte_of_bits b3 h3

theorem C22_readButtons_key_layout_witness :
    (0 < (TM1638.beginDefault (TM1638.ctor 4 2 3 [0x11, 0x10, 0x01, 0x00, 0x55]) 8 8 8 2)._numButtons
      ∧ (TM1638.beginDefault (TM1638.ctor 4 2 3 [0x11, 0x10, 0x01, 0x00, 0x55]) 8 8 8 2).keys
          = 0x11 :: 0x10 :: 0x01 :: 0x00 :: [0x55]
      ∧ 0x11 &&& 0x11 = 0x11 ∧ 0x10 &&& 0x11 = 0x10 ∧ 0x01 &&& 0x11 = 0x01
      ∧ 0x00 &&& 0x11 = 0x00) ∧
    (TM1638.readButtons
        (TM1638.beginDefault (TM1638.ctor 4 2 3 [0x11, 0x10, 0x01, 0x00, 0x55]) 8 8 8 2)).1.testBit 5
      = (0x10 : Nat).testBit 4 ∧
    (TM1638.readButtons
        (TM1638.beginDefault (TM1638.ctor 4 2 3 [0x11, 0x10, 0x01, 0x00, 0x55]) 8 8 8 2)).1
      = 0x35 :=
  ⟨by decide,
    (C22_readButtons_key_layout
      (TM1638.beginDefault (TM1638.ctor 4 2 3 [0x11, 0x10, 0x01, 0x00, 0x55]) 8 8 8 2)
      (by decide) 0x11 0x10 0x01 0x00 [0x55] (by decide) (by decide) (by decide) (by decide)
      (by decide)).1.2.2.2.2.2.1,
    by decide⟩

set_option maxRecDepth 100000 in
/-- C23: for every digit map with 8 distinct entries below 8 and all arguments of `begin`,
starting from byte registers, after `begin` and any finite sequence of `displayClear`,
`displayChar`, `displayDP`, `displayInt8`, `displayInt12`, `displayInt16`, `displayBin8`,
`displayLED1` and `displayLED8` calls, the chip byte at address `0xC0 + 2 * digitMap[i]`
equals shadow register `i`, for every `i` below the digit count; the digit map in force is
still the one given to `begin`. -/
theorem C23_chip_matches_shadow (s : TM1638) (m : List Nat) (nb nl nd br : Nat)
    (calls : List TM1638.Call) (i : Nat) (hr : TM1638.ByteRegisters s._registers)
    (hm : TM1638.ValidMap m)
    (hi : i < (TM1638.performAll (TM1638.begin s m nb nl nd br) calls)._numDigits) :
    (TM1638.performAll (TM1638.begin s m nb nl nd br) calls).chip.byteAt
        (0xc0 + 2 * m.getD i 0)
      = (TM1638.performAll (TM1638.begin s m nb nl nd br) calls)._registers.getD i 0 ∧
    (TM1638.performAll (TM1638.begin s m nb nl nd br) calls)._tmDigitMap = m := by
  have hc := TM1638.consistent_performAll _ calls (TM1638.consistent_begin s m nb nl nd br hr hm)
  have hmap : (TM1638.performAll (TM1638.begin s m nb nl nd br) calls)._tmDigitMap = m := by
    rw [(TM1638.config_of_fixedPart (TM1638.fixedPart_performAll _ calls)).2.2.2.2.1]
    exact (TM1638.begin_config s m nb nl nd br).1
  have h := hc.2 i hi
  unfold TM1638.Synced at h
  rw [hmap] at h
  exact ⟨h, hmap⟩

set_option maxRecDepth 100000 in
theorem C23_chip_matches_shadow_witness :
    (TM1638.ByteRegisters (TM1638.ctor 4 2 3 [])._registers ∧
      TM1638.ValidMap [3, 1, 4, 0, 5, 7, 2, 6] ∧
      2 < (TM1638.performAll (TM1638.begin (TM1638.ctor 4 2 3 []) [3, 1, 4, 0, 5, 7, 2, 6]
        8 8 6 2)
        [TM1638.Call.displayChar 0 8 false, TM1638.Call.displayInt16 1 0xbeef false,
         TM1638.Call.displayLED1 7 true, TM1638.Call.displayDP 2 true])._numDigits) ∧
    ((TM1638.performAll (TM1638.begin (TM1638.ctor 4 2 3 []) [3, 1, 4, 0, 5, 7, 2, 6] 8 8 6 2)
        [TM1638.Call.displayChar 0 8 false, TM1638.Call.displayInt16 1 0xbeef false,
         TM1638.Call.displayLED1 7 true, TM1638.Call.displayDP 2 true]).chip.byteAt
        (0xc0 + 2 * [3, 1, 4, 0, 5, 7, 2, 6].getD 2 0)
      = (TM1638.performAll (TM1638.begin (TM1638.ctor 4 2 3 []) [3, 1, 4, 0, 5, 7, 2, 6]
          8 8 6 2)
        [TM1638.Call.displayChar 0 8 false, TM1638.Call.displayInt16 1 0xbeef false,
         TM1638.Call.displayLED1 7 true, TM1638.Call.displayDP 2 true])._registers.getD 2 0 ∧
    (TM1638.performAll (TM1638.begin (TM1638.ctor 4 2 3 []) [3, 1, 4, 0, 5, 7, 2, 6] 8 8 6 2)
        [TM1638.Call.displayChar 0 8 false, TM1638.Call.displayInt16 1 0xbeef false,
         TM1638.Call.displayLED1 7 true, TM1638.Call.displayDP 2 true])._tmDigitMap
      = [3, 1, 4, 0, 5, 7, 2, 6]) ∧
    (TM1638.performAll (TM1638.begin (TM1638.ctor 4 2 3 []) [3, 1, 4, 0, 5, 7, 2, 6] 8 8 6 2)
        [TM1638.Call.displayChar 0 8 false, TM1638.Call.displayInt16 1 0xbeef false,
         TM1638.Call.displayLED1 7 true, TM1638.Call.displayDP 2 true])._registers
      = [0x7f, 0x7c, 0xf9, 0x79, 0x71, 0, 0, 0] ∧
    (TM1638.performAll (TM1638.begin (TM1638.ctor 4 2 3 []) [3, 1, 4, 0, 5, 7, 2, 6] 8 8 6 2)
        [TM1638.Call.displayChar 0 8 false, TM1638.Call.displayInt16 1 0xbeef false,
         TM1638.Call.displayLED1 7 true, TM1638.Call.displayDP 2 true]).chip.mem
      = [0x79, 0, 0x7c, 0, 0, 0, 0x7f, 0, 0xf9, 0, 0x71, 0, 0, 1, 0, 0] :=
  ⟨by decide,
    C23_chip_matches_shadow (TM1638.ctor 4 2 3 []) [3, 1, 4, 0, 5, 7, 2, 6] 8 8 6 2
      [TM1638.Call.displayChar 0 8 false, TM1638.Call.displayInt16 1 0xbeef false,
       TM1638.Call.displayLED1 7 true, TM1638.Call.displayDP 2 true] 2
      (by decide) (by decide) (by decide),
    by decide, by decide⟩

/-- C24: `displayChar d` and `displayDP d` change no shadow register other than register `d`
and leave the LED mask and the configuration as they were; `displayInt8` / `displayInt12` /
`displayInt16` at digit `d` change no register outside `d .. d + 1` / `d .. d + 2` /
`d .. d + 3` and leave the LED mask as it was; `displayLED1` and `displayLED8` change no
shadow register. None of them changes the length of the register array. -/
theorem C24_digit_writes_are_local (s : TM1638) (d v j : Nat) (b : Bool) :
    ((j ≠ d → (TM1638.displayChar s d v b)._registers.getD j 0 = s._registers.getD j 0) ∧
     (TM1638.displayChar s d v b)._registers.length = s._registers.length ∧
     (TM1638.displayChar s d v b)._allLEDs = s._allLEDs ∧
     TM1638.fixedPart (TM1638.displayChar s d v b) = TM1638.fixedPart s) ∧
    ((j ≠ d → (TM1638.displayDP s d b)._registers.getD j 0 = s._registers.getD j 0) ∧
     (TM1638.displayDP s d b)._registers.length = s._registers.length ∧
     (TM1638.displayDP s d b)._allLEDs = s._allLEDs ∧
     TM1638.fixedPart (TM1638.displayDP s d b) = TM1638.fixedPart s) ∧
    ((j ≠ d → j ≠ d + 1 →
        (TM1638.displayInt8 s d v b)._registers.getD j 0 = s._registers.getD j 0) ∧
     (TM1638.displayInt8 s d v b)._registers.length = s._registers.length ∧
     (TM1638.displayInt8 s d v b)._allLEDs = s._allLEDs) ∧
    ((j ≠ d → j ≠ d + 1 → j ≠ d + 2 →
        (TM1638.displayInt12 s d v b)._registers.getD j 0 = s._registers.getD j 0) ∧
     (TM1638.displayInt12 s d v b)._registers.length = s._registers.length ∧
     (TM1638.displayInt12 s d v b)._allLEDs = s._allLEDs) ∧
    ((j ≠ d → j ≠ d + 1 → j ≠ d + 2 → j ≠ d + 3 →
        (TM1638.displayInt16 s d v b)._registers.getD j 0 = s._registers.getD j 0) ∧
     (TM1638.displayInt16 s d v b)._registers.length = s._registers.length ∧
     (TM1638.displayInt16 s d v b)._allLEDs = s._allLEDs) ∧
    (TM1638.displayLED1 s d b)._registers = s._registers ∧
    (TM1638.displayLED8 s v b)._registers = s._registers :=
  ⟨⟨fun h => TM1638.displayChar_other s d v j b h, TM1638.displayChar_length s d v b,
      TM1638.displayChar_allLEDs s d v b, TM1638.fixedPart_displayChar s d v b⟩,
   ⟨fun h => TM1638.displayDP_other s d j b h, TM1638.displayDP_length s d b,
      TM1638.displayDP_allLEDs s d b, TM1638.fixedPart_displayDP s d b⟩,
   ⟨fun h0 h1 => TM1638.displayInt8_other s d v j b h0 h1,
      TM1638.length_of_shape (TM1638.shape_displayInt8 s d v b),
      TM1638.displayInt8_allLEDs s d v b⟩,
   ⟨fun h0 h1 h2 => TM1638.displayInt12_other s d v j b h0 h1 h2,
      TM1638.length_of_shape (TM1638.shape_displayInt12 s d v b),
      TM1638.displayInt12_allLEDs s d v b⟩,
   ⟨fun h0 h1 h2 h3 => TM1638.displayInt16_other s d v j b h0 h1 h2 h3,
      TM1638.length_of_shape (TM1638.shape_displayInt16 s d v b),
      TM1638.displayInt16_allLEDs s d v b⟩,
   TM1638.displayLED1_registers s d b, TM1638.displayLED8_registers s v b⟩

theorem C24_digit_writes_are_local_witness :
    (5 ≠ 2 ∧ 5 ≠ 2 + 1 ∧ 5 ≠ 2 + 2 ∧ 6 ≠ 2 + 3) ∧
    (TM1638.displayChar TM1638.demo 2 9 false)._registers.getD 5 0
      = TM1638.demo._registers.getD 5 0 ∧
    (TM1638.displayDP TM1638.demo 2 false)._registers.getD 5 0
      = TM1638.demo._registers.getD 5 0 ∧
    (TM1638.displayInt8 TM1638.demo 2 9 false)._registers.getD 5 0
      = TM1638.demo._registers.getD 5 0 ∧
    (TM1638.displayInt12 TM1638.demo 2 9 false)._registers.getD 5 0
      = TM1638.demo._registers.getD 5 0 ∧
    (TM1638.displayInt16 TM1638.demo 2 9 false)._registers.getD 6 0
      = TM1638.demo._registers.getD 6 0 ∧
    (TM1638.displayInt16 TM1638.demo 2 0x1234 false)._registers
      = [0, 0, 0x06, 0x5b, 0x4f, 0x66, 0, 0] ∧
    (TM1638.displayChar TM1638.demo 2 9 false)._registers = [0, 0, 0x67, 0, 0, 0, 0, 0] :=
  ⟨by decide,
    (C24_digit_writes_are_local TM1638.demo 2 9 5 false).1.1 (by decide),
    (C24_digit_writes_are_local TM1638.demo 2 9 5 false).2.1.1 (by decide),
    (C24_digit_writes_are_local TM1638.demo 2 9 5 false).2.2.1.1 (by decide) (by decide),
    (C24_digit_writes_are_local TM1638.demo 2 9 5 false).2.2.2.1.1 (by decide) (by decide)
      (by decide),
    (C24_digit_writes_are_local TM1638.demo 2 9 6 false).2.2.2.2.1.1 (by decide) (by decide)
      (by decide) (by decide),
    by decide, by decide⟩
